import Mathlib

/-!
Shallow embedding of the Cangkulan Lite ZK card game contracts
(src/contracts/cangkulan/src/lib.rs and src/contracts/zk-verifier/src/lib.rs).

Bytes are modelled as lists of naturals (each entry a byte value), u32
arithmetic is natural-number arithmetic with explicit saturation at
2^32 - 1 where the source uses `saturating_add`, and the Soroban host
primitives (keccak256, the seeded PRNG, BLS12-381 group operations,
address serialization, and the external verifier contracts) are opaque
parameters collected in a `HostEnv` record: the contracts call them
through the host interface and their code is not part of this
repository.  Each public entry point is a pure function from a storage
snapshot to a `(Option CangkulanError) × Storage` pair, mirroring the
Rust control flow check-for-check; errors return the storage as it was
at the moment of the early return.
-/

namespace Cangkulan

/-- Largest value of a u32; `saturating_add` clamps here. -/
def U32LIM : ℕ := 4294967295

/-- Model of `u32::saturating_add`. -/
def satAdd (a b : ℕ) : ℕ := min (a + b) U32LIM

-- Constants from src/contracts/cangkulan/src/lib.rs (lines 336-364).

def DECK_SIZE : ℕ := 36
def CARDS_PER_SUIT : ℕ := 9
def HAND_SIZE : ℕ := 5
def TIMEOUT_ACTIONS : ℕ := 2
def TIMEOUT_LEDGERS : ℕ := 120
def MIN_TICK_GAP_LEDGERS : ℕ := TIMEOUT_LEDGERS / TIMEOUT_ACTIONS
def MAX_HISTORY_PER_PLAYER : ℕ := 50

-- Lifecycle states (lines 222-225).
def STATE_SEED_COMMIT : ℕ := 1
def STATE_SEED_REVEAL : ℕ := 2
def STATE_PLAYING : ℕ := 3
def STATE_FINISHED : ℕ := 4

-- Trick sub-states (lines 233-241).
def TRICK_NONE : ℕ := 0
def TRICK_COMMIT_WAIT_BOTH : ℕ := 10
def TRICK_COMMIT_WAIT_P1 : ℕ := 11
def TRICK_COMMIT_WAIT_P2 : ℕ := 12
def TRICK_REVEAL_WAIT_BOTH : ℕ := 20
def TRICK_REVEAL_WAIT_P1 : ℕ := 21
def TRICK_REVEAL_WAIT_P2 : ℕ := 22

/-- Sentinel card_id signalling cannot-follow-suit (line 244). -/
def CANNOT_FOLLOW_SENTINEL : ℕ := 4294967295

-- Outcome codes (lines 249-252).
def OUTCOME_UNRESOLVED : ℕ := 0
def OUTCOME_PLAYER1_WIN : ℕ := 1
def OUTCOME_PLAYER2_WIN : ℕ := 2
def OUTCOME_DRAW : ℕ := 3

-- Player slots (lines 255-256).
def PLAYER_1 : ℕ := 1
def PLAYER_2 : ℕ := 2

/-- Big-endian 4-byte encoding of a u32 (`to_be_bytes`). -/
def be4 (n : ℕ) : List ℕ := [n / 16777216 % 256, n / 65536 % 256, n / 256 % 256, n % 256]

/-- Errors from the `CangkulanError` enum (lines 177-214). -/
inductive CangkulanError where
  | GameNotFound
  | SessionAlreadyExists
  | NotAPlayer
  | SelfPlayNotAllowed
  | GameAlreadyEnded
  | WrongPhase
  | CommitAlreadySubmitted
  | RevealAlreadySubmitted
  | CommitHashMismatch
  | InvalidZkProof
  | MissingCommit
  | NotYourTurn
  | CardNotInHand
  | WrongSuit
  | HasMatchingSuit
  | DrawPileEmpty
  | NoTrickInProgress
  | AdminNotSet
  | GameHubNotSet
  | VerifierNotSet
  | TimeoutNotReached
  | TimeoutNotConfigured
  | TimeoutNotApplicable
  | WeakSeedEntropy
  | InvalidNonce
  | PlayCommitAlreadySubmitted
  | PlayCommitMissing
  | PlayRevealMismatch
  | InvalidCardId
  | UltraHonkVerifierNotSet
  | UltraHonkVerificationFailed
  | ZkPlayProofInvalid
  | ZkPlaySetEmpty
  | ZkPlayOpeningMismatch
  | ZkCangkulProofInvalid
  | TickTooSoon
deriving DecidableEq, Repr

/-- The per-session game record, mirroring `struct CangkulanGame`
(lines 262-304).  Addresses are abstract naturals; 32-byte values are
byte lists. -/
structure CangkulanGame where
  player1 : ℕ
  player2 : ℕ
  player1_points : ℤ
  player2_points : ℤ
  seed_commit1 : Option (List ℕ)
  seed_commit2 : Option (List ℕ)
  seed_hash1 : Option (List ℕ)
  seed_hash2 : Option (List ℕ)
  seed_revealed1 : Bool
  seed_revealed2 : Bool
  hand1 : List ℕ
  hand2 : List ℕ
  draw_pile : List ℕ
  trick_state : ℕ
  trick_suit : Option ℕ
  trick_card1 : Option ℕ
  trick_card2 : Option ℕ
  flipped_card : Option ℕ
  play_commit1 : Option (List ℕ)
  play_commit2 : Option (List ℕ)
  zk_play1 : Bool
  zk_play2 : Bool
  tricks_won1 : ℕ
  tricks_won2 : ℕ
  lifecycle_state : ℕ
  outcome : ℕ
  action_nonce : ℕ
  deadline_nonce : Option ℕ
  deadline_ledger : Option ℕ
  last_tick_ledger : ℕ
deriving DecidableEq, Repr

/-- Compact per-player summary of a finished game (`struct GameSummary`,
lines 309-316). -/
structure GameSummary where
  session_id : ℕ
  opponent : ℕ
  outcome : ℕ
  tricks_won : ℕ
  tricks_lost : ℕ
  ledger : ℕ
deriving DecidableEq, Repr

/-- Storage of the contract: the temporary session map, the persistent
per-player history ring buffers, the one-shot Noir verification flags,
and the instance-scoped configuration addresses (`StorageKey`, lines
320-330). -/
structure Storage where
  games : ℕ → Option CangkulanGame
  history : ℕ → List GameSummary
  noir_seed_verified : ℕ → ℕ → Option (List ℕ)
  admin : Option ℕ
  game_hub : Option ℕ
  verifier : Option ℕ
  ultrahonk_verifier : Option ℕ

/-- Host primitives and external contracts used by the game contract.
These live outside this repository (Soroban host functions and separately
deployed contracts) and are therefore opaque parameters: `keccak256` is
the host hash, `prng_stream seed i` is the i-th sample drawn from the
host PRNG after it was seeded with `seed`, `addr_bytes` is
`Address::to_string().to_bytes()`, `g1_mul`/`g1_add`/`hash_to_g1`/
`fr_from_bytes` are the BLS12-381 host operations on serialized points
and scalars, and `verifier_verify`/`ultrahonk_ok` are the outcomes of
the external verifier contract calls. -/
structure HostEnv where
  keccak256 : List ℕ → List ℕ
  prng_stream : List ℕ → ℕ → ℕ
  addr_bytes : ℕ → List ℕ
  g1_mul : List ℕ → List ℕ → List ℕ
  g1_add : List ℕ → List ℕ → List ℕ
  hash_to_g1 : List ℕ → List ℕ → List ℕ
  fr_from_bytes : List ℕ → List ℕ
  verifier_verify : List ℕ → List ℕ → Bool
  ultrahonk_ok : List ℕ → List ℕ → Bool

abbrev CallResult := Option CangkulanError × Storage

/-- Store the game under its session key (`write_game`, lines 2212-2222;
the TTL extension has no observable effect in this model). -/
def write_game (sid : ℕ) (g : CangkulanGame) (s : Storage) : Storage :=
  { s with games := fun n => if n = sid then some g else s.games n }

/-- Map a caller address to its player slot (`resolve_slot`,
lines 1580-1588). -/
def resolve_slot (g : CangkulanGame) (player : ℕ) : Option ℕ :=
  if player = g.player1 then some PLAYER_1
  else if player = g.player2 then some PLAYER_2
  else none

/-- Saturating increment of the action nonce (`bump_nonce`,
lines 2201-2203). -/
def bump_nonce (g : CangkulanGame) : CangkulanGame :=
  { g with action_nonce := satAdd g.action_nonce 1 }

/-- Read either hand (`get_hand`, lines 2122-2127). -/
def get_hand (g : CangkulanGame) (slot : ℕ) : List ℕ :=
  if slot = PLAYER_1 then g.hand1 else g.hand2

/-- Write either hand (`set_hand`, lines 2129-2134). -/
def set_hand (g : CangkulanGame) (slot : ℕ) (hand : List ℕ) : CangkulanGame :=
  if slot = PLAYER_1 then { g with hand1 := hand } else { g with hand2 := hand }

/-- First position of a card in a hand (`find_card_position`,
lines 2136-2145), by a linear scan from index 0; `none` corresponds to
`Err(CardNotInHand)`. -/
def find_card_position (hand : List ℕ) (card_id : ℕ) : Option ℕ :=
  match hand with
  | [] => none
  | c :: rest =>
      if c = card_id then some 0
      else (find_card_position rest card_id).map (· + 1)

/-- Whether a hand holds any card of the given suit (`has_suit_in_hand`,
lines 2147-2157). -/
def has_suit_in_hand (hand : List ℕ) (suit : ℕ) : Bool :=
  hand.any (fun c => c / CARDS_PER_SUIT == suit)

/-- Sum of card values in a hand, value = id % 9 + 2
(`hand_total_value`, lines 2107-2116). -/
def hand_total_value (hand : List ℕ) : ℕ :=
  (hand.map (fun c => c % CARDS_PER_SUIT + 2)).sum

/-- Seed entropy floor: at least 4 distinct byte values among the 32
(`check_seed_entropy`, lines 1625-1643).  Returns `true` when the seed
passes. -/
def check_seed_entropy (seed : List ℕ) : Bool :=
  decide (4 ≤ seed.dedup.length)

/-- Winner cascade at natural termination (`determine_winner`,
lines 2068-2105). -/
def determine_winner (g : CangkulanGame) : ℕ :=
  let len1 := g.hand1.length
  let len2 := g.hand2.length
  if len1 = 0 ∧ 0 < len2 then OUTCOME_PLAYER1_WIN
  else if len2 = 0 ∧ 0 < len1 then OUTCOME_PLAYER2_WIN
  else if g.tricks_won2 < g.tricks_won1 then OUTCOME_PLAYER1_WIN
  else if g.tricks_won1 < g.tricks_won2 then OUTCOME_PLAYER2_WIN
  else if len1 < len2 then OUTCOME_PLAYER1_WIN
  else if len2 < len1 then OUTCOME_PLAYER2_WIN
  else if hand_total_value g.hand1 < hand_total_value g.hand2 then OUTCOME_PLAYER1_WIN
  else if hand_total_value g.hand2 < hand_total_value g.hand1 then OUTCOME_PLAYER2_WIN
  else OUTCOME_DRAW

/-- Outcome from the opponent perspective (`flip_outcome`,
lines 1524-1530). -/
def flip_outcome (outcome : ℕ) : ℕ :=
  if outcome = OUTCOME_PLAYER1_WIN then OUTCOME_PLAYER2_WIN
  else if outcome = OUTCOME_PLAYER2_WIN then OUTCOME_PLAYER1_WIN
  else outcome

-- ═══════════════════════════════  Shuffle  ═══════════════════════════════

/-- Swap of two positions of the deck array: `tmp = deck[idx];
deck[idx] = deck[j]; deck[j] = tmp` (lines 1277-1279 and 1882-1884). -/
def swapL (l : List ℕ) (i j : ℕ) : List ℕ :=
  (l.set i (l.getD j 0)).set j (l.getD i 0)

/-- Modelled from the spec: the Soroban host primitive
`env.prng().gen_range::<u64>(0..=upper)` (not part of this repository)
returns a uniformly distributed sample of the inclusive range
`[0, upper]`; the k-th call after seeding draws the k-th value of the
seeded stream, reduced into the range. -/
def gen_range_incl (stream : ℕ → ℕ) (k upper : ℕ) : ℕ :=
  stream k % (upper + 1)

/-- Fisher-Yates loop body for `idx = n` down to `1`, drawing
`j ∈ [0, idx]` at each step (lines 1273-1280 and 1878-1885; the sample
for `idx` is the `(35 - idx)`-th PRNG draw after seeding). -/
def fy_aux (stream : ℕ → ℕ) : ℕ → List ℕ → List ℕ
  | 0, d => d
  | Nat.succ n, d =>
      let idx := n + 1
      let j := gen_range_incl stream (35 - idx) idx
      fy_aux stream n (swapL d idx j)

/-- Full Fisher-Yates pass over the 36-card deck. -/
def fisher_yates (stream : ℕ → ℕ) (d : List ℕ) : List ℕ :=
  fy_aux stream 35 d

/-- The ordered deck `[0..36)` (lines 1266-1271 and 1870-1875). -/
def deck0 : List ℕ := List.range DECK_SIZE

/-- Deck order recomputed inside `shuffle_and_deal` (lines 1858-1885):
seed the PRNG with `keccak256(sh1 ∥ sh2 ∥ session_id_be4)` and run
Fisher-Yates over `[0..36)`. -/
def shuffled_deck (E : HostEnv) (sh1 sh2 : List ℕ) (sid : ℕ) : List ℕ :=
  let seed := E.keccak256 (sh1 ++ sh2 ++ be4 sid)
  fisher_yates (E.prng_stream seed) deck0

/-- Deck order recomputed inside the public audit entry point
`verify_shuffle` (lines 1260-1280), which duplicates the shuffle code
of `shuffle_and_deal`. -/
def verify_shuffle_deck (E : HostEnv) (sh1 sh2 : List ℕ) (sid : ℕ) : List ℕ :=
  let seed := E.keccak256 (sh1 ++ sh2 ++ be4 sid)
  fisher_yates (E.prng_stream seed) deck0

/-- Shuffle and deal (lines 1858-1907): first 5 cards to hand1, next 5
to hand2, remaining 26 to the draw pile.  The stored seed hashes are
read with `unwrap()`; the function is only invoked once both are set. -/
def shuffle_and_deal (E : HostEnv) (g : CangkulanGame) (sid : ℕ) : CangkulanGame :=
  let sh1 := g.seed_hash1.getD []
  let sh2 := g.seed_hash2.getD []
  let deck := shuffled_deck E sh1 sh2 sid
  { g with hand1 := deck.take 5, hand2 := (deck.drop 5).take 5, draw_pile := deck.drop 10 }

/-- Flip the head of the draw pile to open a new trick
(`flip_next_card`, lines 1914-1932).  No-op when the pile is empty. -/
def flip_next_card (g : CangkulanGame) : CangkulanGame :=
  match g.draw_pile with
  | [] => g
  | card :: rest =>
      { g with draw_pile := rest
             , flipped_card := some card
             , trick_suit := some (card / CARDS_PER_SUIT)
             , trick_card1 := none
             , trick_card2 := none
             , play_commit1 := none
             , play_commit2 := none
             , zk_play1 := false
             , zk_play2 := false
             , trick_state := TRICK_COMMIT_WAIT_BOTH }

-- ═════════════════════════  Trick sub-state machine  ═════════════════════════

/-- Whether `slot` may commit in the current trick sub-state
(`require_commit_phase`, lines 1591-1602). -/
def require_commit_phase (g : CangkulanGame) (slot : ℕ) : Bool :=
  if g.trick_state = TRICK_COMMIT_WAIT_BOTH then true
  else if g.trick_state = TRICK_COMMIT_WAIT_P1 then slot == PLAYER_1
  else if g.trick_state = TRICK_COMMIT_WAIT_P2 then slot == PLAYER_2
  else false

/-- Whether `slot` may reveal in the current trick sub-state
(`require_reveal_phase`, lines 1605-1616). -/
def require_reveal_phase (g : CangkulanGame) (slot : ℕ) : Bool :=
  if g.trick_state = TRICK_REVEAL_WAIT_BOTH then true
  else if g.trick_state = TRICK_REVEAL_WAIT_P1 then slot == PLAYER_1
  else if g.trick_state = TRICK_REVEAL_WAIT_P2 then slot == PLAYER_2
  else false

/-- Advance the commit sub-state after `slot` commits
(`advance_commit_state`, lines 1935-1946). -/
def advance_commit_state (g : CangkulanGame) (slot : ℕ) : CangkulanGame :=
  { g with trick_state :=
      if g.trick_state = TRICK_COMMIT_WAIT_BOTH then
        (if slot = PLAYER_1 then TRICK_COMMIT_WAIT_P2 else TRICK_COMMIT_WAIT_P1)
      else TRICK_REVEAL_WAIT_BOTH }

/-- Advance the reveal sub-state after `slot` reveals
(`advance_reveal_state`, lines 1949-1960). -/
def advance_reveal_state (g : CangkulanGame) (slot : ℕ) : CangkulanGame :=
  { g with trick_state :=
      if g.trick_state = TRICK_REVEAL_WAIT_BOTH then
        (if slot = PLAYER_1 then TRICK_REVEAL_WAIT_P2 else TRICK_REVEAL_WAIT_P1)
      else TRICK_NONE }

/-- Move the head of the draw pile into the hand of `slot` as a penalty
(`give_penalty_card`, lines 2052-2062).  No-op on an empty pile. -/
def give_penalty_card (g : CangkulanGame) (slot : ℕ) : CangkulanGame :=
  match g.draw_pile with
  | [] => g
  | card :: rest =>
      if slot = PLAYER_1 then { g with draw_pile := rest, hand1 := g.hand1 ++ [card] }
      else { g with draw_pile := rest, hand2 := g.hand2 ++ [card] }

-- ═════════════════════════════  Finalization  ═════════════════════════════

/-- Drop head entries while the ring buffer is at capacity (the
`while history.len() >= MAX_HISTORY_PER_PLAYER` loop of
`save_player_history`, lines 1550-1552). -/
def trim_history (l : List GameSummary) : List GameSummary :=
  if MAX_HISTORY_PER_PLAYER ≤ l.length then l.drop (l.length - (MAX_HISTORY_PER_PLAYER - 1)) else l

/-- Append a summary to a player ring buffer, evicting the oldest entry
at capacity (`save_player_history`, lines 1533-1567). -/
def save_player_history (led sid player opponent outcome tw tl : ℕ) (s : Storage) : Storage :=
  let h2 := trim_history (s.history player) ++
    [{ session_id := sid, opponent := opponent, outcome := outcome,
       tricks_won := tw, tricks_lost := tl, ledger := led }]
  { s with history := fun p => if p = player then h2 else s.history p }

/-- Finalize a game (`finalize_game`, lines 1461-1521): reject if
already finished, load the hub, derive the hub `player1_won` flag (an
unbiasable coin flip on a draw), mark the game finished, clear the
deadlines, and append summaries to both player histories.  The hub
`end_game` call and the events are external effects with no modelled
state. -/
def finalize_game (E : HostEnv) (led sid : ℕ) (g : CangkulanGame) (outcome : ℕ)
    (s : Storage) : Option CangkulanError × CangkulanGame × Storage :=
  if g.lifecycle_state = STATE_FINISHED then (some .GameAlreadyEnded, g, s)
  else
    match s.game_hub with
    | none => (some .GameHubNotSet, g, s)
    | some _ =>
      let player1_won : Bool :=
        if outcome = OUTCOME_PLAYER1_WIN then true
        else if outcome = OUTCOME_DRAW then
          match g.seed_commit1, g.seed_commit2 with
          | some c1, some c2 => (E.keccak256 (c1 ++ c2)).getD 0 0 % 2 == 0
          | _, _ => sid % 2 == 0
        else false
      let _hub_reported := player1_won
      let g1 := { g with outcome := outcome, lifecycle_state := STATE_FINISHED,
                         deadline_nonce := none, deadline_ledger := none }
      let s1 := save_player_history led sid g.player1 g.player2 outcome
                  g.tricks_won1 g.tricks_won2 s
      let s2 := save_player_history led sid g.player2 g.player1 (flip_outcome outcome)
                  g.tricks_won2 g.tricks_won1 s1
      (none, g1, s2)

/-- Resolve a completed trick (`resolve_trick`, lines 1963-2049):
score the trick by the four play/no-play cases, clear the trick fields,
finalize when a hand or the pile is empty, otherwise flip the next
card and re-arm the deadlines. -/
def resolve_trick (E : HostEnv) (led sid : ℕ) (g : CangkulanGame) (s : Storage) :
    Option CangkulanError × CangkulanGame × Storage :=
  let g1 :=
    match g.trick_card1, g.trick_card2 with
    | some c1, some c2 =>
        if c2 % CARDS_PER_SUIT ≤ c1 % CARDS_PER_SUIT then
          { g with tricks_won1 := g.tricks_won1 + 1 }
        else { g with tricks_won2 := g.tricks_won2 + 1 }
    | some _, none => give_penalty_card { g with tricks_won1 := g.tricks_won1 + 1 } PLAYER_2
    | none, some _ => give_penalty_card { g with tricks_won2 := g.tricks_won2 + 1 } PLAYER_1
    | none, none => g
  let g2 := { g1 with flipped_card := none, trick_suit := none,
                      trick_card1 := none, trick_card2 := none,
                      play_commit1 := none, play_commit2 := none,
                      zk_play1 := false, zk_play2 := false }
  if g2.hand1.isEmpty || g2.hand2.isEmpty then
    finalize_game E led sid g2 (determine_winner g2) s
  else if g2.draw_pile.isEmpty then
    finalize_game E led sid g2 (determine_winner g2) s
  else
    let g3 := flip_next_card g2
    let g4 := { g3 with deadline_nonce := some (satAdd g3.action_nonce TIMEOUT_ACTIONS),
                        deadline_ledger := some (satAdd led TIMEOUT_LEDGERS) }
    (none, g4, s)

/-- Timeout outcome by phase (`determine_timeout_outcome`,
lines 2163-2195). -/
def determine_timeout_outcome (g : CangkulanGame) : Except CangkulanError ℕ :=
  if g.lifecycle_state = STATE_SEED_COMMIT then
    match g.seed_commit1.isSome, g.seed_commit2.isSome with
    | true, false => .ok OUTCOME_PLAYER1_WIN
    | false, true => .ok OUTCOME_PLAYER2_WIN
    | _, _ => .error .TimeoutNotApplicable
  else if g.lifecycle_state = STATE_SEED_REVEAL then
    match g.seed_revealed1, g.seed_revealed2 with
    | true, false => .ok OUTCOME_PLAYER1_WIN
    | false, true => .ok OUTCOME_PLAYER2_WIN
    | false, false => .ok OUTCOME_DRAW
    | _, _ => .error .TimeoutNotApplicable
  else if g.lifecycle_state = STATE_PLAYING then
    if g.trick_state = TRICK_COMMIT_WAIT_P1 ∨ g.trick_state = TRICK_REVEAL_WAIT_P1 then
      .ok OUTCOME_PLAYER2_WIN
    else if g.trick_state = TRICK_COMMIT_WAIT_P2 ∨ g.trick_state = TRICK_REVEAL_WAIT_P2 then
      .ok OUTCOME_PLAYER1_WIN
    else if g.trick_state = TRICK_COMMIT_WAIT_BOTH ∨ g.trick_state = TRICK_REVEAL_WAIT_BOTH then
      .ok (determine_winner g)
    else .error .TimeoutNotApplicable
  else .error .TimeoutNotApplicable

-- ═══════════════════  Pedersen commitment on the game side  ═══════════════════

/-- Serialized BLS12-381 G1 generator (`G1_GENERATOR`, lines 1650-1659;
identical bytes in the verifier). -/
def G1_GENERATOR : List ℕ :=
  [0x17, 0xf1, 0xd3, 0xa7, 0x31, 0x97, 0xd7, 0x94, 0x26, 0x95, 0x63, 0x8c,
   0x4f, 0xa9, 0xac, 0x0f, 0xc3, 0x68, 0x8c, 0x4f, 0x97, 0x74, 0xb9, 0x05,
   0xa1, 0x4e, 0x3a, 0x3f, 0x17, 0x1b, 0xac, 0x58, 0x6c, 0x55, 0xe8, 0x3f,
   0xf9, 0x7a, 0x1a, 0xef, 0xfb, 0x3a, 0xf0, 0x0a, 0xdb, 0x22, 0xc6, 0xbb,
   0x08, 0xb3, 0xf4, 0x81, 0xe3, 0xaa, 0xa0, 0xf1, 0xa0, 0x9e, 0x30, 0xed,
   0x74, 0x1d, 0x8a, 0xe4, 0xfc, 0xf5, 0xe0, 0x95, 0xd5, 0xd0, 0x0a, 0xf6,
   0x00, 0xdb, 0x18, 0xcb, 0x2c, 0x04, 0xb3, 0xed, 0xd0, 0x3c, 0xc7, 0x44,
   0xa2, 0x88, 0x8a, 0xe4, 0x0c, 0xaa, 0x23, 0x29, 0x46, 0xc5, 0xe7, 0xe1]

/-- ASCII bytes of `"PEDERSEN_H"` (line 1662). -/
def PEDERSEN_H_MSG : List ℕ := [80, 69, 68, 69, 82, 83, 69, 78, 95, 72]

/-- ASCII bytes of `"SGS_CANGKULAN_V1"` (line 1663). -/
def PEDERSEN_H_DST : List ℕ :=
  [83, 71, 83, 95, 67, 65, 78, 71, 75, 85, 76, 65, 78, 95, 86, 49]

/-- ASCII bytes of the `"NULL"` nullifier tag (line 1692). -/
def NULLIFIER_TAG : List ℕ := [0x4E, 0x55, 0x4C, 0x4C]

/-- A u32 as a 32-byte big-endian Fr encoding (leading 28 zero bytes),
as built in `pedersen_commit` lines 1675-1679. -/
def fr_bytes_of_u32 (n : ℕ) : List ℕ := List.replicate 28 0 ++ be4 n

/-- Pedersen commitment `C = card_id·G + blinding·H` computed by the
game contract for ZK reveal openings (`pedersen_commit`,
lines 1666-1689).  Points are their 96-byte serializations. -/
def pedersen_commit (E : HostEnv) (card_id : ℕ) (blinding : List ℕ) : List ℕ :=
  let g := G1_GENERATOR
  let h := E.hash_to_g1 PEDERSEN_H_MSG PEDERSEN_H_DST
  let card_fr := E.fr_from_bytes (fr_bytes_of_u32 card_id)
  let blinding_fr := E.fr_from_bytes blinding
  E.g1_add (E.g1_mul g card_fr) (E.g1_mul h blinding_fr)

/-- Noir public-input encoding: each byte of the seed hash becomes a
32-byte big-endian field element (lines 1430-1439 and 1829-1839). -/
def noir_encode (seed_hash : List ℕ) : List ℕ :=
  (seed_hash.map (fun b => List.replicate 31 0 ++ [b])).flatten

-- ═══════════════════════════  Seed verification  ═══════════════════════════

/-- Dispatch of the seed proof by length and call of the external
verifier (`call_seed_verifier`, lines 1716-1848): empty proof consumes
the one-shot Noir flag, 224 bytes is Pedersen+Sigma (commit binding
checked on-chain, sigma part sent to the verifier), 64 bytes is the
NIZK mode, above 4000 bytes routes to the UltraHonk verifier (whose
failure aborts the transaction, modelled as the
`UltraHonkVerificationFailed` error), anything else is rejected. -/
def call_seed_verifier (E : HostEnv) (sid slot player : ℕ)
    (seed_hash commit_hash proof : List ℕ) (s : Storage) :
    Option CangkulanError × Storage :=
  match s.verifier with
  | none => (some .VerifierNotSet, s)
  | some _ =>
    if proof.length = 0 then
      match s.noir_seed_verified sid slot with
      | some verified_hash =>
          if verified_hash ≠ seed_hash then (some .CommitHashMismatch, s)
          else if E.keccak256 seed_hash ≠ commit_hash then (some .CommitHashMismatch, s)
          else
            (none, { s with noir_seed_verified := fun a b =>
                      if a = sid ∧ b = slot then none else s.noir_seed_verified a b })
      | none => (some .InvalidZkProof, s)
    else if proof.length = 224 then
      let c_bytes := proof.take 96
      if E.keccak256 c_bytes ≠ commit_hash then (some .InvalidZkProof, s)
      else
        let public_inputs := c_bytes ++ seed_hash ++ be4 sid ++ E.addr_bytes player
        let sigma_proof := proof.drop 96
        if E.verifier_verify public_inputs sigma_proof then (none, s)
        else (some .InvalidZkProof, s)
    else if proof.length = 64 then
      let nullifier := E.keccak256 (seed_hash ++ NULLIFIER_TAG ++ be4 sid)
      let public_inputs := seed_hash ++ commit_hash ++ nullifier ++ be4 sid ++
        E.addr_bytes player
      if E.verifier_verify public_inputs proof then (none, s)
      else (some .InvalidZkProof, s)
    else if 4000 < proof.length then
      if E.keccak256 seed_hash ≠ commit_hash then (some .CommitHashMismatch, s)
      else
        match s.ultrahonk_verifier with
        | none => (some .UltraHonkVerifierNotSet, s)
        | some _ =>
          if E.ultrahonk_ok (noir_encode seed_hash) proof then (none, s)
          else (some .UltraHonkVerificationFailed, s)
    else (some .InvalidZkProof, s)

-- ═══════════════════════════  Public entry points  ═══════════════════════════

/-- Create a session (`start_game`, lines 391-477).  Caller
authentication and the hub `start_game` call are external effects; a
hub failure aborts the whole transaction and is out of model. -/
def start_game (E : HostEnv) (led sid p1 p2 : ℕ) (pts1 pts2 : ℤ) (s : Storage) :
    CallResult :=
  if p1 = p2 then (some .SelfPlayNotAllowed, s)
  else
    match s.games sid with
    | some _ => (some .SessionAlreadyExists, s)
    | none =>
      match s.game_hub with
      | none => (some .GameHubNotSet, s)
      | some _ =>
        let _ := led
        let g : CangkulanGame :=
          { player1 := p1, player2 := p2
          , player1_points := pts1, player2_points := pts2
          , seed_commit1 := none, seed_commit2 := none
          , seed_hash1 := none, seed_hash2 := none
          , seed_revealed1 := false, seed_revealed2 := false
          , hand1 := [], hand2 := [], draw_pile := []
          , trick_state := TRICK_NONE, trick_suit := none
          , trick_card1 := none, trick_card2 := none, flipped_card := none
          , play_commit1 := none, play_commit2 := none
          , zk_play1 := false, zk_play2 := false
          , tricks_won1 := 0, tricks_won2 := 0
          , lifecycle_state := STATE_SEED_COMMIT, outcome := OUTCOME_UNRESOLVED
          , action_nonce := 0, deadline_nonce := none, deadline_ledger := none
          , last_tick_ledger := 0 }
        (none, write_game sid g s)

/-- Commit a seed hash (`commit_seed`, lines 484-539). -/
def commit_seed (E : HostEnv) (led sid player : ℕ) (commit_hash : List ℕ)
    (s : Storage) : CallResult :=
  match s.games sid with
  | none => (some .GameNotFound, s)
  | some g0 =>
    if g0.lifecycle_state ≠ STATE_SEED_COMMIT then (some .WrongPhase, s)
    else
      match resolve_slot g0 player with
      | none => (some .NotAPlayer, s)
      | some slot =>
        let finish : CangkulanGame → CallResult := fun g1 =>
          let g2 := bump_nonce g1
          let g3 :=
            if g2.deadline_nonce.isNone then
              { g2 with deadline_nonce := some (satAdd g2.action_nonce TIMEOUT_ACTIONS)
                      , deadline_ledger := some (satAdd led TIMEOUT_LEDGERS) }
            else g2
          let g4 :=
            if g3.seed_commit1.isSome && g3.seed_commit2.isSome then
              { g3 with lifecycle_state := STATE_SEED_REVEAL
                      , deadline_nonce := some (satAdd g3.action_nonce TIMEOUT_ACTIONS)
                      , deadline_ledger := some (satAdd led TIMEOUT_LEDGERS) }
            else g3
          (none, write_game sid g4 s)
        if slot = PLAYER_1 then
          if g0.seed_commit1.isSome then (some .CommitAlreadySubmitted, s)
          else finish { g0 with seed_commit1 := some commit_hash }
        else
          if g0.seed_commit2.isSome then (some .CommitAlreadySubmitted, s)
          else finish { g0 with seed_commit2 := some commit_hash }

/-- Tail of `reveal_seed` after the commit lookup (lines 596-642):
entropy floor, verifier call, mark revealed, bump, and when both seeds
are revealed shuffle, deal, flip the first card and re-arm deadlines. -/
def reveal_seed_core (E : HostEnv) (led sid player slot : ℕ)
    (seed_hash commit_hash proof : List ℕ) (g0 : CangkulanGame) (s : Storage) :
    CallResult :=
  if !(check_seed_entropy seed_hash) then (some .WeakSeedEntropy, s)
  else
    match call_seed_verifier E sid slot player seed_hash commit_hash proof s with
    | (some e, s1) => (some e, s1)
    | (none, s1) =>
      let g1 :=
        if slot = PLAYER_1 then
          { g0 with seed_revealed1 := true, seed_hash1 := some seed_hash }
        else
          { g0 with seed_revealed2 := true, seed_hash2 := some seed_hash }
      let g2 := bump_nonce g1
      if g2.seed_revealed1 && g2.seed_revealed2 then
        let g3 := shuffle_and_deal E g2 sid
        let g4 := { g3 with lifecycle_state := STATE_PLAYING }
        let g5 := flip_next_card g4
        let g6 := { g5 with deadline_nonce := some (satAdd g5.action_nonce TIMEOUT_ACTIONS)
                          , deadline_ledger := some (satAdd led TIMEOUT_LEDGERS) }
        (none, write_game sid g6 s1)
      else (none, write_game sid g2 s1)

/-- Reveal a seed hash with a ZK proof (`reveal_seed`, lines 560-643). -/
def reveal_seed (E : HostEnv) (led sid player : ℕ) (seed_hash proof : List ℕ)
    (s : Storage) : CallResult :=
  match s.games sid with
  | none => (some .GameNotFound, s)
  | some g0 =>
    if g0.lifecycle_state ≠ STATE_SEED_REVEAL then (some .WrongPhase, s)
    else
      match resolve_slot g0 player with
      | none => (some .NotAPlayer, s)
      | some slot =>
        if slot = PLAYER_1 then
          if g0.seed_revealed1 then (some .RevealAlreadySubmitted, s)
          else
            match g0.seed_commit1 with
            | none => (some .MissingCommit, s)
            | some ch => reveal_seed_core E led sid player slot seed_hash ch proof g0 s
        else
          if g0.seed_revealed2 then (some .RevealAlreadySubmitted, s)
          else
            match g0.seed_commit2 with
            | none => (some .MissingCommit, s)
            | some ch => reveal_seed_core E led sid player slot seed_hash ch proof g0 s

/-- Shared tail of the three commit-play entry points (lines 697-706,
813-822 and 928-937): advance the commit sub-state, bump the nonce and
re-arm the deadlines. -/
def commit_play_finish (led sid : ℕ) (g1 : CangkulanGame) (slot : ℕ) (s : Storage) :
    CallResult :=
  let g2 := advance_commit_state g1 slot
  let g3 := bump_nonce g2
  let g4 := { g3 with deadline_nonce := some (satAdd g3.action_nonce TIMEOUT_ACTIONS)
                    , deadline_ledger := some (satAdd led TIMEOUT_LEDGERS) }
  (none, write_game sid g4 s)

/-- Commit a play action with a legacy keccak commitment (`commit_play`,
lines 657-707). -/
def commit_play (E : HostEnv) (led sid player : ℕ) (commit_hash : List ℕ)
    (expected_nonce : ℕ) (s : Storage) : CallResult :=
  match s.games sid with
  | none => (some .GameNotFound, s)
  | some g0 =>
    if g0.lifecycle_state ≠ STATE_PLAYING then (some .WrongPhase, s)
    else if expected_nonce ≠ g0.action_nonce then (some .InvalidNonce, s)
    else
      match resolve_slot g0 player with
      | none => (some .NotAPlayer, s)
      | some slot =>
        if !(require_commit_phase g0 slot) then (some .NotYourTurn, s)
        else if slot = PLAYER_1 then
          if g0.play_commit1.isSome then (some .PlayCommitAlreadySubmitted, s)
          else commit_play_finish led sid { g0 with play_commit1 := some commit_hash } slot s
        else
          if g0.play_commit2.isSome then (some .PlayCommitAlreadySubmitted, s)
          else commit_play_finish led sid { g0 with play_commit2 := some commit_hash } slot s

/-- Commit a play with a mode-7 ring sigma proof (`commit_play_zk`,
lines 719-823). -/
def commit_play_zk (E : HostEnv) (led sid player : ℕ) (commit_hash : List ℕ)
    (expected_nonce : ℕ) (zk_proof : List ℕ) (s : Storage) : CallResult :=
  match s.games sid with
  | none => (some .GameNotFound, s)
  | some g0 =>
    if g0.lifecycle_state ≠ STATE_PLAYING then (some .WrongPhase, s)
    else if expected_nonce ≠ g0.action_nonce then (some .InvalidNonce, s)
    else
      match resolve_slot g0 player with
      | none => (some .NotAPlayer, s)
      | some slot =>
        if !(require_commit_phase g0 slot) then (some .NotYourTurn, s)
        else if (if slot = PLAYER_1 then g0.play_commit1.isSome else g0.play_commit2.isSome)
        then (some .PlayCommitAlreadySubmitted, s)
        else
          match g0.trick_suit with
          | none => (some .NoTrickInProgress, s)
          | some trick_suit =>
            let hand := get_hand g0 slot
            let valid_set := hand.filter (fun c => c / CARDS_PER_SUIT == trick_suit)
            let n := valid_set.length
            if n = 0 then (some .ZkPlaySetEmpty, s)
            else
              let public_inputs := commit_hash ++ be4 n ++
                (valid_set.map be4).flatten ++ be4 sid ++ E.addr_bytes player
              match s.verifier with
              | none => (some .VerifierNotSet, s)
              | some _ =>
                if !(E.verifier_verify public_inputs zk_proof) then
                  (some .ZkPlayProofInvalid, s)
                else
                  let g1 :=
                    if slot = PLAYER_1 then
                      { g0 with play_commit1 := some commit_hash, zk_play1 := true }
                    else
                      { g0 with play_commit2 := some commit_hash, zk_play2 := true }
                  commit_play_finish led sid g1 slot s

/-- Commit a cangkul declaration with a mode-8 hand proof
(`commit_cangkul_zk`, lines 840-938). -/
def commit_cangkul_zk (E : HostEnv) (led sid player : ℕ) (commit_hash : List ℕ)
    (expected_nonce : ℕ) (zk_proof : List ℕ) (s : Storage) : CallResult :=
  match s.games sid with
  | none => (some .GameNotFound, s)
  | some g0 =>
    if g0.lifecycle_state ≠ STATE_PLAYING then (some .WrongPhase, s)
    else if expected_nonce ≠ g0.action_nonce then (some .InvalidNonce, s)
    else
      match resolve_slot g0 player with
      | none => (some .NotAPlayer, s)
      | some slot =>
        if !(require_commit_phase g0 slot) then (some .NotYourTurn, s)
        else if (if slot = PLAYER_1 then g0.play_commit1.isSome else g0.play_commit2.isSome)
        then (some .PlayCommitAlreadySubmitted, s)
        else
          match g0.trick_suit with
          | none => (some .NoTrickInProgress, s)
          | some trick_suit =>
            let hand := get_hand g0 slot
            if has_suit_in_hand hand trick_suit then (some .HasMatchingSuit, s)
            else
              let k := hand.length
              let public_inputs := commit_hash ++ be4 trick_suit ++ be4 k ++
                (hand.map be4).flatten ++ be4 sid ++ E.addr_bytes player
              match s.verifier with
              | none => (some .VerifierNotSet, s)
              | some _ =>
                if !(E.verifier_verify public_inputs zk_proof) then
                  (some .ZkCangkulProofInvalid, s)
                else
                  let g1 :=
                    if slot = PLAYER_1 then
                      { g0 with play_commit1 := some commit_hash, zk_play1 := true }
                    else
                      { g0 with play_commit2 := some commit_hash, zk_play2 := true }
                  commit_play_finish led sid g1 slot s

/-- Shared tail of `reveal_play` (lines 1055-1069): advance the reveal
sub-state, bump the nonce, then either resolve the trick (both players
revealed) or re-arm the deadlines. -/
def reveal_play_finish (E : HostEnv) (led sid : ℕ) (g : CangkulanGame) (slot : ℕ)
    (s : Storage) : CallResult :=
  let g1 := advance_reveal_state g slot
  let g2 := bump_nonce g1
  if g2.trick_state = TRICK_NONE then
    match resolve_trick E led sid g2 s with
    | (some e, _, s1) => (some e, s1)
    | (none, g3, s1) => (none, write_game sid g3 s1)
  else
    let g3 := { g2 with deadline_nonce := some (satAdd g2.action_nonce TIMEOUT_ACTIONS)
                      , deadline_ledger := some (satAdd led TIMEOUT_LEDGERS) }
    (none, write_game sid g3 s)

/-- Reveal a previously committed play (`reveal_play`, lines 947-1070):
check the commit opening (legacy keccak, mode-7 Pedersen or mode-8
aggregate Pedersen depending on the zk flag and the sentinel), then
enforce the action semantics (sentinel: no matching suit in hand; card:
valid id, present in hand, of the trick suit, removed and recorded),
and advance. -/
def reveal_play (E : HostEnv) (led sid player card_id : ℕ) (salt : List ℕ)
    (s : Storage) : CallResult :=
  match s.games sid with
  | none => (some .GameNotFound, s)
  | some g0 =>
    if g0.lifecycle_state ≠ STATE_PLAYING then (some .WrongPhase, s)
    else
      match resolve_slot g0 player with
      | none => (some .NotAPlayer, s)
      | some slot =>
        if !(require_reveal_phase g0 slot) then (some .NotYourTurn, s)
        else
          match (if slot = PLAYER_1 then g0.play_commit1 else g0.play_commit2) with
          | none => (some .PlayCommitMissing, s)
          | some commit =>
            let is_zk := if slot = PLAYER_1 then g0.zk_play1 else g0.zk_play2
            let is_cangkul := card_id = CANNOT_FOLLOW_SENTINEL
            let opening_err : Option CangkulanError :=
              if is_zk then
                if is_cangkul then
                  let hand := get_hand g0 slot
                  let a_bytes := pedersen_commit E hand.sum salt
                  if E.keccak256 a_bytes ≠ commit then some .ZkPlayOpeningMismatch else none
                else
                  let c_bytes := pedersen_commit E card_id salt
                  if E.keccak256 c_bytes ≠ commit then some .ZkPlayOpeningMismatch else none
              else
                if E.keccak256 (be4 card_id ++ salt) ≠ commit then
                  some .PlayRevealMismatch
                else none
            match opening_err with
            | some e => (some e, s)
            | none =>
              if is_cangkul then
                match g0.trick_suit with
                | none => (some .NoTrickInProgress, s)
                | some trick_suit =>
                  if has_suit_in_hand (get_hand g0 slot) trick_suit then
                    (some .HasMatchingSuit, s)
                  else reveal_play_finish E led sid g0 slot s
              else
                if DECK_SIZE ≤ card_id then (some .InvalidCardId, s)
                else
                  match find_card_position (get_hand g0 slot) card_id with
                  | none => (some .CardNotInHand, s)
                  | some card_pos =>
                    match g0.trick_suit with
                    | none => (some .NoTrickInProgress, s)
                    | some trick_suit =>
                      if card_id / CARDS_PER_SUIT ≠ trick_suit then (some .WrongSuit, s)
                      else
                        let g1 := set_hand g0 slot ((get_hand g0 slot).eraseIdx card_pos)
                        let g2 :=
                          if slot = PLAYER_1 then { g1 with trick_card1 := some card_id }
                          else { g1 with trick_card2 := some card_id }
                        reveal_play_finish E led sid g2 slot s

/-- Tick the timeout clock (`tick_timeout`, lines 1076-1099):
rate-limited to one tick per `MIN_TICK_GAP_LEDGERS` ledgers, bumps the
nonce. -/
def tick_timeout (E : HostEnv) (led sid caller : ℕ) (s : Storage) : CallResult :=
  match s.games sid with
  | none => (some .GameNotFound, s)
  | some g0 =>
    if g0.lifecycle_state = STATE_FINISHED then (some .GameAlreadyEnded, s)
    else
      match resolve_slot g0 caller with
      | none => (some .NotAPlayer, s)
      | some _ =>
        if led < satAdd g0.last_tick_ledger MIN_TICK_GAP_LEDGERS then
          (some .TickTooSoon, s)
        else
          let g1 := bump_nonce { g0 with last_tick_ledger := led }
          (none, write_game sid g1 s)

/-- Resolve an expired timeout (`resolve_timeout`, lines 1101-1133):
requires the nonce deadline or the ledger deadline to have passed,
then finalizes with the phase-dependent outcome. -/
def resolve_timeout (E : HostEnv) (led sid caller : ℕ) (s : Storage) : CallResult :=
  match s.games sid with
  | none => (some .GameNotFound, s)
  | some g0 =>
    if g0.lifecycle_state = STATE_FINISHED then (some .GameAlreadyEnded, s)
    else
      match resolve_slot g0 caller with
      | none => (some .NotAPlayer, s)
      | some _ =>
        match g0.deadline_nonce with
        | none => (some .TimeoutNotConfigured, s)
        | some deadline =>
          let nonce_expired : Bool := decide (deadline ≤ g0.action_nonce)
          let ledger_expired : Bool :=
            match g0.deadline_ledger with
            | some dl => decide (dl ≤ led)
            | none => false
          if !(nonce_expired || ledger_expired) then (some .TimeoutNotReached, s)
          else
            match determine_timeout_outcome g0 with
            | .error e => (some e, s)
            | .ok outcome =>
              match finalize_game E led sid g0 outcome s with
              | (some e, _, s1) => (some e, s1)
              | (none, g1, s1) => (none, write_game sid g1 s1)

/-- Forfeit (`forfeit`, lines 1143-1164): the caller immediately loses;
the opponent is declared the winner. -/
def forfeit (E : HostEnv) (led sid caller : ℕ) (s : Storage) : CallResult :=
  match s.games sid with
  | none => (some .GameNotFound, s)
  | some g0 =>
    if g0.lifecycle_state = STATE_FINISHED then (some .GameAlreadyEnded, s)
    else
      match resolve_slot g0 caller with
      | none => (some .NotAPlayer, s)
      | some slot =>
        let outcome := if slot = PLAYER_1 then OUTCOME_PLAYER2_WIN else OUTCOME_PLAYER1_WIN
        match finalize_game E led sid g0 outcome s with
        | (some e, _, s1) => (some e, s1)
        | (none, g1, s1) => (none, write_game sid g1 s1)

/-- Split-transaction Noir verification (`verify_noir_seed`,
lines 1375-1452): checks phase, slot, entropy, the
`commit = keccak256(seed_hash)` binding and the proof size, calls the
UltraHonk verifier (failure aborts, modelled as an error), then caches
the one-shot verified flag. -/
def verify_noir_seed (E : HostEnv) (led sid player : ℕ) (seed_hash proof : List ℕ)
    (s : Storage) : CallResult :=
  match s.games sid with
  | none => (some .GameNotFound, s)
  | some g0 =>
    if g0.lifecycle_state ≠ STATE_SEED_REVEAL then (some .WrongPhase, s)
    else
      match resolve_slot g0 player with
      | none => (some .NotAPlayer, s)
      | some slot =>
        if (if slot = PLAYER_1 then g0.seed_revealed1 else g0.seed_revealed2) then
          (some .RevealAlreadySubmitted, s)
        else if !(check_seed_entropy seed_hash) then (some .WeakSeedEntropy, s)
        else
          match (if slot = PLAYER_1 then g0.seed_commit1 else g0.seed_commit2) with
          | none => (some .MissingCommit, s)
          | some commit_hash =>
            if E.keccak256 seed_hash ≠ commit_hash then (some .CommitHashMismatch, s)
            else if proof.length ≤ 4000 then (some .InvalidZkProof, s)
            else
              match s.ultrahonk_verifier with
              | none => (some .UltraHonkVerifierNotSet, s)
              | some _ =>
                if E.ultrahonk_ok (noir_encode seed_hash) proof then
                  (none, { s with noir_seed_verified := fun a b =>
                            if a = sid ∧ b = slot then some seed_hash
                            else s.noir_seed_verified a b })
                else (some .UltraHonkVerificationFailed, s)

/-- Redacted public read (`get_game`, lines 1176-1187): hands and draw
pile cleared unless the game is finished. -/
def get_game (sid : ℕ) (s : Storage) : Except CangkulanError CangkulanGame :=
  match s.games sid with
  | none => .error .GameNotFound
  | some g =>
    if g.lifecycle_state ≠ STATE_FINISHED then
      .ok { g with hand1 := [], hand2 := [], draw_pile := [] }
    else .ok g

/-- Viewer-aware read (`get_game_view`, lines 1203-1231): a player sees
their own hand, the opponent hand is cleared, and the opponent trick
card is hidden while this viewer still has to reveal; an unknown viewer
gets both hands cleared. -/
def get_game_view (sid viewer : ℕ) (s : Storage) : Except CangkulanError CangkulanGame :=
  match s.games sid with
  | none => .error .GameNotFound
  | some g =>
    match resolve_slot g viewer with
    | some slot =>
      if slot = PLAYER_1 then
        let v1 := { g with hand2 := [] }
        let v2 :=
          if v1.trick_state = TRICK_REVEAL_WAIT_P1 then { v1 with trick_card2 := none }
          else v1
        .ok v2
      else
        let v1 := { g with hand1 := [] }
        let v2 :=
          if v1.trick_state = TRICK_REVEAL_WAIT_P2 then { v1 with trick_card1 := none }
          else v1
        .ok v2
    | none => .ok { g with hand1 := [], hand2 := [] }

/-- Public shuffle audit (`verify_shuffle`, lines 1251-1289): once the
session is at least in the Playing phase, recompute and return the
full shuffled deck order from the stored seed hashes. -/
def verify_shuffle (E : HostEnv) (sid : ℕ) (s : Storage) :
    Except CangkulanError (List ℕ) :=
  match s.games sid with
  | none => .error .GameNotFound
  | some g =>
    if g.lifecycle_state < STATE_PLAYING then .error .WrongPhase
    else
      match g.seed_hash1 with
      | none => .error .MissingCommit
      | some sh1 =>
        match g.seed_hash2 with
        | none => .error .MissingCommit
        | some sh2 => .ok (verify_shuffle_deck E sh1 sh2 sid)

/-- Admin setter (`set_admin`, lines 1295-1302). -/
def set_admin (new_admin : ℕ) (s : Storage) : CallResult :=
  match s.admin with
  | none => (some .AdminNotSet, s)
  | some _ => (none, { s with admin := some new_admin })

/-- Hub setter (`set_hub`, lines 1308-1315). -/
def set_hub (new_hub : ℕ) (s : Storage) : CallResult :=
  match s.admin with
  | none => (some .AdminNotSet, s)
  | some _ => (none, { s with game_hub := some new_hub })

/-- Verifier setter (`set_verifier`, lines 1321-1328). -/
def set_verifier (new_verifier : ℕ) (s : Storage) : CallResult :=
  match s.admin with
  | none => (some .AdminNotSet, s)
  | some _ => (none, { s with verifier := some new_verifier })

/-- UltraHonk verifier setter (`set_ultrahonk_verifier`,
lines 1344-1354). -/
def set_ultrahonk_verifier (verifier_addr : ℕ) (s : Storage) : CallResult :=
  match s.admin with
  | none => (some .AdminNotSet, s)
  | some _ => (none, { s with ultrahonk_verifier := some verifier_addr })

/-- Contract upgrade (`upgrade`, lines 1330-1335): the wasm swap has no
effect on modelled storage. -/
def upgrade (s : Storage) : CallResult :=
  match s.admin with
  | none => (some .AdminNotSet, s)
  | some _ => (none, s)

-- ═══════════════════════  Calls and reachability  ═══════════════════════

/-- One invocation of a storage-touching public entry point, with its
arguments. -/
inductive HostCall where
  | start_game (sid p1 p2 : ℕ) (pts1 pts2 : ℤ)
  | commit_seed (sid player : ℕ) (commit_hash : List ℕ)
  | reveal_seed (sid player : ℕ) (seed_hash proof : List ℕ)
  | verify_noir_seed (sid player : ℕ) (seed_hash proof : List ℕ)
  | commit_play (sid player : ℕ) (commit_hash : List ℕ) (expected_nonce : ℕ)
  | commit_play_zk (sid player : ℕ) (commit_hash : List ℕ) (expected_nonce : ℕ)
      (zk_proof : List ℕ)
  | commit_cangkul_zk (sid player : ℕ) (commit_hash : List ℕ) (expected_nonce : ℕ)
      (zk_proof : List ℕ)
  | reveal_play (sid player card_id : ℕ) (salt : List ℕ)
  | tick_timeout (sid caller : ℕ)
  | resolve_timeout (sid caller : ℕ)
  | forfeit (sid caller : ℕ)
  | set_admin (a : ℕ)
  | set_hub (h : ℕ)
  | set_verifier (v : ℕ)
  | set_ultrahonk_verifier (u : ℕ)
  | upgrade

/-- Execute one public entry point at ledger height `led`. -/
def exec (E : HostEnv) (led : ℕ) (c : HostCall) (s : Storage) : CallResult :=
  match c with
  | .start_game sid p1 p2 pts1 pts2 => start_game E led sid p1 p2 pts1 pts2 s
  | .commit_seed sid player ch => commit_seed E led sid player ch s
  | .reveal_seed sid player sh proof => reveal_seed E led sid player sh proof s
  | .verify_noir_seed sid player sh proof => verify_noir_seed E led sid player sh proof s
  | .commit_play sid player ch en => commit_play E led sid player ch en s
  | .commit_play_zk sid player ch en zp => commit_play_zk E led sid player ch en zp s
  | .commit_cangkul_zk sid player ch en zp => commit_cangkul_zk E led sid player ch en zp s
  | .reveal_play sid player cid salt => reveal_play E led sid player cid salt s
  | .tick_timeout sid caller => tick_timeout E led sid caller s
  | .resolve_timeout sid caller => resolve_timeout E led sid caller s
  | .forfeit sid caller => forfeit E led sid caller s
  | .set_admin a => set_admin a s
  | .set_hub h => set_hub h s
  | .set_verifier v => set_verifier v s
  | .set_ultrahonk_verifier u => set_ultrahonk_verifier u s
  | .upgrade => upgrade s

/-- Storage produced by the constructor (`__constructor`,
lines 379-389). -/
def constructor_storage (admin hub verifier : ℕ) : Storage :=
  { games := fun _ => none
  , history := fun _ => []
  , noir_seed_verified := fun _ _ => none
  , admin := some admin
  , game_hub := some hub
  , verifier := some verifier
  , ultrahonk_verifier := none }

/-- Storage states reachable at ledger height `led` from a freshly
constructed contract through any sequence of public calls, with
non-decreasing ledger heights. -/
inductive ReachAt (E : HostEnv) : Storage → ℕ → Prop where
  | init (a h v led : ℕ) : ReachAt E (constructor_storage a h v) led
  | step (s : Storage) (led led2 : ℕ) (c : HostCall) :
      ReachAt E s led → led ≤ led2 → ReachAt E (exec E led2 c s).2 led2

/-- Executions that only invoke `tick_timeout` for session `sid` by
`caller`, starting from storage `s0` at ledger `led0`, with
non-decreasing ledger heights bounded by the u32 range of the host
ledger sequence counter. -/
inductive TicksFrom (E : HostEnv) (sid caller : ℕ) (s0 : Storage) (led0 : ℕ) :
    Storage → ℕ → Prop where
  | refl : TicksFrom E sid caller s0 led0 s0 led0
  | step (s1 : Storage) (led1 led2 : ℕ) :
      TicksFrom E sid caller s0 led0 s1 led1 → led1 ≤ led2 → led2 ≤ U32LIM →
      TicksFrom E sid caller s0 led0 (tick_timeout E led2 sid caller s1).2 led2

end Cangkulan

namespace ZkVerifier

open Cangkulan (be4 fr_bytes_of_u32 G1_GENERATOR PEDERSEN_H_MSG PEDERSEN_H_DST
  NULLIFIER_TAG check_seed_entropy)

/-!
Embedding of the stateless multi-mode verifier contract
(src/contracts/zk-verifier/src/lib.rs).  The verifier shares the byte
constants of the game contract (generator, Pedersen H derivation
strings, nullifier tag).  BLS12-381 group elements and Fr scalars are
identified with their canonical byte serializations, and the host
cryptography is a record of opaque operations.
-/

/-- BLS12-381 and keccak host operations used by the verifier contract
(Soroban host functions, not part of this repository).  Points are
96-byte serializations, scalars canonical 32-byte Fr encodings;
`fr_from_bytes` reduces a 32-byte big-endian value modulo the Fr
order. -/
structure BlsHost where
  keccak256 : List ℕ → List ℕ
  hash_to_g1 : List ℕ → List ℕ → List ℕ
  g1_is_in_subgroup : List ℕ → Bool
  g1_mul : List ℕ → List ℕ → List ℕ
  g1_add : List ℕ → List ℕ → List ℕ
  g1_neg : List ℕ → List ℕ
  g1_msm : List (List ℕ) → List (List ℕ) → List ℕ
  fr_from_bytes : List ℕ → List ℕ

/-- Byte read with zero default (`data.get(i).unwrap_or(0)`). -/
def getB (data : List ℕ) (i : ℕ) : ℕ := data.getD i 0

/-- Contiguous byte slice read with zero default (the per-byte copy
loops of the extractors). -/
def slice (data : List ℕ) (off len : ℕ) : List ℕ :=
  (List.range len).map (fun i => getB data (off + i))

/-- Big-endian u32 read (`extract_u32`, lines 577-583). -/
def extract_u32 (data : List ℕ) (off : ℕ) : ℕ :=
  ((getB data off <<< 24) ||| (getB data (off + 1) <<< 16)) |||
    ((getB data (off + 2) <<< 8) ||| getB data (off + 3))

/-- G1 point read (`extract_g1`, lines 426-434): the 96-byte
serialization at the offset. -/
def extract_g1 (data : List ℕ) (off : ℕ) : List ℕ := slice data off 96

/-- Fr scalar read (`extract_fr`, lines 437-445). -/
def extract_fr (B : BlsHost) (data : List ℕ) (off : ℕ) : List ℕ :=
  B.fr_from_bytes (slice data off 32)

/-- Pedersen H generator derivation (`pedersen_h`, lines 419-423). -/
def pedersen_h (B : BlsHost) : List ℕ :=
  B.hash_to_g1 PEDERSEN_H_MSG PEDERSEN_H_DST

/-- Fiat-Shamir tag `"ZKV2"` (line 186). -/
def CHALLENGE_TAG : List ℕ := [0x5A, 0x4B, 0x56, 0x32]

/-- Fiat-Shamir tag `"ZKP4"` (line 189). -/
def PEDERSEN_CHALLENGE_TAG : List ℕ := [0x5A, 0x4B, 0x50, 0x34]

/-- Fiat-Shamir tag `"ZKP7"` (line 192). -/
def RING_CHALLENGE_TAG : List ℕ := [0x5A, 0x4B, 0x50, 0x37]

/-- Fiat-Shamir tag `"ZKP8"` (line 195). -/
def CANGKUL_CHALLENGE_TAG : List ℕ := [0x5A, 0x4B, 0x50, 0x38]

/-- Mode 2: hash-based NIZK seed proof (`verify_nizk_seed`,
lines 276-411). -/
def verify_nizk_seed (B : BlsHost) (public_inputs proof : List ℕ) : Bool :=
  let seed_hash := slice public_inputs 0 32
  let commitment := slice public_inputs 32 32
  let nullifier := slice public_inputs 64 32
  let sid_arr := slice public_inputs 96 4
  let player_len := public_inputs.length - 100
  if player_len = 0 then false
  else
    let player_bytes := public_inputs.drop 100
    let blinding := slice proof 0 32
    let response := slice proof 32 32
    if B.keccak256 (seed_hash ++ blinding ++ player_bytes) ≠ commitment then false
    else if B.keccak256 (seed_hash ++ NULLIFIER_TAG ++ sid_arr) ≠ nullifier then false
    else
      let challenge := B.keccak256 (commitment ++ sid_arr ++ player_bytes ++ CHALLENGE_TAG)
      if B.keccak256 (seed_hash ++ challenge ++ blinding) ≠ response then false
      else if !(check_seed_entropy seed_hash) then false
      else true

/-- Mode 4: Pedersen+Sigma seed proof (`verify_pedersen_sigma`,
lines 460-574). -/
def verify_pedersen_sigma (B : BlsHost) (public_inputs proof : List ℕ) : Bool :=
  if public_inputs.length < 133 then false
  else
    let commitment := extract_g1 public_inputs 0
    let seed_hash_fr := extract_fr B public_inputs 96
    let seed_hash_bytes := slice public_inputs 96 32
    let sid_arr := slice public_inputs 128 4
    let player_len := public_inputs.length - 132
    if player_len = 0 then false
    else
      let player_bytes := public_inputs.drop 132
      let r_point := extract_g1 proof 0
      let z_r := extract_fr B proof 96
      if !(B.g1_is_in_subgroup commitment) then false
      else if !(B.g1_is_in_subgroup r_point) then false
      else
        let h := pedersen_h B
        let d := B.g1_add commitment (B.g1_neg (B.g1_mul G1_GENERATOR seed_hash_fr))
        let e := B.fr_from_bytes (B.keccak256 (commitment ++ r_point ++
          seed_hash_bytes ++ sid_arr ++ player_bytes ++ PEDERSEN_CHALLENGE_TAG))
        if B.g1_mul h z_r ≠ B.g1_add r_point (B.g1_mul d e) then false
        else true

/-- Mode 7: 1-of-N ring sigma for card plays (`verify_card_play_ring`,
lines 611-774). -/
def verify_card_play_ring (B : BlsHost) (public_inputs proof : List ℕ) : Bool :=
  let n := (proof.length - 96) / 64
  if n = 0 ∨ 9 < n then false
  else if public_inputs.length < 32 + 4 + 4 * n + 4 + 1 then false
  else
    let commit_hash := slice public_inputs 0 32
    if extract_u32 public_inputs 32 ≠ n then false
    else
      let sid_arr := slice public_inputs (36 + 4 * n) 4
      let player_len := public_inputs.length - (40 + 4 * n)
      if player_len = 0 then false
      else
        let player_bytes := public_inputs.drop (40 + 4 * n)
        let commitment := extract_g1 proof 0
        if !(B.g1_is_in_subgroup commitment) then false
        else if B.keccak256 commitment ≠ commit_hash then false
        else
          let h := pedersen_h B
          let idxs := List.range n
          let e_list := idxs.map (fun i => extract_fr B proof (96 + i * 64))
          let r_list := idxs.map (fun i =>
            let e_i := extract_fr B proof (96 + i * 64)
            let z_i := extract_fr B proof (96 + i * 64 + 32)
            let card_val := extract_u32 public_inputs (36 + i * 4)
            let card_fr := B.fr_from_bytes (fr_bytes_of_u32 card_val)
            let d_i := B.g1_add commitment (B.g1_neg (B.g1_mul G1_GENERATOR card_fr))
            B.g1_add (B.g1_mul h z_i) (B.g1_neg (B.g1_mul d_i e_i)))
          let expected_e := B.fr_from_bytes (B.keccak256 (commitment ++ r_list.flatten ++
            sid_arr ++ player_bytes ++ RING_CHALLENGE_TAG))
          let sum_point := B.g1_msm (idxs.map (fun _ => G1_GENERATOR)) e_list
          if sum_point ≠ B.g1_mul G1_GENERATOR expected_e then false
          else true

/-- Mode 8: aggregate-hand Schnorr proof with public suit exclusion
(`verify_cangkul_hand`, lines 814-990). -/
def verify_cangkul_hand (B : BlsHost) (public_inputs proof : List ℕ) : Bool :=
  let k := extract_u32 proof 0
  if k = 0 ∨ 18 < k then false
  else if public_inputs.length < 32 + 4 + 4 + 4 * k + 4 + 1 then false
  else
    let commit_hash := slice public_inputs 0 32
    let trick_suit := extract_u32 public_inputs 32
    if 3 < trick_suit then false
    else if extract_u32 public_inputs 36 ≠ k then false
    else
      let cards := (List.range k).map (fun i => extract_u32 public_inputs (40 + i * 4))
      if !(cards.all (fun c => decide (c < 36) && decide (c / 9 ≠ trick_suit))) then false
      else
        let fr_vec := cards.map (fun c => B.fr_from_bytes (fr_bytes_of_u32 c))
        let g_vec := cards.map (fun _ => G1_GENERATOR)
        let sid_arr := slice public_inputs (40 + 4 * k) 4
        let player_len := public_inputs.length - (44 + 4 * k)
        if player_len = 0 then false
        else
          let player_bytes := public_inputs.drop (44 + 4 * k)
          let agg_commit := extract_g1 proof 4
          if !(B.g1_is_in_subgroup agg_commit) then false
          else
            let nonce_r := extract_g1 proof 100
            if !(B.g1_is_in_subgroup nonce_r) then false
            else
              let z := extract_fr B proof 196
              if B.keccak256 agg_commit ≠ commit_hash then false
              else
                let expected_sum := B.g1_msm g_vec fr_vec
                let delta := B.g1_add agg_commit (B.g1_neg expected_sum)
                let h := pedersen_h B
                let e := B.fr_from_bytes (B.keccak256 (agg_commit ++ nonce_r ++
                  be4 trick_suit ++ be4 k ++ sid_arr ++ player_bytes ++
                  CANGKUL_CHALLENGE_TAG))
                if B.g1_mul h z ≠ B.g1_add nonce_r (B.g1_mul delta e) then false
                else true

/-- Mode dispatch of the public `verify` entry point (lines 216-254):
the proof length selects the verification mode. -/
def verify (B : BlsHost) (public_inputs proof : List ℕ) : Bool :=
  if proof.length = 0 then false
  else if proof.length = 128 then verify_pedersen_sigma B public_inputs proof
  else if proof.length = 228 then verify_cangkul_hand B public_inputs proof
  else if 160 ≤ proof.length ∧ (proof.length - 96) % 64 = 0 then
    verify_card_play_ring B public_inputs proof
  else if proof.length = 64 ∧ 101 ≤ public_inputs.length then
    verify_nizk_seed B public_inputs proof
  else false

end ZkVerifier

namespace Cangkulan

-- ═══════════════════  Specification-side definitions  ═══════════════════

/-- Specification rendering of the winner cascade exactly as the claim
words it: if exactly one player has zero cards in hand, that
empty-handed player wins; otherwise the player with strictly more
tricks won wins; otherwise the player with strictly fewer cards
remaining wins; otherwise the player with strictly lower total hand
value, the sum of `(card mod 9) + 2` over the hand, wins; otherwise the
outcome is a draw.  Compared against `determine_winner` below. -/
def winner_spec (g : CangkulanGame) : ℕ :=
  if g.hand1.length = 0 ∧ g.hand2.length ≠ 0 then OUTCOME_PLAYER1_WIN
  else if g.hand2.length = 0 ∧ g.hand1.length ≠ 0 then OUTCOME_PLAYER2_WIN
  else if g.tricks_won2 < g.tricks_won1 then OUTCOME_PLAYER1_WIN
  else if g.tricks_won1 < g.tricks_won2 then OUTCOME_PLAYER2_WIN
  else if g.hand1.length < g.hand2.length then OUTCOME_PLAYER1_WIN
  else if g.hand2.length < g.hand1.length then OUTCOME_PLAYER2_WIN
  else if (g.hand1.map (fun c => c % 9 + 2)).sum < (g.hand2.map (fun c => c % 9 + 2)).sum
    then OUTCOME_PLAYER1_WIN
  else if (g.hand2.map (fun c => c % 9 + 2)).sum < (g.hand1.map (fun c => c % 9 + 2)).sum
    then OUTCOME_PLAYER2_WIN
  else OUTCOME_DRAW

/-- All card ids currently held by a game state: both hands, the draw
pile, the flipped card and the two in-flight trick cards. -/
def cardsOf (g : CangkulanGame) : List ℕ :=
  g.hand1 ++ g.hand2 ++ g.draw_pile ++ g.flipped_card.toList ++
    g.trick_card1.toList ++ g.trick_card2.toList

/-- Card conservation invariant over a storage snapshot: every stored
session holds pairwise distinct cards of the 36-card deck. -/
def CardInv (s : Storage) : Prop :=
  ∀ sid g, s.games sid = some g → (cardsOf g).Subperm (List.range 36)

-- ═══════════════════  Concrete host environment and traces  ═══════════════════

/-- A concrete instantiation of the opaque host primitives, used to
evaluate the contract on explicit executions. -/
def hostEnv0 : HostEnv :=
  { keccak256 := fun _ => List.replicate 32 0
  , prng_stream := fun _ _ => 0
  , addr_bytes := fun _ => [0]
  , g1_mul := fun _ _ => List.replicate 96 0
  , g1_add := fun _ _ => List.replicate 96 0
  , hash_to_g1 := fun _ _ => List.replicate 96 0
  , fr_from_bytes := fun _ => List.replicate 32 0
  , verifier_verify := fun _ _ => true
  , ultrahonk_ok := fun _ _ => true }

/-- A 32-byte commit value used in the explicit traces. -/
def trace_h : List ℕ := List.replicate 32 1

/-- A seed hash passing the entropy floor (4 distinct byte values). -/
def seedA : List ℕ := [0, 1, 2, 3] ++ List.replicate 28 0

/-- A 64-byte proof blob: under `hostEnv0` the external verifier
accepts every mode-2 proof. -/
def proof64 : List ℕ := List.replicate 64 0

/-- The all-zero 32-byte value; under `hostEnv0` every keccak digest
equals it, so it opens every legacy play commit. -/
def zeros32 : List ℕ := List.replicate 32 0

/-- Freshly constructed contract storage. -/
def s_init : Storage := constructor_storage 0 1 2

/-- Session 7 started between players 10 and 11 at ledger 100. -/
def s_start : Storage := (exec hostEnv0 100 (.start_game 7 10 11 0 0) s_init).2

/-- Player 10 committed a seed; this first commit arms the deadlines
(`deadline_nonce = 3`, `deadline_ledger = 220`). -/
def s_commit1 : Storage := (exec hostEnv0 100 (.commit_seed 7 10 trace_h) s_start).2

/-- Player 11 also committed a seed; phase is now SeedReveal. -/
def s_commit2 : Storage := (exec hostEnv0 100 (.commit_seed 7 11 trace_h) s_commit1).2

/-- Player 10 revealed. -/
def s_reveal1 : Storage :=
  (exec hostEnv0 100 (.reveal_seed 7 10 seedA proof64) s_commit2).2

/-- Player 11 revealed: the deck is shuffled and dealt (under
`hostEnv0` the deck order is `[1, 2, ..., 35, 0]`), the first card (11,
suit 1) is flipped, and the Playing phase begins. -/
def s_dealt : Storage :=
  (exec hostEnv0 100 (.reveal_seed 7 11 seedA proof64) s_reveal1).2

/-- Player 10 committed a play. -/
def s_play1 : Storage := (exec hostEnv0 100 (.commit_play 7 10 zeros32 4) s_dealt).2

/-- Player 11 committed a play; both commits are in, reveals begin. -/
def s_play2 : Storage := (exec hostEnv0 100 (.commit_play 7 11 zeros32 5) s_play1).2

/-- Player 11 revealed card 9 (suit 1, matching the flipped suit): the
card left hand2 and sits in `trick_card2` while the contract waits for
player 10 to reveal (trick sub-state `TRICK_REVEAL_WAIT_P1`). -/
def s_mid : Storage := (exec hostEnv0 100 (.reveal_play 7 11 9 zeros32) s_play2).2

/-- First tick at ledger 100, straight after the deadlines were armed:
allowed, because `last_tick_ledger` is still 0. -/
def s_tick1 : Storage := (tick_timeout hostEnv0 100 7 10 s_commit1).2

/-- Second tick at ledger 160, one rate-limit gap later: the action
nonce reaches the nonce deadline 3 while the ledger height 160 is
still 60 short of the ledger deadline 220. -/
def s_tick2 : Storage := (tick_timeout hostEnv0 160 7 10 s_tick1).2

/-- Player 10 forfeited the fresh session: the game is finished with
outcome P2Win while `action_nonce` is still 0. -/
def s_forfeit : Storage := (exec hostEnv0 100 (.forfeit 7 10) s_start).2

/-- A Playing-phase game with a non-empty draw pile, for the view
redaction claims. -/
def gView : CangkulanGame :=
  { player1 := 10, player2 := 11
  , player1_points := 0, player2_points := 0
  , seed_commit1 := some trace_h, seed_commit2 := some trace_h
  , seed_hash1 := some seedA, seed_hash2 := some seedA
  , seed_revealed1 := true, seed_revealed2 := true
  , hand1 := [1, 2], hand2 := [9, 10], draw_pile := [20, 21, 22]
  , trick_state := TRICK_REVEAL_WAIT_P1
  , trick_suit := some 2, trick_card1 := none, trick_card2 := some 19
  , flipped_card := some 18
  , play_commit1 := some zeros32, play_commit2 := some zeros32
  , zk_play1 := false, zk_play2 := false
  , tricks_won1 := 1, tricks_won2 := 2
  , lifecycle_state := STATE_PLAYING, outcome := OUTCOME_UNRESOLVED
  , action_nonce := 9, deadline_nonce := some 11, deadline_ledger := some 300
  , last_tick_ledger := 0 }

/-- Storage holding `gView` as session 7. -/
def sView : Storage := write_game 7 gView (constructor_storage 0 1 2)

/-- The session record stored by `s_start` (a freshly started game). -/
def g_start : CangkulanGame :=
  { player1 := 10, player2 := 11
  , player1_points := 0, player2_points := 0
  , seed_commit1 := none, seed_commit2 := none
  , seed_hash1 := none, seed_hash2 := none
  , seed_revealed1 := false, seed_revealed2 := false
  , hand1 := [], hand2 := [], draw_pile := []
  , trick_state := 0, trick_suit := none
  , trick_card1 := none, trick_card2 := none, flipped_card := none
  , play_commit1 := none, play_commit2 := none
  , zk_play1 := false, zk_play2 := false
  , tricks_won1 := 0, tricks_won2 := 0
  , lifecycle_state := 1, outcome := 0
  , action_nonce := 0, deadline_nonce := none, deadline_ledger := none
  , last_tick_ledger := 0 }

/-- The session record stored by `s_commit1`: one seed commit in, the
deadline pair armed as nonce 3 and ledger 220. -/
def g_commit1 : CangkulanGame :=
  { g_start with seed_commit1 := some trace_h, action_nonce := 1
               , deadline_nonce := some 3, deadline_ledger := some 220 }

/-- The session record stored by `s_dealt`: hands `[1..5]` and
`[6..10]`, pile `[12..35, 0]`, card 11 flipped. -/
def g_dealt : CangkulanGame :=
  { g_start with
    seed_commit1 := some trace_h, seed_commit2 := some trace_h
  , seed_hash1 := some seedA, seed_hash2 := some seedA
  , seed_revealed1 := true, seed_revealed2 := true
  , hand1 := [1, 2, 3, 4, 5], hand2 := [6, 7, 8, 9, 10]
  , draw_pile := [12, 13, 14, 15, 16, 17, 18, 19, 20, 21, 22, 23, 24,
                  25, 26, 27, 28, 29, 30, 31, 32, 33, 34, 35, 0]
  , trick_state := 10, trick_suit := some 1, flipped_card := some 11
  , lifecycle_state := 3, action_nonce := 4
  , deadline_nonce := some 6, deadline_ledger := some 220 }

/-- The session record stored by `s_play2`: both play commits in, the
trick waiting for both reveals. -/
def g_play2 : CangkulanGame :=
  { g_dealt with trick_state := 20
               , play_commit1 := some zeros32, play_commit2 := some zeros32
               , action_nonce := 6, deadline_nonce := some 8 }

/-- The session record stored by `s_mid`: player 11 has revealed card 9
(now sitting in `trick_card2`, no longer in hand2) while the contract
waits for player 10 to reveal. -/
def g_mid : CangkulanGame :=
  { g_dealt with
    hand2 := [6, 7, 8, 10]
  , trick_state := 21, trick_card2 := some 9
  , play_commit1 := some zeros32, play_commit2 := some zeros32
  , action_nonce := 7, deadline_nonce := some 9 }

/-- The session record stored by `s_forfeit`: finished with outcome
P2Win, but `action_nonce` still 0. -/
def g_forfeit : CangkulanGame :=
  { g_start with lifecycle_state := 4, outcome := 2 }

/-- The session record stored by `s_tick2`: the nonce reached the nonce
deadline 3 at ledger 160, while the ledger deadline is 220. -/
def g_tick2 : CangkulanGame :=
  { g_commit1 with action_nonce := 3, last_tick_ledger := 160 }

end Cangkulan

namespace ZkVerifier

/-- A concrete instantiation of the opaque verifier host cryptography,
used to evaluate the verifier on explicit inputs. -/
def blsHost0 : BlsHost :=
  { keccak256 := fun _ => List.replicate 32 0
  , hash_to_g1 := fun _ _ => List.replicate 96 0
  , g1_is_in_subgroup := fun _ => true
  , g1_mul := fun _ _ => List.replicate 96 0
  , g1_add := fun _ _ => List.replicate 96 0
  , g1_neg := fun _ => List.replicate 96 0
  , g1_msm := fun _ _ => List.replicate 96 0
  , fr_from_bytes := fun _ => List.replicate 32 0 }

/-- Mode-8 public inputs accepted under `blsHost0`: zero commit hash,
trick suit 0, k = 1, single card 9 (suit 1), session id 0, one player
byte. -/
def pi8 : List ℕ :=
  List.replicate 32 0 ++ Cangkulan.be4 0 ++ Cangkulan.be4 1 ++ Cangkulan.be4 9 ++
    Cangkulan.be4 0 ++ [1]

/-- A 228-byte mode-8 proof blob with k = 1. -/
def proof8 : List ℕ := Cangkulan.be4 1 ++ List.replicate 224 0

end ZkVerifier

namespace Cangkulan

/-- Invariant carried by tick-only executions of session `sid`: the
stored game exists, its last-tick marker does not exceed the current
ledger, the ledger only advances from the arming height `led0`, the
nonce stays in u32 range, and the deadline ledger `dl` is bounded:
once the nonce deadline `n0 + TIMEOUT_ACTIONS` is met the current
ledger is at least `dl - MIN_TICK_GAP_LEDGERS`, and before that each
missing nonce still costs at least one rate-limit gap. -/
def tick_inv (sid n0 dl led0 : ℕ) (s : Storage) (led : ℕ) : Prop :=
  ∃ g, s.games sid = some g ∧
    g.last_tick_ledger ≤ led ∧ led0 ≤ led ∧ g.action_nonce ≤ U32LIM ∧
    (n0 + TIMEOUT_ACTIONS ≤ g.action_nonce → dl ≤ led + MIN_TICK_GAP_LEDGERS) ∧
    (g.action_nonce < n0 + TIMEOUT_ACTIONS →
      dl ≤ max led (satAdd g.last_tick_ledger MIN_TICK_GAP_LEDGERS)
            + MIN_TICK_GAP_LEDGERS * (n0 + TIMEOUT_ACTIONS - g.action_nonce))

-- ═══════════════════════════  Basic lemmas  ═══════════════════════════

theorem satAdd_le_left (a b : ℕ) (h : a ≤ U32LIM) : a ≤ satAdd a b := by
  unfold satAdd; omega

theorem satAdd_le_lim (a b : ℕ) : satAdd a b ≤ U32LIM := by
  unfold satAdd; omega

/-- Helper fields of `finalize_game`: finalization never touches the
hands, draw pile, flipped card, trick cards or trick counters. -/
theorem finalize_game_fields (E : HostEnv) (led sid : ℕ) (g : CangkulanGame)
    (o : ℕ) (s : Storage) :
    ((finalize_game E led sid g o s).2.1).tricks_won1 = g.tricks_won1 ∧
    ((finalize_game E led sid g o s).2.1).tricks_won2 = g.tricks_won2 ∧
    ((finalize_game E led sid g o s).2.1).hand1 = g.hand1 ∧
    ((finalize_game E led sid g o s).2.1).hand2 = g.hand2 ∧
    ((finalize_game E led sid g o s).2.1).draw_pile = g.draw_pile ∧
    ((finalize_game E led sid g o s).2.1).flipped_card = g.flipped_card ∧
    ((finalize_game E led sid g o s).2.1).trick_card1 = g.trick_card1 ∧
    ((finalize_game E led sid g o s).2.1).trick_card2 = g.trick_card2 := by
  unfold finalize_game
  split
  · simp
  · split <;> simp

/-- Helper fields of `flip_next_card`: flipping never touches the hands
or the trick counters. -/
theorem flip_next_card_fields (g : CangkulanGame) :
    (flip_next_card g).tricks_won1 = g.tricks_won1 ∧
    (flip_next_card g).tricks_won2 = g.tricks_won2 ∧
    (flip_next_card g).hand1 = g.hand1 ∧
    (flip_next_card g).hand2 = g.hand2 := by
  unfold flip_next_card
  split <;> simp

end Cangkulan

namespace Cangkulan

set_option maxHeartbeats 1600000 in
/-- C2: winner determination at natural termination follows exactly the
claimed cascade: exactly-one-empty-hand first, then strictly more
tricks, then strictly fewer cards, then strictly lower total hand
value, else a draw.  `determine_winner` is the function invoked both
from trick resolution and from a WaitBoth timeout. -/
theorem C2_determine_winner_follows_spec (g : CangkulanGame) :
    determine_winner g = winner_spec g := by
  simp only [determine_winner, winner_spec, hand_total_value, CARDS_PER_SUIT]
  have h1 : (g.hand1.length = 0 ∧ 0 < g.hand2.length) ↔
      (g.hand1.length = 0 ∧ g.hand2.length ≠ 0) := by omega
  have h2 : (g.hand2.length = 0 ∧ 0 < g.hand1.length) ↔
      (g.hand2.length = 0 ∧ g.hand1.length ≠ 0) := by omega
  rw [if_congr h1 rfl rfl, if_congr h2 rfl rfl]

end Cangkulan

namespace Cangkulan

/-- C3: trick resolution cases.  With both cards played, the strictly
higher value (card mod 9) wins and the lead slot 1 wins ties; with
exactly one card played, that player wins the trick and the
non-follower receives the head of the draw pile into their hand when
the pile is non-empty and nothing when it is empty; with no card
played, neither trick counter changes and the flipped card of the
finished trick is discarded (the flipped slot afterwards is empty or
holds the head of the pile flipped for the next trick). -/
theorem C3_resolve_trick_cases (E : HostEnv) (led sid : ℕ) (g : CangkulanGame)
    (s : Storage) :
    (∀ c1 c2, g.trick_card1 = some c1 → g.trick_card2 = some c2 →
      ((c2 % CARDS_PER_SUIT < c1 % CARDS_PER_SUIT ∨ c1 % CARDS_PER_SUIT = c2 % CARDS_PER_SUIT →
        (resolve_trick E led sid g s).2.1.tricks_won1 = g.tricks_won1 + 1 ∧
        (resolve_trick E led sid g s).2.1.tricks_won2 = g.tricks_won2) ∧
       (c1 % CARDS_PER_SUIT < c2 % CARDS_PER_SUIT →
        (resolve_trick E led sid g s).2.1.tricks_won2 = g.tricks_won2 + 1 ∧
        (resolve_trick E led sid g s).2.1.tricks_won1 = g.tricks_won1) ∧
       (resolve_trick E led sid g s).2.1.hand1 = g.hand1 ∧
       (resolve_trick E led sid g s).2.1.hand2 = g.hand2)) ∧
    (∀ c1, g.trick_card1 = some c1 → g.trick_card2 = none →
      ((resolve_trick E led sid g s).2.1.tricks_won1 = g.tricks_won1 + 1 ∧
       (resolve_trick E led sid g s).2.1.tricks_won2 = g.tricks_won2) ∧
      (∀ h t, g.draw_pile = h :: t →
        (resolve_trick E led sid g s).2.1.hand2 = g.hand2 ++ [h]) ∧
      (g.draw_pile = [] → (resolve_trick E led sid g s).2.1.hand2 = g.hand2) ∧
      (resolve_trick E led sid g s).2.1.hand1 = g.hand1) ∧
    (∀ c2, g.trick_card1 = none → g.trick_card2 = some c2 →
      ((resolve_trick E led sid g s).2.1.tricks_won2 = g.tricks_won2 + 1 ∧
       (resolve_trick E led sid g s).2.1.tricks_won1 = g.tricks_won1) ∧
      (∀ h t, g.draw_pile = h :: t →
        (resolve_trick E led sid g s).2.1.hand1 = g.hand1 ++ [h]) ∧
      (g.draw_pile = [] → (resolve_trick E led sid g s).2.1.hand1 = g.hand1) ∧
      (resolve_trick E led sid g s).2.1.hand2 = g.hand2) ∧
    (g.trick_card1 = none → g.trick_card2 = none →
      (resolve_trick E led sid g s).2.1.tricks_won1 = g.tricks_won1 ∧
      (resolve_trick E led sid g s).2.1.tricks_won2 = g.tricks_won2 ∧
      (resolve_trick E led sid g s).2.1.hand1 = g.hand1 ∧
      (resolve_trick E led sid g s).2.1.hand2 = g.hand2 ∧
      ((resolve_trick E led sid g s).2.1.flipped_card = none ∨
        ∃ c rest, g.draw_pile = c :: rest ∧
          (resolve_trick E led sid g s).2.1.flipped_card = some c)) := by
  refine ⟨?_, ?_, ?_, ?_⟩
  · intro c1 c2 ht1 ht2
    unfold resolve_trick
    rw [ht1, ht2]
    by_cases hv : c2 % CARDS_PER_SUIT ≤ c1 % CARDS_PER_SUIT
    · simp only [hv, if_pos]
      split
      · refine ⟨fun _ => ?_, fun hlt => absurd hv (by omega), ?_, ?_⟩ <;>
          simp [finalize_game_fields]
      · split
        · refine ⟨fun _ => ?_, fun hlt => absurd hv (by omega), ?_, ?_⟩ <;>
            simp [finalize_game_fields]
        · refine ⟨fun _ => ?_, fun hlt => absurd hv (by omega), ?_, ?_⟩ <;>
            simp [flip_next_card_fields]
    · simp only [hv, if_neg, if_false]
      split
      · refine ⟨fun hge => absurd hge (by omega), fun _ => ?_, ?_, ?_⟩ <;>
          simp [finalize_game_fields]
      · split
        · refine ⟨fun hge => absurd hge (by omega), fun _ => ?_, ?_, ?_⟩ <;>
            simp [finalize_game_fields]
        · refine ⟨fun hge => absurd hge (by omega), fun _ => ?_, ?_, ?_⟩ <;>
            simp [flip_next_card_fields]
  · intro c1 ht1 ht2
    unfold resolve_trick
    rw [ht1, ht2]
    cases hd : g.draw_pile with
    | nil =>
      simp only [give_penalty_card, hd]
      split
      · refine ⟨⟨?_, ?_⟩, fun h t hht => by simp at hht, fun _ => ?_, ?_⟩ <;>
          simp [finalize_game_fields]
      · split
        · refine ⟨⟨?_, ?_⟩, fun h t hht => by simp at hht, fun _ => ?_, ?_⟩ <;>
            simp [finalize_game_fields]
        · refine ⟨⟨?_, ?_⟩, fun h t hht => by simp at hht, fun _ => ?_, ?_⟩ <;>
            simp [flip_next_card_fields]
    | cons h t =>
      simp only [give_penalty_card, hd]
      have hslot : ¬ (PLAYER_2 = PLAYER_1) := by decide
      simp only [hslot, if_neg, if_false]
      split
      · refine ⟨⟨?_, ?_⟩, fun h2 t2 hht => ?_, fun hnil => (List.cons_ne_nil _ _ hnil).elim, ?_⟩ <;>
          first
          | (injection hht with e1 e2; subst e1; subst e2; simp [finalize_game_fields])
          | simp [finalize_game_fields]
      · split
        · refine ⟨⟨?_, ?_⟩, fun h2 t2 hht => ?_, fun hnil => (List.cons_ne_nil _ _ hnil).elim, ?_⟩ <;>
            first
            | (injection hht with e1 e2; subst e1; subst e2; simp [finalize_game_fields])
            | simp [finalize_game_fields]
        · refine ⟨⟨?_, ?_⟩, fun h2 t2 hht => ?_, fun hnil => (List.cons_ne_nil _ _ hnil).elim, ?_⟩ <;>
            first
            | (injection hht with e1 e2; subst e1; subst e2; simp [flip_next_card_fields])
            | simp [flip_next_card_fields]
  · intro c2 ht1 ht2
    unfold resolve_trick
    rw [ht1, ht2]
    cases hd : g.draw_pile with
    | nil =>
      simp only [give_penalty_card, hd]
      split
      · refine ⟨⟨?_, ?_⟩, fun h t hht => by simp at hht, fun _ => ?_, ?_⟩ <;>
          simp [finalize_game_fields]
      · split
        · refine ⟨⟨?_, ?_⟩, fun h t hht => by simp at hht, fun _ => ?_, ?_⟩ <;>
            simp [finalize_game_fields]
        · refine ⟨⟨?_, ?_⟩, fun h t hht => by simp at hht, fun _ => ?_, ?_⟩ <;>
            simp [flip_next_card_fields]
    | cons h t =>
      simp only [give_penalty_card, hd]
      have hslot : (PLAYER_1 = PLAYER_1) := rfl
      simp only [hslot, if_pos, if_true]
      split
      · refine ⟨⟨?_, ?_⟩, fun h2 t2 hht => ?_, fun hnil => (List.cons_ne_nil _ _ hnil).elim, ?_⟩ <;>
          first
          | (injection hht with e1 e2; subst e1; subst e2; simp [finalize_game_fields])
          | simp [finalize_game_fields]
      · split
        · refine ⟨⟨?_, ?_⟩, fun h2 t2 hht => ?_, fun hnil => (List.cons_ne_nil _ _ hnil).elim, ?_⟩ <;>
            first
            | (injection hht with e1 e2; subst e1; subst e2; simp [finalize_game_fields])
            | simp [finalize_game_fields]
        · refine ⟨⟨?_, ?_⟩, fun h2 t2 hht => ?_, fun hnil => (List.cons_ne_nil _ _ hnil).elim, ?_⟩ <;>
            first
            | (injection hht with e1 e2; subst e1; subst e2; simp [flip_next_card_fields])
            | simp [flip_next_card_fields]
  · intro ht1 ht2
    unfold resolve_trick
    rw [ht1, ht2]
    dsimp only
    split
    · refine ⟨?_, ?_, ?_, ?_, Or.inl ?_⟩ <;> simp [finalize_game_fields]
    · split
      · refine ⟨?_, ?_, ?_, ?_, Or.inl ?_⟩ <;> simp [finalize_game_fields]
      · refine ⟨?_, ?_, ?_, ?_, ?_⟩
        · simp [flip_next_card_fields]
        · simp [flip_next_card_fields]
        · simp [flip_next_card_fields]
        · simp [flip_next_card_fields]
        · cases hd : g.draw_pile with
          | nil => exact Or.inl (by simp [flip_next_card, hd])
          | cons c rest => exact Or.inr ⟨c, rest, rfl, by simp [flip_next_card, hd]⟩

end Cangkulan

namespace Cangkulan

theorem swapL_length (l : List ℕ) (i j : ℕ) : (swapL l i j).length = l.length := by
  simp [swapL]

theorem swapL_perm (l : List ℕ) (i j : ℕ) (hi : i < l.length) (hj : j < l.length) :
    (swapL l i j).Perm l := by
  rw [List.perm_iff_count]
  intro b
  unfold swapL
  rw [List.getD_eq_getElem l 0 hj, List.getD_eq_getElem l 0 hi]
  have hj2 : j < (l.set i l[j]).length := by simpa using hj
  rw [List.count_set _ _ _ _ hj2, List.count_set _ _ _ _ hi]
  have hsj : (l.set i l[j])[j] = l[j] := by
    by_cases hij : i = j
    · subst hij; simp
    · rw [List.getElem_set_ne hij]
  rw [hsj]
  by_cases hpi : l[i] = b
  · have hbl : 0 < List.count b l := List.count_pos_iff.mpr (hpi ▸ List.getElem_mem hi)
    by_cases hpj : l[j] = b <;> simp [hpi, hpj] <;> omega
  · by_cases hpj : l[j] = b <;> simp [hpi, hpj]

theorem fy_aux_perm (stream : ℕ → ℕ) (n : ℕ) (d : List ℕ) (h : n < d.length) :
    (fy_aux stream n d).Perm d := by
  induction n generalizing d with
  | zero => simp [fy_aux]
  | succ m ih =>
    rw [fy_aux]
    have hj : gen_range_incl stream (35 - (m + 1)) (m + 1) < d.length := by
      have hle : gen_range_incl stream (35 - (m + 1)) (m + 1) ≤ m + 1 :=
        Nat.le_of_lt_succ (Nat.mod_lt _ (by omega))
      omega
    have hrec := ih (swapL d (m + 1) (gen_range_incl stream (35 - (m + 1)) (m + 1)))
      (by rw [swapL_length]; omega)
    exact hrec.trans (swapL_perm d (m + 1) _ h hj)

theorem fisher_yates_perm (stream : ℕ → ℕ) (d : List ℕ) (h : 35 < d.length) :
    (fisher_yates stream d).Perm d :=
  fy_aux_perm stream 35 d h

theorem shuffled_deck_perm (E : HostEnv) (sh1 sh2 : List ℕ) (sid : ℕ) :
    (shuffled_deck E sh1 sh2 sid).Perm (List.range 36) := by
  unfold shuffled_deck
  have : deck0 = List.range 36 := rfl
  rw [this]
  exact fisher_yates_perm _ _ (by simp)

theorem shuffled_deck_length (E : HostEnv) (sh1 sh2 : List ℕ) (sid : ℕ) :
    (shuffled_deck E sh1 sh2 sid).length = 36 := by
  have := (shuffled_deck_perm E sh1 sh2 sid).length_eq
  simpa using this

/-- Helper: `flip_next_card` on a non-empty pile, as a record update. -/
theorem flip_next_card_cons (g : CangkulanGame) (c : ℕ) (rest : List ℕ)
    (h : g.draw_pile = c :: rest) :
    flip_next_card g =
      { g with draw_pile := rest
             , flipped_card := some c
             , trick_suit := some (c / CARDS_PER_SUIT)
             , trick_card1 := none
             , trick_card2 := none
             , play_commit1 := none
             , play_commit2 := none
             , zk_play1 := false
             , zk_play2 := false
             , trick_state := TRICK_COMMIT_WAIT_BOTH } := by
  unfold flip_next_card
  split
  · next heq => rw [heq] at h; cases h
  · next c2 rest2 heq =>
      rw [heq] at h
      injection h with e1 e2
      subst e1; subst e2
      rfl

end Cangkulan

namespace Cangkulan

/-- C6 (amended): the deck order returned by `verify_shuffle` is a
permutation of `[0..36)`, and it equals the concatenation
`hand1 ∥ hand2 ∥ flipped_card ∥ draw_pile` of the snapshot taken right
after `shuffle_and_deal` plus the first flip (the flipped card is deck
index 10, the head of the freshly dealt pile, so it sits between the
hands and the remaining pile in the recomputed deck order); moreover
the public `verify_shuffle` entry point returns exactly this
recomputed deck for any stored session holding these seed hashes in
the Playing or Finished phase. -/
theorem C6_verify_shuffle_roundtrip (E : HostEnv) (g : CangkulanGame) (sid : ℕ)
    (sh1 sh2 : List ℕ) (h1 : g.seed_hash1 = some sh1) (h2 : g.seed_hash2 = some sh2) :
    (verify_shuffle_deck E sh1 sh2 sid).Perm (List.range 36) ∧
    verify_shuffle_deck E sh1 sh2 sid =
      (flip_next_card (shuffle_and_deal E g sid)).hand1 ++
      (flip_next_card (shuffle_and_deal E g sid)).hand2 ++
      (flip_next_card (shuffle_and_deal E g sid)).flipped_card.toList ++
      (flip_next_card (shuffle_and_deal E g sid)).draw_pile ∧
    (∀ s g2, s.games sid = some g2 → g2.seed_hash1 = some sh1 →
      g2.seed_hash2 = some sh2 → ¬ g2.lifecycle_state < STATE_PLAYING →
      verify_shuffle E sid s = .ok (verify_shuffle_deck E sh1 sh2 sid)) := by
  have hvd : verify_shuffle_deck E sh1 sh2 sid = shuffled_deck E sh1 sh2 sid := rfl
  have hperm := shuffled_deck_perm E sh1 sh2 sid
  have hlen := shuffled_deck_length E sh1 sh2 sid
  refine ⟨hvd ▸ hperm, ?_, ?_⟩
  · have hsd : shuffle_and_deal E g sid =
        { g with hand1 := (shuffled_deck E sh1 sh2 sid).take 5
               , hand2 := ((shuffled_deck E sh1 sh2 sid).drop 5).take 5
               , draw_pile := (shuffled_deck E sh1 sh2 sid).drop 10 } := by
      unfold shuffle_and_deal
      rw [h1, h2]
      simp only [Option.getD_some]
    set deck := shuffled_deck E sh1 sh2 sid with hdeck
    clear_value deck
    have h10 : 10 < deck.length := by omega
    have hdrop : deck.drop 10 = deck[10] :: deck.drop 11 :=
      List.drop_eq_getElem_cons h10
    rw [hvd, hsd]
    rw [flip_next_card_cons
      { g with hand1 := deck.take 5, hand2 := (deck.drop 5).take 5,
               draw_pile := deck.drop 10 }
      deck[10] (deck.drop 11) hdrop]
    dsimp only
    have htake : deck.take 5 ++ (deck.drop 5).take 5 = deck.take 10 :=
      (List.take_add deck 5 5).symm
    calc deck = deck.take 10 ++ deck.drop 10 := (List.take_append_drop 10 deck).symm
      _ = deck.take 10 ++ (deck[10] :: deck.drop 11) := by rw [hdrop]
      _ = (deck.take 5 ++ (deck.drop 5).take 5) ++ (deck[10] :: deck.drop 11) := by
          rw [htake]
      _ = deck.take 5 ++ (deck.drop 5).take 5 ++ (some deck[10]).toList ++
            deck.drop 11 := by
          simp [List.append_assoc]
  · intro s g2 hg2 hh1 hh2 hphase
    unfold verify_shuffle
    rw [hg2]
    simp only [if_neg hphase, hh1, hh2]

end Cangkulan

namespace Cangkulan

/-- C6 (counterexample): on a concrete reached session (`s_dealt`,
snapshotted immediately after the deal and first flip) the sequence
returned by `verify_shuffle` does not equal
`hand1 ∥ hand2 ∥ draw_pile ∥ flipped_card` — the flipped card is deck
index 10 and sits before the remaining pile in the deck order, not
after it. -/
theorem C6_counterexample :
    verify_shuffle hostEnv0 7 s_dealt = .ok (verify_shuffle_deck hostEnv0 seedA seedA 7) ∧
    s_dealt.games 7 = some g_dealt ∧
    g_dealt.lifecycle_state = STATE_PLAYING ∧
    verify_shuffle_deck hostEnv0 seedA seedA 7 ≠
      g_dealt.hand1 ++ g_dealt.hand2 ++ g_dealt.draw_pile ++ g_dealt.flipped_card.toList := by
  refine ⟨by rfl, by decide, by decide, by decide⟩

/-- C6 (witness): the amended round-trip applied to a concrete session
holding the seed hashes of the trace. -/
theorem C6_witness :
    verify_shuffle hostEnv0 7 sView = .ok (verify_shuffle_deck hostEnv0 seedA seedA 7) :=
  (C6_verify_shuffle_roundtrip hostEnv0 gView 7 seedA seedA rfl rfl).2.2 sView gView
    (by decide) (by decide) (by decide) (by decide)

end Cangkulan

namespace Cangkulan

/-- C8 (amended): `get_game_view` redacts both hands for a viewer who
is neither player but returns the draw pile unredacted; a player viewer
sees their own hand with the opponent hand redacted and, during
`RevealWaitP1`, viewer P1 gets `trick_card2 = none` (symmetrically for
P2 during `RevealWaitP2`); outside those sub-states the opponent trick
card is returned as stored. -/
theorem C8_get_game_view_redaction (s : Storage) (sid viewer : ℕ) (g : CangkulanGame)
    (hg : s.games sid = some g) :
    (resolve_slot g viewer = none →
      get_game_view sid viewer s = .ok { g with hand1 := [], hand2 := [] }) ∧
    (resolve_slot g viewer = some PLAYER_1 →
      (g.trick_state = TRICK_REVEAL_WAIT_P1 →
        get_game_view sid viewer s = .ok { g with hand2 := [], trick_card2 := none }) ∧
      (g.trick_state ≠ TRICK_REVEAL_WAIT_P1 →
        get_game_view sid viewer s = .ok { g with hand2 := [] })) ∧
    (resolve_slot g viewer = some PLAYER_2 →
      (g.trick_state = TRICK_REVEAL_WAIT_P2 →
        get_game_view sid viewer s = .ok { g with hand1 := [], trick_card1 := none }) ∧
      (g.trick_state ≠ TRICK_REVEAL_WAIT_P2 →
        get_game_view sid viewer s = .ok { g with hand1 := [] })) := by
  unfold get_game_view
  rw [hg]
  refine ⟨fun hn => ?_, fun h1 => ⟨fun ht => ?_, fun ht => ?_⟩,
          fun h2 => ⟨fun ht => ?_, fun ht => ?_⟩⟩
  · simp [hn]
  · simp [h1, ht, PLAYER_1]
  · simp [h1, ht, PLAYER_1]
  · simp [h2, ht, PLAYER_1, PLAYER_2]
  · simp [h2, ht, PLAYER_1, PLAYER_2]

/-- C8 (counterexample): for a viewer who is neither player, the draw
pile is returned as stored, not emptied — here a non-player viewer 5 of
session 7 receives the full three-card pile. -/
theorem C8_counterexample :
    Except.map (fun g => (g.hand1, g.hand2, g.draw_pile)) (get_game_view 7 5 sView) =
      .ok (([] : List ℕ), ([] : List ℕ), [20, 21, 22]) := by
  rfl

/-- C8 (witness): the amended redaction applied to a concrete stored
session and a non-player viewer. -/
theorem C8_witness :
    get_game_view 7 5 sView = .ok { gView with hand1 := [], hand2 := [] } :=
  (C8_get_game_view_redaction sView 7 5 gView (by decide)).1 (by decide)

end Cangkulan

namespace Cangkulan

/-- C10: a fresh session stores `last_tick_ledger = 0`, so the very
first `tick_timeout` call returns `TickTooSoon` whenever the current
ledger sequence is below `MIN_TICK_GAP_LEDGERS = 60`, even though no
tick was ever made; the first tick succeeds exactly when the ledger
height is at least 60. -/
theorem C10_first_tick_gate :
    (∀ E led sid p1 p2 pts1 pts2 s g2,
      (start_game E led sid p1 p2 pts1 pts2 s).2.games sid = some g2 →
      (start_game E led sid p1 p2 pts1 pts2 s).1 = none →
      g2.last_tick_ledger = 0) ∧
    (∀ E led sid caller s g, s.games sid = some g →
      g.lifecycle_state ≠ STATE_FINISHED →
      (resolve_slot g caller).isSome →
      g.last_tick_ledger = 0 →
      ((led < MIN_TICK_GAP_LEDGERS →
          (tick_timeout E led sid caller s).1 = some CangkulanError.TickTooSoon) ∧
       (MIN_TICK_GAP_LEDGERS ≤ led →
          (tick_timeout E led sid caller s).1 = none))) := by
  constructor
  · intro E led sid p1 p2 pts1 pts2 s g2 hg2 hok
    unfold start_game at hg2 hok
    by_cases hp : p1 = p2
    · rw [if_pos hp] at hok; exact absurd hok (by simp)
    · rw [if_neg hp] at hok hg2
      cases hgame : s.games sid with
      | some gx => simp only [hgame] at hok; exact Option.noConfusion hok
      | none =>
        simp only [hgame] at hok hg2
        cases hhub : s.game_hub with
        | none => simp only [hhub] at hok; exact Option.noConfusion hok
        | some hb =>
          simp only [hhub, write_game, if_pos rfl] at hg2
          injection hg2 with e
          rw [← e]
  · intro E led sid caller s g hg hact hslot hfresh
    obtain ⟨slot, hres⟩ := Option.isSome_iff_exists.mp hslot
    have hmin : MIN_TICK_GAP_LEDGERS = 60 := rfl
    have hgap : satAdd g.last_tick_ledger MIN_TICK_GAP_LEDGERS = 60 := by
      rw [hfresh]; decide
    constructor
    · intro hled
      simp only [tick_timeout, hg, if_neg hact, hres, hgap]
      rw [if_pos (by omega)]
    · intro hled
      simp only [tick_timeout, hg, if_neg hact, hres, hgap]
      rw [if_neg (by omega)]

/-- C10 (witness): on the concrete fresh session of the trace, a tick
at ledger 59 is rejected with `TickTooSoon` and a tick at ledger 60
succeeds. -/
theorem C10_witness :
    (tick_timeout hostEnv0 59 7 10 s_start).1 = some CangkulanError.TickTooSoon ∧
    (tick_timeout hostEnv0 60 7 10 s_start).1 = none :=
  ⟨(C10_first_tick_gate.2 hostEnv0 59 7 10 s_start g_start (by decide) (by decide)
      (by decide) (by decide)).1 (by decide),
   (C10_first_tick_gate.2 hostEnv0 60 7 10 s_start g_start (by decide) (by decide)
      (by decide) (by decide)).2 (by decide)⟩

end Cangkulan

namespace Cangkulan

/-- C3 (witness): trick resolution on a concrete state where only
player 2 played (card 19): player 2 wins the trick and player 1 draws
the head of the pile (card 20) as penalty. -/
theorem C3_witness :
    (resolve_trick hostEnv0 100 7 gView sView).2.1.tricks_won2 = gView.tricks_won2 + 1 ∧
    (resolve_trick hostEnv0 100 7 gView sView).2.1.hand1 = gView.hand1 ++ [20] := by
  have h := (C3_resolve_trick_cases hostEnv0 100 7 gView sView).2.2.1 19 rfl rfl
  exact ⟨h.1.1, h.2.1 20 [21, 22] rfl⟩

end Cangkulan

namespace ZkVerifier

open Cangkulan (be4 fr_bytes_of_u32 G1_GENERATOR)

/-- C9: mode-8 verifier soundness.  For every public input and every
228-byte proof, `verify` dispatches to the cangkul hand check and
returns true only if: the k field of the proof agrees with the k field
of the public inputs and lies in `[1, 18]`; the trick suit is at most
3; every listed card is below 36 and not of the trick suit; the
keccak256 digest of the aggregate commitment A equals the committed
hash; A and R pass the G1 subgroup check; and the Schnorr equation
`z·H = R + e·delta` holds, where `delta = A - (Σ card_i·G)` and `e` is
the Fiat-Shamir challenge bound to the ZKP8 tag. -/
theorem C9_mode8_verifier_soundness (B : BlsHost) (pi proof : List ℕ)
    (hlen : proof.length = 228) (hv : verify B pi proof = true) :
    1 ≤ extract_u32 proof 0 ∧ extract_u32 proof 0 ≤ 18 ∧
    extract_u32 pi 36 = extract_u32 proof 0 ∧
    extract_u32 pi 32 ≤ 3 ∧
    (∀ i < extract_u32 proof 0,
      extract_u32 pi (40 + i * 4) < 36 ∧
      extract_u32 pi (40 + i * 4) / 9 ≠ extract_u32 pi 32) ∧
    B.g1_is_in_subgroup (extract_g1 proof 4) = true ∧
    B.g1_is_in_subgroup (extract_g1 proof 100) = true ∧
    B.keccak256 (extract_g1 proof 4) = slice pi 0 32 ∧
    B.g1_mul (pedersen_h B) (extract_fr B proof 196) =
      B.g1_add (extract_g1 proof 100)
        (B.g1_mul
          (B.g1_add (extract_g1 proof 4)
            (B.g1_neg (B.g1_msm
              (((List.range (extract_u32 proof 0)).map
                  (fun i => extract_u32 pi (40 + i * 4))).map (fun _ => G1_GENERATOR))
              (((List.range (extract_u32 proof 0)).map
                  (fun i => extract_u32 pi (40 + i * 4))).map
                (fun c => B.fr_from_bytes (fr_bytes_of_u32 c))))))
          (B.fr_from_bytes (B.keccak256 (extract_g1 proof 4 ++ extract_g1 proof 100 ++
            be4 (extract_u32 pi 32) ++ be4 (extract_u32 proof 0) ++
            slice pi (40 + 4 * extract_u32 proof 0) 4 ++
            pi.drop (44 + 4 * extract_u32 proof 0) ++ CANGKUL_CHALLENGE_TAG)))) := by
  have hv8 : verify_cangkul_hand B pi proof = true := by
    unfold verify at hv
    rw [hlen] at hv
    rw [if_neg (by decide : ¬((228:ℕ) = 0)), if_neg (by decide : ¬((228:ℕ) = 128)),
        if_pos (rfl : (228:ℕ) = 228)] at hv
    exact hv
  clear hv
  simp only [verify_cangkul_hand] at hv8
  by_cases c1 : extract_u32 proof 0 = 0 ∨ 18 < extract_u32 proof 0
  · rw [if_pos c1] at hv8; exact absurd hv8 (by decide)
  rw [if_neg c1] at hv8
  by_cases c2 : pi.length < 32 + 4 + 4 + 4 * extract_u32 proof 0 + 4 + 1
  · rw [if_pos c2] at hv8; exact absurd hv8 (by decide)
  rw [if_neg c2] at hv8
  by_cases c3 : 3 < extract_u32 pi 32
  · rw [if_pos c3] at hv8; exact absurd hv8 (by decide)
  rw [if_neg c3] at hv8
  by_cases c4 : extract_u32 pi 36 ≠ extract_u32 proof 0
  · rw [if_pos c4] at hv8; exact absurd hv8 (by decide)
  rw [if_neg c4] at hv8
  by_cases c5 : (!(((List.range (extract_u32 proof 0)).map
      (fun i => extract_u32 pi (40 + i * 4))).all
      (fun c => decide (c < 36) && decide (c / 9 ≠ extract_u32 pi 32)))) = true
  · rw [if_pos c5] at hv8; exact absurd hv8 (by decide)
  rw [if_neg c5] at hv8
  by_cases c6 : pi.length - (44 + 4 * extract_u32 proof 0) = 0
  · rw [if_pos c6] at hv8; exact absurd hv8 (by decide)
  rw [if_neg c6] at hv8
  by_cases c7 : (!(B.g1_is_in_subgroup (extract_g1 proof 4))) = true
  · rw [if_pos c7] at hv8; exact absurd hv8 (by decide)
  rw [if_neg c7] at hv8
  by_cases c8 : (!(B.g1_is_in_subgroup (extract_g1 proof 100))) = true
  · rw [if_pos c8] at hv8; exact absurd hv8 (by decide)
  rw [if_neg c8] at hv8
  by_cases c9 : B.keccak256 (extract_g1 proof 4) ≠ slice pi 0 32
  · rw [if_pos c9] at hv8; exact absurd hv8 (by decide)
  rw [if_neg c9] at hv8
  rcases Classical.em (B.g1_mul (pedersen_h B) (extract_fr B proof 196) =
      B.g1_add (extract_g1 proof 100)
        (B.g1_mul
          (B.g1_add (extract_g1 proof 4)
            (B.g1_neg (B.g1_msm
              (((List.range (extract_u32 proof 0)).map
                  (fun i => extract_u32 pi (40 + i * 4))).map (fun _ => G1_GENERATOR))
              (((List.range (extract_u32 proof 0)).map
                  (fun i => extract_u32 pi (40 + i * 4))).map
                (fun c => B.fr_from_bytes (fr_bytes_of_u32 c))))))
          (B.fr_from_bytes (B.keccak256 (extract_g1 proof 4 ++ extract_g1 proof 100 ++
            be4 (extract_u32 pi 32) ++ be4 (extract_u32 proof 0) ++
            slice pi (40 + 4 * extract_u32 proof 0) 4 ++
            pi.drop (44 + 4 * extract_u32 proof 0) ++ CANGKUL_CHALLENGE_TAG))))) with
    heq10 | hne10
  · push_neg at c1
    refine ⟨by omega, by omega, not_ne_iff.mp c4, by omega, ?_,
      by
        revert c7
        cases B.g1_is_in_subgroup (extract_g1 proof 4) <;> simp,
      by
        revert c8
        cases B.g1_is_in_subgroup (extract_g1 proof 100) <;> simp,
      not_ne_iff.mp c9, heq10⟩
    intro i hi
    have hall : (((List.range (extract_u32 proof 0)).map
        (fun i => extract_u32 pi (40 + i * 4))).all
        (fun c => decide (c < 36) && decide (c / 9 ≠ extract_u32 pi 32))) = true := by
      revert c5
      cases ((List.range (extract_u32 proof 0)).map
        (fun i => extract_u32 pi (40 + i * 4))).all
        (fun c => decide (c < 36) && decide (c / 9 ≠ extract_u32 pi 32)) <;> simp
    have hmem : extract_u32 pi (40 + i * 4) ∈
        (List.range (extract_u32 proof 0)).map (fun j => extract_u32 pi (40 + j * 4)) :=
      List.mem_map.mpr ⟨i, List.mem_range.mpr hi, rfl⟩
    have hp := List.all_eq_true.mp hall _ hmem
    simp only [Bool.and_eq_true, decide_eq_true_eq] at hp
    exact hp
  · rw [if_pos hne10] at hv8; exact absurd hv8 (by decide)

end ZkVerifier

namespace ZkVerifier

set_option maxRecDepth 4096 in
/-- C9 (witness): a concrete 228-byte proof and public input accepted
by the mode-8 verifier under the concrete host cryptography, with the
claimed checks holding at it. -/
theorem C9_witness :
    verify blsHost0 pi8 proof8 = true ∧ extract_u32 pi8 32 ≤ 3 ∧
      1 ≤ extract_u32 proof8 0 := by
  have hv : verify blsHost0 pi8 proof8 = true := by decide
  have h := C9_mode8_verifier_soundness blsHost0 pi8 proof8 (by decide) hv
  exact ⟨hv, h.2.2.2.1, h.1⟩

end ZkVerifier

namespace Cangkulan

theorem start_game_err_preserves (E : HostEnv) (led sid p1 p2 : ℕ) (pts1 pts2 : ℤ)
    (s : Storage) (h : (start_game E led sid p1 p2 pts1 pts2 s).1.isSome = true) :
    (start_game E led sid p1 p2 pts1 pts2 s).2 = s := by
  revert h
  simp only [start_game]
  repeat' split
  all_goals intro h
  all_goals first | rfl | (exfalso; simp at h)

theorem commit_seed_err_preserves (E : HostEnv) (led sid player : ℕ) (ch : List ℕ)
    (s : Storage) (h : (commit_seed E led sid player ch s).1.isSome = true) :
    (commit_seed E led sid player ch s).2 = s := by
  revert h
  simp only [commit_seed]
  repeat' split
  all_goals intro h
  all_goals first | rfl | (exfalso; simp at h)

theorem call_seed_verifier_err_preserves (E : HostEnv) (sid slot player : ℕ)
    (sh ch proof : List ℕ) (s : Storage)
    (h : (call_seed_verifier E sid slot player sh ch proof s).1.isSome = true) :
    (call_seed_verifier E sid slot player sh ch proof s).2 = s := by
  revert h
  unfold call_seed_verifier
  dsimp only
  repeat' split
  all_goals intro h
  all_goals first | rfl | (exfalso; simp at h)

theorem call_seed_verifier_match_err (E : HostEnv) (sid slot player : ℕ)
    (sh ch proof : List ℕ) (s : Storage) (e : CangkulanError) (s1 : Storage)
    (heq : call_seed_verifier E sid slot player sh ch proof s = (some e, s1)) :
    s1 = s := by
  have hsome : (call_seed_verifier E sid slot player sh ch proof s).1.isSome = true := by
    rw [heq]; rfl
  have hp := call_seed_verifier_err_preserves E sid slot player sh ch proof s hsome
  rw [heq] at hp
  exact hp

theorem reveal_seed_err_preserves (E : HostEnv) (led sid player : ℕ)
    (sh proof : List ℕ) (s : Storage)
    (h : (reveal_seed E led sid player sh proof s).1.isSome = true) :
    (reveal_seed E led sid player sh proof s).2 = s := by
  revert h
  unfold reveal_seed reveal_seed_core
  dsimp only
  repeat' split
  all_goals intro h
  all_goals first
    | rfl
    | (rename_i heq; exact call_seed_verifier_match_err _ _ _ _ _ _ _ _ _ _ heq)
    | (exfalso; simp at h; done)

theorem verify_noir_seed_err_preserves (E : HostEnv) (led sid player : ℕ)
    (sh proof : List ℕ) (s : Storage)
    (h : (verify_noir_seed E led sid player sh proof s).1.isSome = true) :
    (verify_noir_seed E led sid player sh proof s).2 = s := by
  revert h
  simp only [verify_noir_seed]
  repeat' split
  all_goals intro h
  all_goals first | rfl | (exfalso; simp at h)

theorem commit_play_err_preserves (E : HostEnv) (led sid player : ℕ) (ch : List ℕ)
    (en : ℕ) (s : Storage)
    (h : (commit_play E led sid player ch en s).1.isSome = true) :
    (commit_play E led sid player ch en s).2 = s := by
  revert h
  simp only [commit_play, commit_play_finish]
  repeat' split
  all_goals intro h
  all_goals first | rfl | (exfalso; simp at h)

theorem commit_play_zk_err_preserves (E : HostEnv) (led sid player : ℕ) (ch : List ℕ)
    (en : ℕ) (zp : List ℕ) (s : Storage)
    (h : (commit_play_zk E led sid player ch en zp s).1.isSome = true) :
    (commit_play_zk E led sid player ch en zp s).2 = s := by
  revert h
  simp only [commit_play_zk, commit_play_finish]
  repeat' split
  all_goals intro h
  all_goals first | rfl | (exfalso; simp at h)

theorem commit_cangkul_zk_err_preserves (E : HostEnv) (led sid player : ℕ)
    (ch : List ℕ) (en : ℕ) (zp : List ℕ) (s : Storage)
    (h : (commit_cangkul_zk E led sid player ch en zp s).1.isSome = true) :
    (commit_cangkul_zk E led sid player ch en zp s).2 = s := by
  revert h
  simp only [commit_cangkul_zk, commit_play_finish]
  repeat' split
  all_goals intro h
  all_goals first | rfl | (exfalso; simp at h)

theorem finalize_game_err_preserves (E : HostEnv) (led sid : ℕ) (g : CangkulanGame)
    (o : ℕ) (s : Storage)
    (h : (finalize_game E led sid g o s).1.isSome = true) :
    (finalize_game E led sid g o s).2.2 = s := by
  revert h
  simp only [finalize_game]
  repeat' split
  all_goals intro h
  all_goals first | rfl | (exfalso; simp at h)

theorem finalize_match_err (E : HostEnv) (led sid : ℕ) (g : CangkulanGame) (o : ℕ)
    (s : Storage) (e : CangkulanError) (g1 : CangkulanGame) (s1 : Storage)
    (heq : finalize_game E led sid g o s = (some e, g1, s1)) : s1 = s := by
  have hsome : (finalize_game E led sid g o s).1.isSome = true := by rw [heq]; rfl
  have hp := finalize_game_err_preserves E led sid g o s hsome
  rw [heq] at hp
  exact hp

theorem resolve_trick_err_preserves (E : HostEnv) (led sid : ℕ) (g : CangkulanGame)
    (s : Storage) (h : (resolve_trick E led sid g s).1.isSome = true) :
    (resolve_trick E led sid g s).2.2 = s := by
  revert h
  unfold resolve_trick
  dsimp only
  repeat' split
  all_goals intro h
  all_goals first
    | rfl
    | exact finalize_game_err_preserves _ _ _ _ _ _ h
    | (exfalso; simp at h; done)

theorem resolve_trick_match_err (E : HostEnv) (led sid : ℕ) (g : CangkulanGame)
    (s : Storage) (e : CangkulanError) (g1 : CangkulanGame) (s1 : Storage)
    (heq : resolve_trick E led sid g s = (some e, g1, s1)) : s1 = s := by
  have hsome : (resolve_trick E led sid g s).1.isSome = true := by rw [heq]; rfl
  have hp := resolve_trick_err_preserves E led sid g s hsome
  rw [heq] at hp
  exact hp

theorem reveal_play_err_preserves (E : HostEnv) (led sid player cid : ℕ)
    (salt : List ℕ) (s : Storage)
    (h : (reveal_play E led sid player cid salt s).1.isSome = true) :
    (reveal_play E led sid player cid salt s).2 = s := by
  revert h
  unfold reveal_play reveal_play_finish
  dsimp only
  repeat' split
  all_goals intro h
  all_goals first
    | rfl
    | (rename_i heq; exact resolve_trick_match_err _ _ _ _ _ _ _ _ heq)
    | (exfalso; simp at h; done)

theorem tick_timeout_err_preserves (E : HostEnv) (led sid caller : ℕ) (s : Storage)
    (h : (tick_timeout E led sid caller s).1.isSome = true) :
    (tick_timeout E led sid caller s).2 = s := by
  revert h
  simp only [tick_timeout]
  repeat' split
  all_goals intro h
  all_goals first | rfl | (exfalso; simp at h)

theorem resolve_timeout_err_preserves (E : HostEnv) (led sid caller : ℕ) (s : Storage)
    (h : (resolve_timeout E led sid caller s).1.isSome = true) :
    (resolve_timeout E led sid caller s).2 = s := by
  revert h
  unfold resolve_timeout
  dsimp only
  repeat' split
  all_goals intro h
  all_goals first
    | rfl
    | (rename_i heq; exact finalize_match_err _ _ _ _ _ _ _ _ _ heq)
    | (exfalso; simp at h; done)

theorem forfeit_err_preserves (E : HostEnv) (led sid caller : ℕ) (s : Storage)
    (h : (forfeit E led sid caller s).1.isSome = true) :
    (forfeit E led sid caller s).2 = s := by
  revert h
  unfold forfeit
  dsimp only
  repeat' split
  all_goals intro h
  all_goals first
    | rfl
    | (rename_i heq; exact finalize_match_err _ _ _ _ _ _ _ _ _ heq)
    | (exfalso; simp at h; done)

theorem set_admin_err_preserves (a : ℕ) (s : Storage)
    (h : (set_admin a s).1.isSome = true) : (set_admin a s).2 = s := by
  revert h
  simp only [set_admin]
  repeat' split
  all_goals intro h
  all_goals first | rfl | (exfalso; simp at h)

theorem set_hub_err_preserves (a : ℕ) (s : Storage)
    (h : (set_hub a s).1.isSome = true) : (set_hub a s).2 = s := by
  revert h
  simp only [set_hub]
  repeat' split
  all_goals intro h
  all_goals first | rfl | (exfalso; simp at h)

theorem set_verifier_err_preserves (a : ℕ) (s : Storage)
    (h : (set_verifier a s).1.isSome = true) : (set_verifier a s).2 = s := by
  revert h
  simp only [set_verifier]
  repeat' split
  all_goals intro h
  all_goals first | rfl | (exfalso; simp at h)

theorem set_ultrahonk_verifier_err_preserves (a : ℕ) (s : Storage)
    (h : (set_ultrahonk_verifier a s).1.isSome = true) :
    (set_ultrahonk_verifier a s).2 = s := by
  revert h
  simp only [set_ultrahonk_verifier]
  repeat' split
  all_goals intro h
  all_goals first | rfl | (exfalso; simp at h)

theorem upgrade_err_preserves (s : Storage)
    (h : (upgrade s).1.isSome = true) : (upgrade s).2 = s := by
  revert h
  simp only [upgrade]
  repeat' split
  all_goals intro h
  all_goals first | rfl | (exfalso; simp at h)

end Cangkulan

namespace Cangkulan

/-- C4: error atomicity.  For every public entry point and every input
and stored state, if the call returns an error then the returned
storage — session map, player history buffers, Noir flags and instance
configuration — is exactly the storage the call started from; no
partial mutation survives a failed check. -/
theorem C4_error_atomicity (E : HostEnv) (led : ℕ) (c : HostCall) (s : Storage)
    (h : (exec E led c s).1.isSome = true) : (exec E led c s).2 = s := by
  cases c with
  | start_game sid p1 p2 pts1 pts2 => exact start_game_err_preserves E led sid p1 p2 pts1 pts2 s h
  | commit_seed sid player ch => exact commit_seed_err_preserves E led sid player ch s h
  | reveal_seed sid player sh proof => exact reveal_seed_err_preserves E led sid player sh proof s h
  | verify_noir_seed sid player sh proof =>
      exact verify_noir_seed_err_preserves E led sid player sh proof s h
  | commit_play sid player ch en => exact commit_play_err_preserves E led sid player ch en s h
  | commit_play_zk sid player ch en zp =>
      exact commit_play_zk_err_preserves E led sid player ch en zp s h
  | commit_cangkul_zk sid player ch en zp =>
      exact commit_cangkul_zk_err_preserves E led sid player ch en zp s h
  | reveal_play sid player cid salt => exact reveal_play_err_preserves E led sid player cid salt s h
  | tick_timeout sid caller => exact tick_timeout_err_preserves E led sid caller s h
  | resolve_timeout sid caller => exact resolve_timeout_err_preserves E led sid caller s h
  | forfeit sid caller => exact forfeit_err_preserves E led sid caller s h
  | set_admin a => exact set_admin_err_preserves a s h
  | set_hub a => exact set_hub_err_preserves a s h
  | set_verifier a => exact set_verifier_err_preserves a s h
  | set_ultrahonk_verifier a => exact set_ultrahonk_verifier_err_preserves a s h
  | upgrade => exact upgrade_err_preserves s h

/-- C4 (witness): a failing call on concrete storage — committing a
seed to a nonexistent session — errors and returns the storage
untouched. -/
theorem C4_witness :
    (exec hostEnv0 0 (.commit_seed 9 5 trace_h) s_init).1.isSome = true ∧
    (exec hostEnv0 0 (.commit_seed 9 5 trace_h) s_init).2 = s_init :=
  ⟨by rfl, C4_error_atomicity hostEnv0 0 (.commit_seed 9 5 trace_h) s_init (by rfl)⟩

end Cangkulan

namespace Cangkulan

theorem finalize_game_nonce (E : HostEnv) (led sid : ℕ) (g : CangkulanGame) (o : ℕ)
    (s : Storage) : (finalize_game E led sid g o s).2.1.action_nonce = g.action_nonce := by
  unfold finalize_game
  dsimp only
  repeat' split
  all_goals rfl

theorem flip_next_card_nonce (g : CangkulanGame) :
    (flip_next_card g).action_nonce = g.action_nonce := by
  unfold flip_next_card
  split <;> rfl

theorem give_penalty_card_nonce (g : CangkulanGame) (slot : ℕ) :
    (give_penalty_card g slot).action_nonce = g.action_nonce := by
  unfold give_penalty_card
  repeat' split
  all_goals rfl

theorem resolve_trick_nonce (E : HostEnv) (led sid : ℕ) (g : CangkulanGame)
    (s : Storage) : (resolve_trick E led sid g s).2.1.action_nonce = g.action_nonce := by
  unfold resolve_trick
  dsimp only
  repeat' split
  all_goals
    first
    | rfl
    | (rw [finalize_game_nonce]; first | rfl | (rw [give_penalty_card_nonce]))
    | (rw [flip_next_card_nonce]; first | rfl | (rw [give_penalty_card_nonce]))
    | simp [flip_next_card_nonce, give_penalty_card_nonce, finalize_game_nonce]

theorem commit_seed_nonce (E : HostEnv) (led sid player : ℕ) (ch : List ℕ)
    (s : Storage) (g g' : CangkulanGame) (hg : s.games sid = some g)
    (hok : (commit_seed E led sid player ch s).1 = none)
    (hg' : (commit_seed E led sid player ch s).2.games sid = some g') :
    g'.action_nonce = satAdd g.action_nonce 1 := by
  revert hok hg'
  unfold commit_seed
  rw [hg]
  dsimp only
  repeat' split
  all_goals intro hok hg'
  all_goals
    first
    | exact Option.noConfusion hok
    | (simp only [write_game, if_pos rfl] at hg'
       injection hg' with e
       rw [← e]
       simp [bump_nonce])

theorem reveal_seed_nonce (E : HostEnv) (led sid player : ℕ) (sh proof : List ℕ)
    (s : Storage) (g g' : CangkulanGame) (hg : s.games sid = some g)
    (hok : (reveal_seed E led sid player sh proof s).1 = none)
    (hg' : (reveal_seed E led sid player sh proof s).2.games sid = some g') :
    g'.action_nonce = satAdd g.action_nonce 1 := by
  revert hok hg'
  unfold reveal_seed reveal_seed_core
  rw [hg]
  dsimp only
  repeat' split
  all_goals intro hok hg'
  all_goals
    first
    | exact Option.noConfusion hok
    | (simp only [write_game, if_pos rfl] at hg'
       injection hg' with e
       rw [← e]
       simp [bump_nonce, flip_next_card_nonce, shuffle_and_deal])

theorem commit_play_nonce (E : HostEnv) (led sid player : ℕ) (ch : List ℕ) (en : ℕ)
    (s : Storage) (g g' : CangkulanGame) (hg : s.games sid = some g)
    (hok : (commit_play E led sid player ch en s).1 = none)
    (hg' : (commit_play E led sid player ch en s).2.games sid = some g') :
    g'.action_nonce = satAdd g.action_nonce 1 := by
  revert hok hg'
  unfold commit_play commit_play_finish
  rw [hg]
  dsimp only
  repeat' split
  all_goals intro hok hg'
  all_goals
    first
    | exact Option.noConfusion hok
    | (simp only [write_game, if_pos rfl] at hg'
       injection hg' with e
       rw [← e]
       simp [bump_nonce, advance_commit_state])

theorem commit_play_zk_nonce (E : HostEnv) (led sid player : ℕ) (ch : List ℕ)
    (en : ℕ) (zp : List ℕ) (s : Storage) (g g' : CangkulanGame)
    (hg : s.games sid = some g)
    (hok : (commit_play_zk E led sid player ch en zp s).1 = none)
    (hg' : (commit_play_zk E led sid player ch en zp s).2.games sid = some g') :
    g'.action_nonce = satAdd g.action_nonce 1 := by
  revert hok hg'
  unfold commit_play_zk commit_play_finish
  rw [hg]
  dsimp only
  repeat' split
  all_goals intro hok hg'
  all_goals
    first
    | exact Option.noConfusion hok
    | (simp only [write_game, if_pos rfl] at hg'
       injection hg' with e
       rw [← e]
       simp [bump_nonce, advance_commit_state])

theorem commit_cangkul_zk_nonce (E : HostEnv) (led sid player : ℕ) (ch : List ℕ)
    (en : ℕ) (zp : List ℕ) (s : Storage) (g g' : CangkulanGame)
    (hg : s.games sid = some g)
    (hok : (commit_cangkul_zk E led sid player ch en zp s).1 = none)
    (hg' : (commit_cangkul_zk E led sid player ch en zp s).2.games sid = some g') :
    g'.action_nonce = satAdd g.action_nonce 1 := by
  revert hok hg'
  unfold commit_cangkul_zk commit_play_finish
  rw [hg]
  dsimp only
  repeat' split
  all_goals intro hok hg'
  all_goals
    first
    | exact Option.noConfusion hok
    | (simp only [write_game, if_pos rfl] at hg'
       injection hg' with e
       rw [← e]
       simp [bump_nonce, advance_commit_state])

theorem set_hand_nonce (g : CangkulanGame) (slot : ℕ) (h : List ℕ) :
    (set_hand g slot h).action_nonce = g.action_nonce := by
  unfold set_hand
  split <;> rfl

theorem reveal_play_finish_nonce (E : HostEnv) (led sid : ℕ) (g : CangkulanGame)
    (slot : ℕ) (s : Storage) (g' : CangkulanGame)
    (hok : (reveal_play_finish E led sid g slot s).1 = none)
    (hg' : (reveal_play_finish E led sid g slot s).2.games sid = some g') :
    g'.action_nonce = satAdd g.action_nonce 1 := by
  revert hok hg'
  unfold reveal_play_finish
  dsimp only
  repeat' split
  all_goals intro hok hg'
  all_goals
    first
    | exact Option.noConfusion hok
    | (rename_i heq
       simp only [write_game, if_pos rfl] at hg'
       injection hg' with e
       rw [← e]
       have hrn := congrArg (fun p => (p.2.1).action_nonce) heq
       simp only [resolve_trick_nonce] at hrn
       rw [← hrn]
       simp [bump_nonce, advance_reveal_state])
    | (simp only [write_game, if_pos rfl] at hg'
       injection hg' with e
       rw [← e]
       simp [bump_nonce, advance_reveal_state])

theorem reveal_play_nonce (E : HostEnv) (led sid player cid : ℕ) (salt : List ℕ)
    (s : Storage) (g g' : CangkulanGame) (hg : s.games sid = some g)
    (hok : (reveal_play E led sid player cid salt s).1 = none)
    (hg' : (reveal_play E led sid player cid salt s).2.games sid = some g') :
    g'.action_nonce = satAdd g.action_nonce 1 := by
  revert hok hg'
  unfold reveal_play
  rw [hg]
  dsimp only
  repeat' split
  all_goals intro hok hg'
  all_goals
    first
    | exact Option.noConfusion hok
    | (have hfin := reveal_play_finish_nonce E led sid _ _ s g' hok hg'
       rw [hfin]
       all_goals
         first
         | rfl
         | simp [set_hand_nonce])

theorem tick_timeout_nonce (E : HostEnv) (led sid caller : ℕ) (s : Storage)
    (g g' : CangkulanGame) (hg : s.games sid = some g)
    (hok : (tick_timeout E led sid caller s).1 = none)
    (hg' : (tick_timeout E led sid caller s).2.games sid = some g') :
    g'.action_nonce = satAdd g.action_nonce 1 := by
  revert hok hg'
  unfold tick_timeout
  rw [hg]
  dsimp only
  repeat' split
  all_goals intro hok hg'
  all_goals
    first
    | exact Option.noConfusion hok
    | (simp only [write_game, if_pos rfl] at hg'
       injection hg' with e
       rw [← e]
       simp [bump_nonce])

theorem forfeit_nonce (E : HostEnv) (led sid caller : ℕ) (s : Storage)
    (g g' : CangkulanGame) (hg : s.games sid = some g)
    (hok : (forfeit E led sid caller s).1 = none)
    (hg' : (forfeit E led sid caller s).2.games sid = some g') :
    g'.action_nonce = g.action_nonce := by
  revert hok hg'
  unfold forfeit
  rw [hg]
  dsimp only
  repeat' split
  all_goals intro hok hg'
  all_goals
    first
    | exact Option.noConfusion hok
    | (rename_i heq
       simp only [write_game, if_pos rfl] at hg'
       injection hg' with e
       rw [← e]
       have hfn := congrArg (fun p => (p.2.1).action_nonce) heq
       simp only [finalize_game_nonce] at hfn
       exact hfn.symm)

theorem resolve_timeout_nonce (E : HostEnv) (led sid caller : ℕ) (s : Storage)
    (g g' : CangkulanGame) (hg : s.games sid = some g)
    (hok : (resolve_timeout E led sid caller s).1 = none)
    (hg' : (resolve_timeout E led sid caller s).2.games sid = some g') :
    g'.action_nonce = g.action_nonce := by
  revert hok hg'
  unfold resolve_timeout
  rw [hg]
  dsimp only
  repeat' split
  all_goals intro hok hg'
  all_goals
    first
    | exact Option.noConfusion hok
    | (rename_i heq
       simp only [write_game, if_pos rfl] at hg'
       injection hg' with e
       rw [← e]
       have hfn := congrArg (fun p => (p.2.1).action_nonce) heq
       simp only [finalize_game_nonce] at hfn
       exact hfn.symm)

end Cangkulan

namespace Cangkulan

/-- C5: Corrected action-nonce behaviour.  Every successful call to one
of the seven mid-game entry points (commit_seed, reveal_seed,
commit_play, commit_play_zk, commit_cangkul_zk, reveal_play,
tick_timeout) stores the touched session with action_nonce equal to the
saturating increment satAdd nonce 1 of the previous value, so the nonce
never decreases; but the finalizing entry points forfeit and
resolve_timeout store a mutated session whose action_nonce is exactly
the previous value, refuting the claim that every state-mutating
operation increments the nonce by exactly one. -/
theorem C5_action_nonce (E : HostEnv) :
    (∀ led sid player ch s g g', s.games sid = some g →
        (commit_seed E led sid player ch s).1 = none →
        (commit_seed E led sid player ch s).2.games sid = some g' →
        g'.action_nonce = satAdd g.action_nonce 1) ∧
    (∀ led sid player sh proof s g g', s.games sid = some g →
        (reveal_seed E led sid player sh proof s).1 = none →
        (reveal_seed E led sid player sh proof s).2.games sid = some g' →
        g'.action_nonce = satAdd g.action_nonce 1) ∧
    (∀ led sid player ch en s g g', s.games sid = some g →
        (commit_play E led sid player ch en s).1 = none →
        (commit_play E led sid player ch en s).2.games sid = some g' →
        g'.action_nonce = satAdd g.action_nonce 1) ∧
    (∀ led sid player ch en zp s g g', s.games sid = some g →
        (commit_play_zk E led sid player ch en zp s).1 = none →
        (commit_play_zk E led sid player ch en zp s).2.games sid = some g' →
        g'.action_nonce = satAdd g.action_nonce 1) ∧
    (∀ led sid player ch en zp s g g', s.games sid = some g →
        (commit_cangkul_zk E led sid player ch en zp s).1 = none →
        (commit_cangkul_zk E led sid player ch en zp s).2.games sid = some g' →
        g'.action_nonce = satAdd g.action_nonce 1) ∧
    (∀ led sid player cid salt s g g', s.games sid = some g →
        (reveal_play E led sid player cid salt s).1 = none →
        (reveal_play E led sid player cid salt s).2.games sid = some g' →
        g'.action_nonce = satAdd g.action_nonce 1) ∧
    (∀ led sid caller s g g', s.games sid = some g →
        (tick_timeout E led sid caller s).1 = none →
        (tick_timeout E led sid caller s).2.games sid = some g' →
        g'.action_nonce = satAdd g.action_nonce 1) ∧
    (∀ led sid caller s g g', s.games sid = some g →
        (forfeit E led sid caller s).1 = none →
        (forfeit E led sid caller s).2.games sid = some g' →
        g'.action_nonce = g.action_nonce) ∧
    (∀ led sid caller s g g', s.games sid = some g →
        (resolve_timeout E led sid caller s).1 = none →
        (resolve_timeout E led sid caller s).2.games sid = some g' →
        g'.action_nonce = g.action_nonce) :=
  ⟨fun led sid player ch s g g' hg hok hg' =>
      commit_seed_nonce E led sid player ch s g g' hg hok hg',
   fun led sid player sh proof s g g' hg hok hg' =>
      reveal_seed_nonce E led sid player sh proof s g g' hg hok hg',
   fun led sid player ch en s g g' hg hok hg' =>
      commit_play_nonce E led sid player ch en s g g' hg hok hg',
   fun led sid player ch en zp s g g' hg hok hg' =>
      commit_play_zk_nonce E led sid player ch en zp s g g' hg hok hg',
   fun led sid player ch en zp s g g' hg hok hg' =>
      commit_cangkul_zk_nonce E led sid player ch en zp s g g' hg hok hg',
   fun led sid player cid salt s g g' hg hok hg' =>
      reveal_play_nonce E led sid player cid salt s g g' hg hok hg',
   fun led sid caller s g g' hg hok hg' =>
      tick_timeout_nonce E led sid caller s g g' hg hok hg',
   fun led sid caller s g g' hg hok hg' =>
      forfeit_nonce E led sid caller s g g' hg hok hg',
   fun led sid caller s g g' hg hok hg' =>
      resolve_timeout_nonce E led sid caller s g g' hg hok hg'⟩

/-- C5 counterexample: a successful forfeit call mutates the stored
session (lifecycle Playing to Finished, outcome set) without changing
action_nonce, so not every state-mutating operation bumps the nonce. -/
theorem C5_counterexample :
    (forfeit hostEnv0 100 7 10 s_start).1 = none ∧
    s_start.games 7 = some g_start ∧
    (forfeit hostEnv0 100 7 10 s_start).2.games 7 = some g_forfeit ∧
    g_forfeit ≠ g_start ∧
    g_forfeit.action_nonce = g_start.action_nonce :=
  ⟨by rfl, by decide, by decide, by decide, by decide⟩

/-- C5 witness: the nonce theorem applied to a concrete successful
commit_seed call, whose stored nonce is the saturating increment. -/
theorem C5_witness :
    g_commit1.action_nonce = satAdd g_start.action_nonce 1 :=
  (C5_action_nonce hostEnv0).1 100 7 10 trace_h s_start g_start g_commit1
    (by decide) (by rfl) (by decide)

end Cangkulan

namespace Cangkulan

theorem tick_timeout_step (E : HostEnv) (led sid caller : ℕ) (s : Storage) :
    (tick_timeout E led sid caller s).2 = s ∨
    ∃ g, s.games sid = some g ∧
      satAdd g.last_tick_ledger MIN_TICK_GAP_LEDGERS ≤ led ∧
      (tick_timeout E led sid caller s).2 =
        write_game sid (bump_nonce { g with last_tick_ledger := led }) s := by
  unfold tick_timeout
  cases hg : s.games sid with
  | none => left; rfl
  | some g0 =>
    dsimp only
    by_cases h1 : g0.lifecycle_state = STATE_FINISHED
    · rw [if_pos h1]; left; rfl
    · rw [if_neg h1]
      cases hslot : resolve_slot g0 caller with
      | none => left; rfl
      | some slot =>
        dsimp only
        by_cases h2 : led < satAdd g0.last_tick_ledger MIN_TICK_GAP_LEDGERS
        · rw [if_pos h2]; left; rfl
        · rw [if_neg h2]
          right
          exact ⟨g0, rfl, Nat.le_of_not_lt h2, rfl⟩

theorem tick_arith_A (n0 dl led1 led2 a l : ℕ)
    (hnle : a ≤ 4294967295) (hnlim : n0 + 2 ≤ 4294967295)
    (hA : n0 + 2 ≤ a → dl ≤ led1 + 60)
    (hB : a < n0 + 2 → dl ≤ max led1 (min (l + 60) 4294967295) + 60 * (n0 + 2 - a))
    (h12 : led1 ≤ led2)
    (hgate : min (l + 60) 4294967295 ≤ led2)
    (hx : n0 + 2 ≤ min (a + 1) 4294967295) :
    dl ≤ led2 + 60 := by
  by_cases hc : n0 + 2 ≤ a
  · have := hA hc
    omega
  · have hb := hB (by omega)
    have hmax : max led1 (min (l + 60) 4294967295) ≤ led2 := max_le h12 hgate
    have hs : n0 + 2 - a = 1 := by omega
    rw [hs] at hb
    omega

theorem tick_arith_B (n0 dl led1 led2 a l : ℕ)
    (hnle : a ≤ 4294967295) (hdlU : dl ≤ 4294967295)
    (hnlim : n0 + 2 ≤ 4294967295)
    (hB : a < n0 + 2 → dl ≤ max led1 (min (l + 60) 4294967295) + 60 * (n0 + 2 - a))
    (h12 : led1 ≤ led2) (h2 : led2 ≤ 4294967295)
    (hgate : min (l + 60) 4294967295 ≤ led2)
    (hx : min (a + 1) 4294967295 < n0 + 2) :
    dl ≤ max led2 (min (led2 + 60) 4294967295) + 60 * (n0 + 2 - min (a + 1) 4294967295) := by
  have hmin1 : min (a + 1) 4294967295 = a + 1 := by omega
  rw [hmin1]
  have hb := hB (by omega)
  have hmax : max led1 (min (l + 60) 4294967295) ≤ led2 := max_le h12 hgate
  rcases Nat.le_total (led2 + 60) 4294967295 with hc | hc
  · rw [min_eq_left hc, max_eq_right (by omega : led2 ≤ led2 + 60)]
    have hj : n0 + 2 - a = (n0 + 2 - (a + 1)) + 1 := by omega
    rw [hj] at hb
    generalize n0 + 2 - (a + 1) = k at hb ⊢
    have hmb : max led1 (min (l + 60) 4294967295) + 60 * (k + 1) ≤ led2 + 60 * (k + 1) := by
      omega
    omega
  · rw [min_eq_right hc, max_eq_right h2]
    omega

theorem tick_inv_step (E : HostEnv) (sid caller n0 dl led0 : ℕ)
    (hdlU : dl ≤ U32LIM) (hnlim : n0 + TIMEOUT_ACTIONS ≤ U32LIM)
    (s : Storage) (led1 led2 : ℕ)
    (hI : tick_inv sid n0 dl led0 s led1) (h12 : led1 ≤ led2)
    (h2 : led2 ≤ U32LIM) :
    tick_inv sid n0 dl led0 (tick_timeout E led2 sid caller s).2 led2 := by
  obtain ⟨g, hg, hlast, hled0, hnle, hA, hB⟩ := hI
  have e1 : MIN_TICK_GAP_LEDGERS = 60 := rfl
  have e2 : TIMEOUT_ACTIONS = 2 := rfl
  have e3 : U32LIM = 4294967295 := rfl
  simp only [e1, e2, e3] at hdlU hnlim hnle hA hB h2
  simp only [satAdd, e3] at hA hB
  rcases tick_timeout_step E led2 sid caller s with h | ⟨g2, hg2, hgate, hres⟩
  · rw [h]
    refine ⟨g, hg, hlast.trans h12, hled0.trans h12, by omega, ?_, ?_⟩
    · intro hx
      simp only [e1, e2] at hx ⊢
      have := hA hx
      omega
    · intro hx
      simp only [e1, e2] at hx ⊢
      simp only [satAdd, e3]
      have hb := hB hx
      have hmax : max led1 (min (g.last_tick_ledger + 60) 4294967295) ≤
          max led2 (min (g.last_tick_ledger + 60) 4294967295) :=
        max_le_max h12 le_rfl
      omega
  · rw [hg] at hg2
    injection hg2 with e
    subst e
    rw [hres]
    have hgate2 : min (g.last_tick_ledger + 60) 4294967295 ≤ led2 := by
      simpa only [satAdd, e1, e3] using hgate
    refine ⟨bump_nonce { g with last_tick_ledger := led2 }, ?_, ?_, ?_, ?_, ?_, ?_⟩
    · simp [write_game]
    · simp [bump_nonce]
    · exact hled0.trans h12
    · simp only [bump_nonce]
      exact satAdd_le_lim _ _
    · intro hx
      simp only [bump_nonce, satAdd, e1, e2, e3] at hx ⊢
      exact tick_arith_A n0 dl led1 led2 g.action_nonce g.last_tick_ledger
        hnle hnlim hA hB h12 hgate2 hx
    · intro hx
      simp only [bump_nonce, satAdd, e1, e2, e3] at hx ⊢
      exact tick_arith_B n0 dl led1 led2 g.action_nonce g.last_tick_ledger
        hnle hdlU hnlim hB h12 h2 hgate2 hx

end Cangkulan

namespace Cangkulan

theorem tick_init_bound (g0 : CangkulanGame) (n0 dl led0 : ℕ)
    (hd : dl ≤ led0 + 120) :
    dl ≤ max led0 (satAdd g0.last_tick_ledger 60) + 60 * (n0 + 2 - n0) := by
  have hmax : led0 ≤ max led0 (satAdd g0.last_tick_ledger 60) :=
    le_max_left _ _
  omega

theorem tick_init_nonce_le (n0 : ℕ) (g0 : CangkulanGame)
    (hn : g0.action_nonce = n0)
    (hnlim : n0 + TIMEOUT_ACTIONS ≤ U32LIM) : g0.action_nonce ≤ U32LIM := by
  have e2 : TIMEOUT_ACTIONS = 2 := rfl
  have e3 : U32LIM = 4294967295 := rfl
  rw [hn]
  simp only [e2, e3] at hnlim ⊢
  omega

theorem tick_init_A (n0 dl led0 : ℕ) (g0 : CangkulanGame)
    (hn : g0.action_nonce = n0) :
    n0 + TIMEOUT_ACTIONS ≤ g0.action_nonce → dl ≤ led0 + MIN_TICK_GAP_LEDGERS := by
  have e2 : TIMEOUT_ACTIONS = 2 := rfl
  intro hx
  rw [hn] at hx
  simp only [e2] at hx
  omega

theorem tick_init_B (n0 dl led0 : ℕ) (g0 : CangkulanGame)
    (hn : g0.action_nonce = n0)
    (hdl : dl ≤ satAdd led0 TIMEOUT_LEDGERS) :
    g0.action_nonce < n0 + TIMEOUT_ACTIONS →
      dl ≤ max led0 (satAdd g0.last_tick_ledger MIN_TICK_GAP_LEDGERS)
            + MIN_TICK_GAP_LEDGERS * (n0 + TIMEOUT_ACTIONS - g0.action_nonce) := by
  have e1 : MIN_TICK_GAP_LEDGERS = 60 := rfl
  have e2 : TIMEOUT_ACTIONS = 2 := rfl
  have e3 : U32LIM = 4294967295 := rfl
  have hTL : TIMEOUT_LEDGERS = 120 := rfl
  intro hx
  have hd : dl ≤ led0 + 120 := by
    have hh := hdl
    simp only [satAdd, hTL, e3] at hh
    omega
  rw [hn]
  simp only [e1, e2]
  exact tick_init_bound g0 n0 dl led0 hd

theorem tick_inv_init (sid n0 dl led0 : ℕ) (s0 : Storage) (g0 : CangkulanGame)
    (hg0 : s0.games sid = some g0)
    (hn : g0.action_nonce = n0)
    (hdl : dl ≤ satAdd led0 TIMEOUT_LEDGERS)
    (hlast : g0.last_tick_ledger ≤ led0)
    (hnlim : n0 + TIMEOUT_ACTIONS ≤ U32LIM) :
    tick_inv sid n0 dl led0 s0 led0 :=
  ⟨g0, hg0, hlast, le_rfl, tick_init_nonce_le n0 g0 hn hnlim,
   tick_init_A n0 dl led0 g0 hn, tick_init_B n0 dl led0 g0 hn hdl⟩

theorem ticks_inv (E : HostEnv) (sid caller n0 dl led0 : ℕ)
    (s0 : Storage) (g0 : CangkulanGame)
    (hg0 : s0.games sid = some g0)
    (hn : g0.action_nonce = n0)
    (hdl : dl ≤ satAdd led0 TIMEOUT_LEDGERS)
    (hlast : g0.last_tick_ledger ≤ led0)
    (hnlim : n0 + TIMEOUT_ACTIONS ≤ U32LIM)
    (sF : Storage) (ledF : ℕ)
    (hrun : TicksFrom E sid caller s0 led0 sF ledF) :
    tick_inv sid n0 dl led0 sF ledF := by
  have hdlU : dl ≤ U32LIM := hdl.trans (satAdd_le_lim _ _)
  induction hrun with
  | refl => exact tick_inv_init sid n0 dl led0 s0 g0 hg0 hn hdl hlast hnlim
  | step s1 led1 led2 hprev hle hlim ih =>
    exact tick_inv_step E sid caller n0 dl led0 hdlU hnlim s1 led1 led2 ih hle hlim

/-- C7: Corrected timeout rate floor.  From any state whose timeout was
just armed (stored deadline_nonce is the current nonce n0 plus
TIMEOUT_ACTIONS, stored deadline_ledger dl is at most the arming ledger
led0 plus TIMEOUT_LEDGERS, and the last-tick marker is at most led0),
executions that only call tick_timeout can make the nonce deadline hold
only at ledgers of at least dl - MIN_TICK_GAP_LEDGERS.  The floor
claimed by the specification, dl itself, does not hold: the last-tick
marker is stale at arming time, so the first tick may fire immediately
and the nonce deadline can be met exactly MIN_TICK_GAP_LEDGERS ledgers
before the ledger deadline. -/
theorem C7_tick_rate_floor (E : HostEnv) (sid caller n0 dl led0 : ℕ)
    (s0 : Storage) (g0 : CangkulanGame)
    (hg0 : s0.games sid = some g0)
    (hdn : g0.deadline_nonce = some (n0 + TIMEOUT_ACTIONS))
    (hn : g0.action_nonce = n0)
    (hdlf : g0.deadline_ledger = some dl)
    (hdl : dl ≤ satAdd led0 TIMEOUT_LEDGERS)
    (hlast : g0.last_tick_ledger ≤ led0)
    (hnlim : n0 + TIMEOUT_ACTIONS ≤ U32LIM)
    (sF : Storage) (ledF : ℕ)
    (hrun : TicksFrom E sid caller s0 led0 sF ledF)
    (gF : CangkulanGame) (hgF : sF.games sid = some gF)
    (hreach : n0 + TIMEOUT_ACTIONS ≤ gF.action_nonce) :
    dl ≤ ledF + MIN_TICK_GAP_LEDGERS := by
  obtain ⟨g, hg, h1, h2, h3, hA, hB⟩ :=
    ticks_inv E sid caller n0 dl led0 s0 g0 hg0 hn hdl hlast hnlim sF ledF hrun
  rw [hgF] at hg
  injection hg with e
  exact hA (e ▸ hreach)

/-- C7 counterexample: a session armed at ledger 100 (nonce 1, nonce
deadline 3, ledger deadline 220) reaches the nonce deadline with two
ticks at ledgers 100 and 160, strictly before the ledger deadline 220,
because the stale last-tick marker 0 lets the first tick fire at once;
160 is exactly the corrected floor 220 - MIN_TICK_GAP_LEDGERS. -/
theorem C7_counterexample :
    TicksFrom hostEnv0 7 10 s_commit1 100 s_tick2 160 ∧
    s_commit1.games 7 = some g_commit1 ∧
    g_commit1.deadline_nonce = some (g_commit1.action_nonce + TIMEOUT_ACTIONS) ∧
    g_commit1.deadline_ledger = some 220 ∧
    s_tick2.games 7 = some g_tick2 ∧
    g_commit1.action_nonce + TIMEOUT_ACTIONS ≤ g_tick2.action_nonce ∧
    160 + MIN_TICK_GAP_LEDGERS ≤ 220 ∧ 160 < 220 := by
  refine ⟨?_, by decide, by decide, by decide, by decide, by decide, by decide,
    by decide⟩
  have t0 : TicksFrom hostEnv0 7 10 s_commit1 100 s_commit1 100 := .refl
  have t1 : TicksFrom hostEnv0 7 10 s_commit1 100 s_tick1 100 :=
    TicksFrom.step s_commit1 100 100 t0 le_rfl (by decide)
  exact TicksFrom.step s_tick1 100 160 t1 (by omega) (by decide)

/-- C7 witness: the rate-floor theorem applied to the concrete two-tick
run, yielding the bound 220 ≤ 160 + MIN_TICK_GAP_LEDGERS. -/
theorem C7_witness : (220 : ℕ) ≤ 160 + MIN_TICK_GAP_LEDGERS := by
  have t0 : TicksFrom hostEnv0 7 10 s_commit1 100 s_commit1 100 := .refl
  have t1 : TicksFrom hostEnv0 7 10 s_commit1 100 s_tick1 100 :=
    TicksFrom.step s_commit1 100 100 t0 le_rfl (by decide)
  have t2 : TicksFrom hostEnv0 7 10 s_commit1 100 s_tick2 160 :=
    TicksFrom.step s_tick1 100 160 t1 (by omega) (by decide)
  exact C7_tick_rate_floor hostEnv0 7 10 1 220 100 s_commit1 g_commit1
    (by decide) (by decide) (by decide) (by decide) (by decide) (by decide)
    (by decide) s_tick2 160 t2 g_tick2 (by decide) (by decide)

end Cangkulan

namespace Cangkulan

-- ═══════════════════════  Card conservation machinery  ═══════════════════════

theorem CardInv_games_eq (s s2 : Storage) (h : s2.games = s.games)
    (hinv : CardInv s) : CardInv s2 := by
  intro sid g hg
  exact hinv sid g (h ▸ hg)

theorem CardInv_write (s : Storage) (sid : ℕ) (g : CangkulanGame)
    (hinv : CardInv s) (hsub : (cardsOf g).Subperm (List.range 36)) :
    CardInv (write_game sid g s) := by
  intro sid2 g2 hg2
  simp only [write_game] at hg2
  by_cases h : sid2 = sid
  · rw [if_pos h] at hg2
    injection hg2 with e
    rw [← e]
    exact hsub
  · rw [if_neg h] at hg2
    exact hinv sid2 g2 hg2

theorem CardInv_write_eq (s : Storage) (sid : ℕ) (g2 g : CangkulanGame)
    (hinv : CardInv s) (hg : s.games sid = some g) (he : cardsOf g2 = cardsOf g) :
    CardInv (write_game sid g2 s) :=
  CardInv_write s sid g2 hinv (he ▸ hinv sid g hg)

theorem save_player_history_games (led sid player opponent outcome tw tl : ℕ)
    (s : Storage) :
    (save_player_history led sid player opponent outcome tw tl s).games = s.games := rfl

theorem finalize_game_games (E : HostEnv) (led sid : ℕ) (g : CangkulanGame)
    (o : ℕ) (s : Storage) : ((finalize_game E led sid g o s).2.2).games = s.games := by
  unfold finalize_game
  dsimp only
  repeat' split
  all_goals rfl

theorem cards_finalize (E : HostEnv) (led sid : ℕ) (g : CangkulanGame)
    (o : ℕ) (s : Storage) :
    cardsOf ((finalize_game E led sid g o s).2.1) = cardsOf g := by
  unfold finalize_game
  dsimp only
  repeat' split
  all_goals simp [cardsOf]

theorem call_seed_verifier_games (E : HostEnv) (sid slot player : ℕ)
    (sh ch proof : List ℕ) (s : Storage) :
    ((call_seed_verifier E sid slot player sh ch proof s).2).games = s.games := by
  unfold call_seed_verifier
  dsimp only
  repeat' split
  all_goals rfl

theorem cards_give_penalty (g : CangkulanGame) (slot : ℕ) :
    (cardsOf (give_penalty_card g slot)).Perm (cardsOf g) := by
  rcases hp : g.draw_pile with _ | ⟨c, rest⟩
  · unfold give_penalty_card
    rw [hp]
  · rw [List.perm_iff_count]
    intro a
    unfold give_penalty_card
    rw [hp]
    dsimp only
    by_cases hs : slot = PLAYER_1
    · rw [if_pos hs]
      simp only [cardsOf, hp, List.count_append, List.count_cons]
      by_cases hac : a = c <;> simp [hac] <;> omega
    · rw [if_neg hs]
      simp only [cardsOf, hp, List.count_append, List.count_cons]
      by_cases hac : a = c <;> simp [hac] <;> omega

theorem cards_flip_subperm (g : CangkulanGame) :
    (cardsOf (flip_next_card g)).Subperm (cardsOf g) := by
  rcases hp : g.draw_pile with _ | ⟨c, rest⟩
  · unfold flip_next_card
    rw [hp]
  · rw [List.subperm_ext_iff]
    intro x hx
    unfold flip_next_card
    rw [hp]
    dsimp only
    simp only [cardsOf, hp, List.count_append, List.count_cons]
    by_cases hxc : x = c <;> simp [hxc] <;> omega




theorem cards_clear_count (x : ℕ) : ∀ g1 : CangkulanGame,
    (cardsOf { g1 with flipped_card := none, trick_suit := none, trick_card1 := none, trick_card2 := none, play_commit1 := none, play_commit2 := none, zk_play1 := false, zk_play2 := false }).count x ≤ (cardsOf g1).count x := by
  intro g1
  simp only [cardsOf, List.count_append]
  simp
  omega

theorem cards_flip_deadline_count (g2 : CangkulanGame) (a b : Option ℕ) (x : ℕ) :
    (cardsOf { flip_next_card g2 with deadline_nonce := a, deadline_ledger := b }).count x
      ≤ (cardsOf g2).count x := by
  have h1 : cardsOf { flip_next_card g2 with deadline_nonce := a, deadline_ledger := b }
      = cardsOf (flip_next_card g2) := by
    simp [cardsOf]
  rw [h1]
  exact (cards_flip_subperm g2).count_le x

theorem resolve_trick_count (E : HostEnv) (led sid : ℕ) (g : CangkulanGame)
    (s : Storage) (x : ℕ) :
    (cardsOf ((resolve_trick E led sid g s).2.1)).count x ≤ (cardsOf g).count x := by
  have hclear := cards_clear_count x
  unfold resolve_trick
  cases htc1 : g.trick_card1 with
  | none =>
    cases htc2 : g.trick_card2 with
    | none =>
      dsimp only
      have hperm1 : (cardsOf g).count x = (cardsOf g).count x := rfl
      split
      · rw [cards_finalize]
        exact le_trans (hclear g) (le_of_eq hperm1)
      · split
        · rw [cards_finalize]
          exact le_trans (hclear g) (le_of_eq hperm1)
        · exact le_trans (cards_flip_deadline_count _ _ _ x) (le_trans (hclear g) (le_of_eq hperm1))
    | some c2 =>
      dsimp only
      have hperm1 : (cardsOf (give_penalty_card { g with trick_card1 := none, trick_card2 := some c2, tricks_won2 := g.tricks_won2 + 1 } PLAYER_1)).count x = (cardsOf g).count x := ((cards_give_penalty { g with trick_card1 := none, trick_card2 := some c2, tricks_won2 := g.tricks_won2 + 1 } PLAYER_1).count_eq x).trans (by simp [cardsOf, htc1, htc2])
      split
      · rw [cards_finalize]
        exact le_trans (hclear (give_penalty_card { g with trick_card1 := none, trick_card2 := some c2, tricks_won2 := g.tricks_won2 + 1 } PLAYER_1)) (le_of_eq hperm1)
      · split
        · rw [cards_finalize]
          exact le_trans (hclear (give_penalty_card { g with trick_card1 := none, trick_card2 := some c2, tricks_won2 := g.tricks_won2 + 1 } PLAYER_1)) (le_of_eq hperm1)
        · exact le_trans (cards_flip_deadline_count _ _ _ x) (le_trans (hclear (give_penalty_card { g with trick_card1 := none, trick_card2 := some c2, tricks_won2 := g.tricks_won2 + 1 } PLAYER_1)) (le_of_eq hperm1))
  | some c1 =>
    cases htc2 : g.trick_card2 with
    | none =>
      dsimp only
      have hperm1 : (cardsOf (give_penalty_card { g with trick_card1 := some c1, trick_card2 := none, tricks_won1 := g.tricks_won1 + 1 } PLAYER_2)).count x = (cardsOf g).count x := ((cards_give_penalty { g with trick_card1 := some c1, trick_card2 := none, tricks_won1 := g.tricks_won1 + 1 } PLAYER_2).count_eq x).trans (by simp [cardsOf, htc1, htc2])
      split
      · rw [cards_finalize]
        exact le_trans (hclear (give_penalty_card { g with trick_card1 := some c1, trick_card2 := none, tricks_won1 := g.tricks_won1 + 1 } PLAYER_2)) (le_of_eq hperm1)
      · split
        · rw [cards_finalize]
          exact le_trans (hclear (give_penalty_card { g with trick_card1 := some c1, trick_card2 := none, tricks_won1 := g.tricks_won1 + 1 } PLAYER_2)) (le_of_eq hperm1)
        · exact le_trans (cards_flip_deadline_count _ _ _ x) (le_trans (hclear (give_penalty_card { g with trick_card1 := some c1, trick_card2 := none, tricks_won1 := g.tricks_won1 + 1 } PLAYER_2)) (le_of_eq hperm1))
    | some c2 =>
      dsimp only
      by_cases hv : c2 % CARDS_PER_SUIT ≤ c1 % CARDS_PER_SUIT
      · rw [if_pos hv]
        have hperm1 : (cardsOf { g with trick_card1 := some c1, trick_card2 := some c2, tricks_won1 := g.tricks_won1 + 1 }).count x = (cardsOf g).count x := (by simp [cardsOf, htc1, htc2])
        split
        · rw [cards_finalize]
          exact le_trans (hclear { g with trick_card1 := some c1, trick_card2 := some c2, tricks_won1 := g.tricks_won1 + 1 }) (le_of_eq hperm1)
        · split
          · rw [cards_finalize]
            exact le_trans (hclear { g with trick_card1 := some c1, trick_card2 := some c2, tricks_won1 := g.tricks_won1 + 1 }) (le_of_eq hperm1)
          · exact le_trans (cards_flip_deadline_count _ _ _ x) (le_trans (hclear { g with trick_card1 := some c1, trick_card2 := some c2, tricks_won1 := g.tricks_won1 + 1 }) (le_of_eq hperm1))
      · rw [if_neg hv]
        have hperm1 : (cardsOf { g with trick_card1 := some c1, trick_card2 := some c2, tricks_won2 := g.tricks_won2 + 1 }).count x = (cardsOf g).count x := (by simp [cardsOf, htc1, htc2])
        split
        · rw [cards_finalize]
          exact le_trans (hclear { g with trick_card1 := some c1, trick_card2 := some c2, tricks_won2 := g.tricks_won2 + 1 }) (le_of_eq hperm1)
        · split
          · rw [cards_finalize]
            exact le_trans (hclear { g with trick_card1 := some c1, trick_card2 := some c2, tricks_won2 := g.tricks_won2 + 1 }) (le_of_eq hperm1)
          · exact le_trans (cards_flip_deadline_count _ _ _ x) (le_trans (hclear { g with trick_card1 := some c1, trick_card2 := some c2, tricks_won2 := g.tricks_won2 + 1 }) (le_of_eq hperm1))

theorem resolve_trick_cards (E : HostEnv) (led sid : ℕ) (g : CangkulanGame)
    (s : Storage) :
    (cardsOf ((resolve_trick E led sid g s).2.1)).Subperm (cardsOf g) :=
  List.subperm_ext_iff.mpr fun x _ => resolve_trick_count E led sid g s x

theorem resolve_trick_games (E : HostEnv) (led sid : ℕ) (g : CangkulanGame)
    (s : Storage) : ((resolve_trick E led sid g s).2.2).games = s.games := by
  unfold resolve_trick
  dsimp only
  repeat' split
  all_goals first
    | rfl
    | exact finalize_game_games E led sid _ _ s

theorem find_card_count (hand : List ℕ) (cid : ℕ) : ∀ pos : ℕ,
    find_card_position hand cid = some pos → ∀ a : ℕ,
    (hand.eraseIdx pos).count a + (if cid = a then 1 else 0) = hand.count a := by
  induction hand with
  | nil => intro pos h a; exact Option.noConfusion h
  | cons c rest ih =>
    intro pos h a
    unfold find_card_position at h
    by_cases hc : c = cid
    · rw [if_pos hc] at h
      injection h with e
      subst e
      subst hc
      simp [List.count_cons]
    · rw [if_neg hc] at h
      cases hrest : find_card_position rest cid with
      | none => rw [hrest] at h; exact Option.noConfusion h
      | some p =>
        rw [hrest] at h
        simp only [Option.map_some'] at h
        injection h with e
        subst e
        have hih := ih p hrest a
        simp only [List.eraseIdx_cons_succ, List.count_cons]
        omega

theorem cards_move_count_tc1 (g0 : CangkulanGame) (slot cid pos : ℕ)
    (hsl : slot = PLAYER_1)
    (hpos : find_card_position (get_hand g0 slot) cid = some pos) (x : ℕ) :
    (cardsOf { set_hand g0 slot ((get_hand g0 slot).eraseIdx pos) with trick_card1 := some cid }).count x
      ≤ (cardsOf g0).count x := by
  have hfc := find_card_count (get_hand g0 slot) cid pos hpos x
  simp only [get_hand, set_hand, if_pos hsl] at hfc ⊢
  simp only [cardsOf, List.count_append]
  simp [List.count_cons]
  omega

theorem cards_move_count_tc2 (g0 : CangkulanGame) (slot cid pos : ℕ)
    (hsl : ¬(slot = PLAYER_1))
    (hpos : find_card_position (get_hand g0 slot) cid = some pos) (x : ℕ) :
    (cardsOf { set_hand g0 slot ((get_hand g0 slot).eraseIdx pos) with trick_card2 := some cid }).count x
      ≤ (cardsOf g0).count x := by
  have hfc := find_card_count (get_hand g0 slot) cid pos hpos x
  simp only [get_hand, set_hand, if_neg hsl] at hfc ⊢
  simp only [cardsOf, List.count_append]
  simp [List.count_cons]
  omega

theorem reveal_play_finish_cardinv (E : HostEnv) (led sid : ℕ) (gx : CangkulanGame)
    (slot : ℕ) (s : Storage) (hinv : CardInv s)
    (hsub : (cardsOf gx).Subperm (List.range 36)) :
    CardInv (reveal_play_finish E led sid gx slot s).2 := by
  have hcb : cardsOf (bump_nonce (advance_reveal_state gx slot)) = cardsOf gx := by
    simp [cardsOf, bump_nonce, advance_reveal_state]
  unfold reveal_play_finish
  dsimp only
  split
  · split
    · rename_i heq
      have hs1 := congrArg (fun p => ((p.2.2).games)) heq
      simp only at hs1
      rw [resolve_trick_games] at hs1
      exact CardInv_games_eq s _ hs1.symm hinv
    · rename_i heq
      have hs1 := congrArg (fun p => ((p.2.2).games)) heq
      simp only at hs1
      rw [resolve_trick_games] at hs1
      have hg3 := congrArg (fun p => (p.2.1)) heq
      simp only at hg3
      have hcards := resolve_trick_cards E led sid (bump_nonce (advance_reveal_state gx slot)) s
      rw [hg3, hcb] at hcards
      exact CardInv_write _ sid _ (CardInv_games_eq s _ hs1.symm hinv) (hcards.trans hsub)
  · refine CardInv_write s sid _ hinv ?_
    have he : cardsOf { bump_nonce (advance_reveal_state gx slot) with
        deadline_nonce := some (satAdd (bump_nonce (advance_reveal_state gx slot)).action_nonce TIMEOUT_ACTIONS),
        deadline_ledger := some (satAdd led TIMEOUT_LEDGERS) } = cardsOf gx := by
      simp [cardsOf, bump_nonce, advance_reveal_state]
    rw [he]
    exact hsub

theorem reveal_play_cardinv (E : HostEnv) (led sid player cid : ℕ) (salt : List ℕ)
    (s : Storage) (hinv : CardInv s) :
    CardInv (reveal_play E led sid player cid salt s).2 := by
  unfold reveal_play
  cases hg : s.games sid with
  | none => exact hinv
  | some g0 =>
    dsimp only
    repeat' split
    all_goals first
      | exact hinv
      | exact reveal_play_finish_cardinv E led sid _ _ s hinv (hinv sid g0 hg)
      | (refine reveal_play_finish_cardinv E led sid _ _ s hinv
          (List.Subperm.trans (List.subperm_ext_iff.mpr
            fun x _ => cards_move_count_tc1 _ _ _ _ (by assumption) (by assumption) x)
            (hinv sid g0 hg)))
      | (refine reveal_play_finish_cardinv E led sid _ _ s hinv
          (List.Subperm.trans (List.subperm_ext_iff.mpr
            fun x _ => cards_move_count_tc2 _ _ _ _ (by assumption) (by assumption) x)
            (hinv sid g0 hg)))

theorem cards_dealt_perm (E : HostEnv) (g2 : CangkulanGame) (sid : ℕ)
    (a b : Option ℕ) :
    (cardsOf { flip_next_card { shuffle_and_deal E g2 sid with lifecycle_state := STATE_PLAYING } with deadline_nonce := a, deadline_ledger := b }).Perm (List.range 36) := by
  have hperm := shuffled_deck_perm E (g2.seed_hash1.getD []) (g2.seed_hash2.getD []) sid
  have hlen := shuffled_deck_length E (g2.seed_hash1.getD []) (g2.seed_hash2.getD []) sid
  have hsd : { shuffle_and_deal E g2 sid with lifecycle_state := STATE_PLAYING } =
      { g2 with hand1 := (shuffled_deck E (g2.seed_hash1.getD []) (g2.seed_hash2.getD []) sid).take 5
              , hand2 := ((shuffled_deck E (g2.seed_hash1.getD []) (g2.seed_hash2.getD []) sid).drop 5).take 5
              , draw_pile := (shuffled_deck E (g2.seed_hash1.getD []) (g2.seed_hash2.getD []) sid).drop 10
              , lifecycle_state := STATE_PLAYING } := by
    simp only [shuffle_and_deal]
  set deck := shuffled_deck E (g2.seed_hash1.getD []) (g2.seed_hash2.getD []) sid with hdeck
  clear_value deck
  have h10 : 10 < deck.length := by omega
  have hdrop : deck.drop 10 = deck[10] :: deck.drop 11 :=
    List.drop_eq_getElem_cons h10
  rw [hsd]
  rw [flip_next_card_cons
    { g2 with hand1 := deck.take 5, hand2 := (deck.drop 5).take 5,
              draw_pile := deck.drop 10, lifecycle_state := STATE_PLAYING }
    deck[10] (deck.drop 11) hdrop]
  refine List.Perm.trans ?_ hperm
  have htake : deck.take 5 ++ (deck.drop 5).take 5 = deck.take 10 :=
    (List.take_add deck 5 5).symm
  have hsplit : deck = deck.take 5 ++ (deck.drop 5).take 5 ++ (deck[10] :: deck.drop 11) := by
    calc deck = deck.take 10 ++ deck.drop 10 := (List.take_append_drop 10 deck).symm
      _ = deck.take 10 ++ (deck[10] :: deck.drop 11) := by rw [hdrop]
      _ = deck.take 5 ++ (deck.drop 5).take 5 ++ (deck[10] :: deck.drop 11) := by
          rw [htake]
  rw [List.perm_iff_count]
  intro x
  conv_rhs => rw [hsplit]
  simp only [cardsOf, List.count_append, List.count_cons]
  simp [List.count_cons]
  omega

theorem cards_dealt_subperm (E : HostEnv) (g2 : CangkulanGame) (sid : ℕ)
    (a b : Option ℕ) :
    (cardsOf { flip_next_card { shuffle_and_deal E g2 sid with lifecycle_state := STATE_PLAYING } with deadline_nonce := a, deadline_ledger := b }).Subperm
      (List.range 36) :=
  (cards_dealt_perm E g2 sid a b).subperm

theorem start_game_cardinv (E : HostEnv) (led sid p1 p2 : ℕ) (pts1 pts2 : ℤ)
    (s : Storage) (hinv : CardInv s) :
    CardInv (start_game E led sid p1 p2 pts1 pts2 s).2 := by
  unfold start_game
  dsimp only
  repeat' split
  all_goals first
    | exact hinv
    | (refine CardInv_write s sid _ hinv ?_
       simp [cardsOf])

theorem commit_seed_cardinv (E : HostEnv) (led sid player : ℕ) (ch : List ℕ)
    (s : Storage) (hinv : CardInv s) :
    CardInv (commit_seed E led sid player ch s).2 := by
  unfold commit_seed
  cases hg : s.games sid with
  | none => exact hinv
  | some g0 =>
    dsimp only
    repeat' split
    all_goals first
      | exact hinv
      | (refine CardInv_write s sid _ hinv
          (List.Subperm.trans (List.subperm_ext_iff.mpr
            fun x _ => le_of_eq (by simp [cardsOf, bump_nonce, List.count_append]))
            (hinv sid g0 hg)))

theorem reveal_seed_cardinv (E : HostEnv) (led sid player : ℕ) (sh proof : List ℕ)
    (s : Storage) (hinv : CardInv s) :
    CardInv (reveal_seed E led sid player sh proof s).2 := by
  unfold reveal_seed reveal_seed_core
  cases hg : s.games sid with
  | none => exact hinv
  | some g0 =>
    dsimp only
    repeat' split
    all_goals first
      | exact hinv
      | (rename_i heq
         have hs1 := congrArg (fun p => ((p.2).games)) heq
         simp only at hs1
         rw [call_seed_verifier_games] at hs1
         exact CardInv_games_eq s _ hs1.symm hinv)
      | (rename_i heq hbool
         have hs1 := congrArg (fun p => ((p.2).games)) heq
         simp only at hs1
         rw [call_seed_verifier_games] at hs1
         refine CardInv_write _ sid _ (CardInv_games_eq s _ hs1.symm hinv) ?_
         first
         | (refine List.Subperm.trans (List.subperm_ext_iff.mpr ?_) (hinv sid g0 hg)
            intro x hx
            refine le_of_eq ?_
            simp [cardsOf, bump_nonce, List.count_append]
            done)
         | exact cards_dealt_subperm E _ sid _ _)

theorem verify_noir_seed_games (E : HostEnv) (led sid player : ℕ)
    (sh proof : List ℕ) (s : Storage) :
    ((verify_noir_seed E led sid player sh proof s).2).games = s.games := by
  unfold verify_noir_seed
  repeat' split
  all_goals rfl

theorem commit_play_cardinv (E : HostEnv) (led sid player : ℕ) (ch : List ℕ)
    (en : ℕ) (s : Storage) (hinv : CardInv s) :
    CardInv (commit_play E led sid player ch en s).2 := by
  unfold commit_play commit_play_finish
  cases hg : s.games sid with
  | none => exact hinv
  | some g0 =>
    dsimp only
    repeat' split
    all_goals first
      | exact hinv
      | (refine CardInv_write s sid _ hinv
          (List.Subperm.trans (List.subperm_ext_iff.mpr
            fun x _ => le_of_eq (by simp [cardsOf, bump_nonce, advance_commit_state, List.count_append]))
            (hinv sid g0 hg)))

theorem commit_play_zk_cardinv (E : HostEnv) (led sid player : ℕ) (ch : List ℕ)
    (en : ℕ) (zp : List ℕ) (s : Storage) (hinv : CardInv s) :
    CardInv (commit_play_zk E led sid player ch en zp s).2 := by
  unfold commit_play_zk commit_play_finish
  cases hg : s.games sid with
  | none => exact hinv
  | some g0 =>
    dsimp only
    repeat' split
    all_goals first
      | exact hinv
      | (refine CardInv_write s sid _ hinv
          (List.Subperm.trans (List.subperm_ext_iff.mpr
            fun x _ => le_of_eq (by simp [cardsOf, bump_nonce, advance_commit_state, List.count_append]))
            (hinv sid g0 hg)))

theorem commit_cangkul_zk_cardinv (E : HostEnv) (led sid player : ℕ) (ch : List ℕ)
    (en : ℕ) (zp : List ℕ) (s : Storage) (hinv : CardInv s) :
    CardInv (commit_cangkul_zk E led sid player ch en zp s).2 := by
  unfold commit_cangkul_zk commit_play_finish
  cases hg : s.games sid with
  | none => exact hinv
  | some g0 =>
    dsimp only
    repeat' split
    all_goals first
      | exact hinv
      | (refine CardInv_write s sid _ hinv
          (List.Subperm.trans (List.subperm_ext_iff.mpr
            fun x _ => le_of_eq (by simp [cardsOf, bump_nonce, advance_commit_state, List.count_append]))
            (hinv sid g0 hg)))

theorem tick_timeout_cardinv (E : HostEnv) (led sid caller : ℕ) (s : Storage)
    (hinv : CardInv s) : CardInv (tick_timeout E led sid caller s).2 := by
  unfold tick_timeout
  cases hg : s.games sid with
  | none => exact hinv
  | some g0 =>
    dsimp only
    repeat' split
    all_goals first
      | exact hinv
      | (refine CardInv_write s sid _ hinv
          (List.Subperm.trans (List.subperm_ext_iff.mpr
            fun x _ => le_of_eq (by simp [cardsOf, bump_nonce, List.count_append]))
            (hinv sid g0 hg)))

theorem forfeit_cardinv (E : HostEnv) (led sid caller : ℕ) (s : Storage)
    (hinv : CardInv s) : CardInv (forfeit E led sid caller s).2 := by
  unfold forfeit
  cases hg : s.games sid with
  | none => exact hinv
  | some g0 =>
    dsimp only
    repeat' split
    all_goals first
      | exact hinv
      | (rename_i heq
         have hs1 := congrArg (fun p => ((p.2.2).games)) heq
         simp only at hs1
         rw [finalize_game_games] at hs1
         first
         | exact CardInv_games_eq s _ hs1.symm hinv
         | (have hc := congrArg (fun p => cardsOf (p.2.1)) heq
            simp only at hc
            rw [cards_finalize] at hc
            exact CardInv_write _ sid _ (CardInv_games_eq s _ hs1.symm hinv)
              (hc ▸ hinv sid g0 hg)))

theorem resolve_timeout_cardinv (E : HostEnv) (led sid caller : ℕ) (s : Storage)
    (hinv : CardInv s) : CardInv (resolve_timeout E led sid caller s).2 := by
  unfold resolve_timeout
  cases hg : s.games sid with
  | none => exact hinv
  | some g0 =>
    dsimp only
    repeat' split
    all_goals first
      | exact hinv
      | (rename_i heq
         have hs1 := congrArg (fun p => ((p.2.2).games)) heq
         simp only at hs1
         rw [finalize_game_games] at hs1
         first
         | exact CardInv_games_eq s _ hs1.symm hinv
         | (have hc := congrArg (fun p => cardsOf (p.2.1)) heq
            simp only at hc
            rw [cards_finalize] at hc
            exact CardInv_write _ sid _ (CardInv_games_eq s _ hs1.symm hinv)
              (hc ▸ hinv sid g0 hg)))

theorem CardInv_exec (E : HostEnv) (led : ℕ) (c : HostCall) (s : Storage)
    (hinv : CardInv s) : CardInv (exec E led c s).2 := by
  cases c with
  | start_game sid p1 p2 pts1 pts2 => exact start_game_cardinv E led sid p1 p2 pts1 pts2 s hinv
  | commit_seed sid player ch => exact commit_seed_cardinv E led sid player ch s hinv
  | reveal_seed sid player sh proof => exact reveal_seed_cardinv E led sid player sh proof s hinv
  | verify_noir_seed sid player sh proof =>
      exact CardInv_games_eq s _ (verify_noir_seed_games E led sid player sh proof s) hinv
  | commit_play sid player ch en => exact commit_play_cardinv E led sid player ch en s hinv
  | commit_play_zk sid player ch en zp => exact commit_play_zk_cardinv E led sid player ch en zp s hinv
  | commit_cangkul_zk sid player ch en zp => exact commit_cangkul_zk_cardinv E led sid player ch en zp s hinv
  | reveal_play sid player cid salt => exact reveal_play_cardinv E led sid player cid salt s hinv
  | tick_timeout sid caller => exact tick_timeout_cardinv E led sid caller s hinv
  | resolve_timeout sid caller => exact resolve_timeout_cardinv E led sid caller s hinv
  | forfeit sid caller => exact forfeit_cardinv E led sid caller s hinv
  | set_admin a =>
      unfold exec set_admin
      dsimp only
      repeat' split
      all_goals exact hinv
  | set_hub h =>
      unfold exec set_hub
      dsimp only
      repeat' split
      all_goals exact hinv
  | set_verifier v =>
      unfold exec set_verifier
      dsimp only
      repeat' split
      all_goals exact hinv
  | set_ultrahonk_verifier u =>
      unfold exec set_ultrahonk_verifier
      dsimp only
      repeat' split
      all_goals exact hinv
  | upgrade =>
      unfold exec upgrade
      dsimp only
      repeat' split
      all_goals exact hinv

theorem CardInv_reach (E : HostEnv) (s : Storage) (led : ℕ)
    (h : ReachAt E s led) : CardInv s := by
  induction h with
  | init a hb v led2 =>
      intro sid g hg
      exact Option.noConfusion hg
  | step s1 led1 led2 c hprev hle ih => exact CardInv_exec E led2 c s1 ih

/-- The mid-trick trace storage is reachable. -/
theorem reach_s_mid : ReachAt hostEnv0 s_mid 100 := by
  have r0 : ReachAt hostEnv0 s_init 100 := .init 0 1 2 100
  have r1 : ReachAt hostEnv0 s_start 100 :=
    ReachAt.step s_init 100 100 (.start_game 7 10 11 0 0) r0 le_rfl
  have r2 : ReachAt hostEnv0 s_commit1 100 :=
    ReachAt.step s_start 100 100 (.commit_seed 7 10 trace_h) r1 le_rfl
  have r3 : ReachAt hostEnv0 s_commit2 100 :=
    ReachAt.step s_commit1 100 100 (.commit_seed 7 11 trace_h) r2 le_rfl
  have r4 : ReachAt hostEnv0 s_reveal1 100 :=
    ReachAt.step s_commit2 100 100 (.reveal_seed 7 10 seedA proof64) r3 le_rfl
  have r5 : ReachAt hostEnv0 s_dealt 100 :=
    ReachAt.step s_reveal1 100 100 (.reveal_seed 7 11 seedA proof64) r4 le_rfl
  have r6 : ReachAt hostEnv0 s_play1 100 :=
    ReachAt.step s_dealt 100 100 (.commit_play 7 10 zeros32 4) r5 le_rfl
  have r7 : ReachAt hostEnv0 s_play2 100 :=
    ReachAt.step s_play1 100 100 (.commit_play 7 11 zeros32 5) r6 le_rfl
  exact ReachAt.step s_play2 100 100 (.reveal_play 7 11 9 zeros32) r7 le_rfl

theorem start_game_cards (E : HostEnv) (led sid p1 p2 : ℕ) (pts1 pts2 : ℤ)
    (s : Storage) (g' : CangkulanGame)
    (hok : (start_game E led sid p1 p2 pts1 pts2 s).1 = none)
    (hg' : (start_game E led sid p1 p2 pts1 pts2 s).2.games sid = some g') :
    cardsOf g' = [] := by
  revert hok hg'
  unfold start_game
  dsimp only
  repeat' split
  all_goals intro hok hg'
  all_goals
    first
    | exact Option.noConfusion hok
    | (simp only [write_game, if_pos rfl] at hg'
       injection hg' with e
       rw [← e]
       simp [cardsOf])

theorem commit_seed_cards (E : HostEnv) (led sid player : ℕ) (ch : List ℕ)
    (s : Storage) (g g' : CangkulanGame) (hg : s.games sid = some g)
    (hok : (commit_seed E led sid player ch s).1 = none)
    (hg' : (commit_seed E led sid player ch s).2.games sid = some g') :
    cardsOf g' = cardsOf g := by
  revert hok hg'
  unfold commit_seed
  rw [hg]
  dsimp only
  repeat' split
  all_goals intro hok hg'
  all_goals
    first
    | exact Option.noConfusion hok
    | (simp only [write_game, if_pos rfl] at hg'
       injection hg' with e
       rw [← e]
       simp [cardsOf, bump_nonce])

theorem reveal_seed_cards (E : HostEnv) (led sid player : ℕ) (sh proof : List ℕ)
    (s : Storage) (g g' : CangkulanGame) (hg : s.games sid = some g)
    (hok : (reveal_seed E led sid player sh proof s).1 = none)
    (hg' : (reveal_seed E led sid player sh proof s).2.games sid = some g') :
    cardsOf g' = cardsOf g ∨ (cardsOf g').Perm (List.range DECK_SIZE) := by
  revert hok hg'
  unfold reveal_seed reveal_seed_core
  rw [hg]
  dsimp only
  repeat' split
  all_goals intro hok hg'
  all_goals
    first
    | exact Option.noConfusion hok
    | (simp only [write_game, if_pos rfl] at hg'
       injection hg' with e
       rw [← e]
       first
       | (left
          simp [cardsOf, bump_nonce]
          done)
       | (right
          exact cards_dealt_perm E _ sid _ _))

theorem commit_play_cards (E : HostEnv) (led sid player : ℕ) (ch : List ℕ) (en : ℕ)
    (s : Storage) (g g' : CangkulanGame) (hg : s.games sid = some g)
    (hok : (commit_play E led sid player ch en s).1 = none)
    (hg' : (commit_play E led sid player ch en s).2.games sid = some g') :
    cardsOf g' = cardsOf g := by
  revert hok hg'
  unfold commit_play commit_play_finish
  rw [hg]
  dsimp only
  repeat' split
  all_goals intro hok hg'
  all_goals
    first
    | exact Option.noConfusion hok
    | (simp only [write_game, if_pos rfl] at hg'
       injection hg' with e
       rw [← e]
       simp [cardsOf, bump_nonce, advance_commit_state])

theorem commit_play_zk_cards (E : HostEnv) (led sid player : ℕ) (ch : List ℕ)
    (en : ℕ) (zp : List ℕ) (s : Storage) (g g' : CangkulanGame)
    (hg : s.games sid = some g)
    (hok : (commit_play_zk E led sid player ch en zp s).1 = none)
    (hg' : (commit_play_zk E led sid player ch en zp s).2.games sid = some g') :
    cardsOf g' = cardsOf g := by
  revert hok hg'
  unfold commit_play_zk commit_play_finish
  rw [hg]
  dsimp only
  repeat' split
  all_goals intro hok hg'
  all_goals
    first
    | exact Option.noConfusion hok
    | (simp only [write_game, if_pos rfl] at hg'
       injection hg' with e
       rw [← e]
       simp [cardsOf, bump_nonce, advance_commit_state])

theorem commit_cangkul_zk_cards (E : HostEnv) (led sid player : ℕ) (ch : List ℕ)
    (en : ℕ) (zp : List ℕ) (s : Storage) (g g' : CangkulanGame)
    (hg : s.games sid = some g)
    (hok : (commit_cangkul_zk E led sid player ch en zp s).1 = none)
    (hg' : (commit_cangkul_zk E led sid player ch en zp s).2.games sid = some g') :
    cardsOf g' = cardsOf g := by
  revert hok hg'
  unfold commit_cangkul_zk commit_play_finish
  rw [hg]
  dsimp only
  repeat' split
  all_goals intro hok hg'
  all_goals
    first
    | exact Option.noConfusion hok
    | (simp only [write_game, if_pos rfl] at hg'
       injection hg' with e
       rw [← e]
       simp [cardsOf, bump_nonce, advance_commit_state])

theorem tick_timeout_cards (E : HostEnv) (led sid caller : ℕ) (s : Storage)
    (g g' : CangkulanGame) (hg : s.games sid = some g)
    (hok : (tick_timeout E led sid caller s).1 = none)
    (hg' : (tick_timeout E led sid caller s).2.games sid = some g') :
    cardsOf g' = cardsOf g := by
  revert hok hg'
  unfold tick_timeout
  rw [hg]
  dsimp only
  repeat' split
  all_goals intro hok hg'
  all_goals
    first
    | exact Option.noConfusion hok
    | (simp only [write_game, if_pos rfl] at hg'
       injection hg' with e
       rw [← e]
       simp [cardsOf, bump_nonce])

theorem forfeit_cards (E : HostEnv) (led sid caller : ℕ) (s : Storage)
    (g g' : CangkulanGame) (hg : s.games sid = some g)
    (hok : (forfeit E led sid caller s).1 = none)
    (hg' : (forfeit E led sid caller s).2.games sid = some g') :
    cardsOf g' = cardsOf g := by
  revert hok hg'
  unfold forfeit
  rw [hg]
  dsimp only
  repeat' split
  all_goals intro hok hg'
  all_goals
    first
    | exact Option.noConfusion hok
    | (rename_i heq
       simp only [write_game, if_pos rfl] at hg'
       injection hg' with e
       rw [← e]
       have hfn := congrArg (fun p => cardsOf (p.2.1)) heq
       simp only [cards_finalize] at hfn
       exact hfn.symm)

theorem resolve_timeout_cards (E : HostEnv) (led sid caller : ℕ) (s : Storage)
    (g g' : CangkulanGame) (hg : s.games sid = some g)
    (hok : (resolve_timeout E led sid caller s).1 = none)
    (hg' : (resolve_timeout E led sid caller s).2.games sid = some g') :
    cardsOf g' = cardsOf g := by
  revert hok hg'
  unfold resolve_timeout
  rw [hg]
  dsimp only
  repeat' split
  all_goals intro hok hg'
  all_goals
    first
    | exact Option.noConfusion hok
    | (rename_i heq
       simp only [write_game, if_pos rfl] at hg'
       injection hg' with e
       rw [← e]
       have hfn := congrArg (fun p => cardsOf (p.2.1)) heq
       simp only [cards_finalize] at hfn
       exact hfn.symm)

theorem cards_flip_deadline_eqc (gz : CangkulanGame) (a b : Option ℕ) (x : ℕ) :
    (cardsOf { flip_next_card gz with deadline_nonce := a, deadline_ledger := b }).count x
      = (cardsOf (flip_next_card gz)).count x := by
  have h1 : cardsOf { flip_next_card gz with deadline_nonce := a, deadline_ledger := b }
      = cardsOf (flip_next_card gz) := by
    simp [cardsOf]
  rw [h1]

theorem cards_flip_none_count (gz : CangkulanGame) (hf : gz.flipped_card = none)
    (h1 : gz.trick_card1 = none) (h2 : gz.trick_card2 = none) (x : ℕ) :
    (cardsOf (flip_next_card gz)).count x = (cardsOf gz).count x := by
  rcases hp : gz.draw_pile with _ | ⟨c, rest⟩
  · unfold flip_next_card
    rw [hp]
  · rw [flip_next_card_cons gz c rest hp]
    simp only [cardsOf, hp, hf, h1, h2, List.count_append, List.count_cons]
    simp [List.count_cons]
    omega

theorem cards_clear_eq (x : ℕ) : ∀ g1 : CangkulanGame,
    (cardsOf { g1 with flipped_card := none, trick_suit := none, trick_card1 := none, trick_card2 := none, play_commit1 := none, play_commit2 := none, zk_play1 := false, zk_play2 := false }).count x
      + ((g1.flipped_card.toList ++ g1.trick_card1.toList ++ g1.trick_card2.toList).count x)
      = (cardsOf g1).count x := by
  intro g1
  simp only [cardsOf, List.count_append]
  simp
  omega

theorem give_penalty_card_fields (g : CangkulanGame) (slot : ℕ) :
    (give_penalty_card g slot).flipped_card = g.flipped_card ∧
    (give_penalty_card g slot).trick_card1 = g.trick_card1 ∧
    (give_penalty_card g slot).trick_card2 = g.trick_card2 := by
  unfold give_penalty_card
  repeat' split
  all_goals exact ⟨rfl, rfl, rfl⟩

theorem resolve_trick_count_lower (E : HostEnv) (led sid : ℕ) (g : CangkulanGame)
    (s : Storage) (x : ℕ) :
    (cardsOf g).count x ≤ (cardsOf ((resolve_trick E led sid g s).2.1)).count x
      + ((g.flipped_card.toList ++ g.trick_card1.toList ++ g.trick_card2.toList).count x) := by
  unfold resolve_trick
  cases htc1 : g.trick_card1 with
  | none =>
    cases htc2 : g.trick_card2 with
    | none =>
      dsimp only
      have hperm1 : (cardsOf g).count x = (cardsOf g).count x := rfl
      have hftc : (((g).flipped_card.toList ++ (g).trick_card1.toList ++ (g).trick_card2.toList).count x) = ((g.flipped_card.toList ++ (none : Option ℕ).toList ++ (none : Option ℕ).toList).count x) := (by simp [htc1, htc2])
      split
      · rw [cards_finalize]
        refine le_trans (le_of_eq hperm1.symm) ?_
        refine le_trans (le_of_eq (cards_clear_eq x g).symm) ?_
        exact Nat.add_le_add le_rfl (le_of_eq hftc)
      · split
        · rw [cards_finalize]
          refine le_trans (le_of_eq hperm1.symm) ?_
          refine le_trans (le_of_eq (cards_clear_eq x g).symm) ?_
          exact Nat.add_le_add le_rfl (le_of_eq hftc)
        · refine le_trans (le_of_eq hperm1.symm) ?_
          refine le_trans (le_of_eq (cards_clear_eq x g).symm) ?_
          refine Nat.add_le_add (le_of_eq ?_) (le_of_eq hftc)
          exact ((cards_flip_deadline_eqc _ _ _ x).trans (cards_flip_none_count _ (by simp) (by simp) (by simp) x)).symm
    | some c2 =>
      dsimp only
      have hperm1 : (cardsOf (give_penalty_card { g with trick_card1 := none, trick_card2 := some c2, tricks_won2 := g.tricks_won2 + 1 } PLAYER_1)).count x = (cardsOf g).count x := ((cards_give_penalty { g with trick_card1 := none, trick_card2 := some c2, tricks_won2 := g.tricks_won2 + 1 } PLAYER_1).count_eq x).trans (by simp [cardsOf, htc1, htc2])
      have hftc : ((((give_penalty_card { g with trick_card1 := none, trick_card2 := some c2, tricks_won2 := g.tricks_won2 + 1 } PLAYER_1)).flipped_card.toList ++ ((give_penalty_card { g with trick_card1 := none, trick_card2 := some c2, tricks_won2 := g.tricks_won2 + 1 } PLAYER_1)).trick_card1.toList ++ ((give_penalty_card { g with trick_card1 := none, trick_card2 := some c2, tricks_won2 := g.tricks_won2 + 1 } PLAYER_1)).trick_card2.toList).count x) = ((g.flipped_card.toList ++ (none : Option ℕ).toList ++ (some c2 : Option ℕ).toList).count x) := (by simp [(give_penalty_card_fields { g with trick_card1 := none, trick_card2 := some c2, tricks_won2 := g.tricks_won2 + 1 } PLAYER_1).1, (give_penalty_card_fields { g with trick_card1 := none, trick_card2 := some c2, tricks_won2 := g.tricks_won2 + 1 } PLAYER_1).2.1, (give_penalty_card_fields { g with trick_card1 := none, trick_card2 := some c2, tricks_won2 := g.tricks_won2 + 1 } PLAYER_1).2.2, htc1, htc2])
      split
      · rw [cards_finalize]
        refine le_trans (le_of_eq hperm1.symm) ?_
        refine le_trans (le_of_eq (cards_clear_eq x (give_penalty_card { g with trick_card1 := none, trick_card2 := some c2, tricks_won2 := g.tricks_won2 + 1 } PLAYER_1)).symm) ?_
        exact Nat.add_le_add le_rfl (le_of_eq hftc)
      · split
        · rw [cards_finalize]
          refine le_trans (le_of_eq hperm1.symm) ?_
          refine le_trans (le_of_eq (cards_clear_eq x (give_penalty_card { g with trick_card1 := none, trick_card2 := some c2, tricks_won2 := g.tricks_won2 + 1 } PLAYER_1)).symm) ?_
          exact Nat.add_le_add le_rfl (le_of_eq hftc)
        · refine le_trans (le_of_eq hperm1.symm) ?_
          refine le_trans (le_of_eq (cards_clear_eq x (give_penalty_card { g with trick_card1 := none, trick_card2 := some c2, tricks_won2 := g.tricks_won2 + 1 } PLAYER_1)).symm) ?_
          refine Nat.add_le_add (le_of_eq ?_) (le_of_eq hftc)
          exact ((cards_flip_deadline_eqc _ _ _ x).trans (cards_flip_none_count _ (by simp) (by simp) (by simp) x)).symm
  | some c1 =>
    cases htc2 : g.trick_card2 with
    | none =>
      dsimp only
      have hperm1 : (cardsOf (give_penalty_card { g with trick_card1 := some c1, trick_card2 := none, tricks_won1 := g.tricks_won1 + 1 } PLAYER_2)).count x = (cardsOf g).count x := ((cards_give_penalty { g with trick_card1 := some c1, trick_card2 := none, tricks_won1 := g.tricks_won1 + 1 } PLAYER_2).count_eq x).trans (by simp [cardsOf, htc1, htc2])
      have hftc : ((((give_penalty_card { g with trick_card1 := some c1, trick_card2 := none, tricks_won1 := g.tricks_won1 + 1 } PLAYER_2)).flipped_card.toList ++ ((give_penalty_card { g with trick_card1 := some c1, trick_card2 := none, tricks_won1 := g.tricks_won1 + 1 } PLAYER_2)).trick_card1.toList ++ ((give_penalty_card { g with trick_card1 := some c1, trick_card2 := none, tricks_won1 := g.tricks_won1 + 1 } PLAYER_2)).trick_card2.toList).count x) = ((g.flipped_card.toList ++ (some c1 : Option ℕ).toList ++ (none : Option ℕ).toList).count x) := (by simp [(give_penalty_card_fields { g with trick_card1 := some c1, trick_card2 := none, tricks_won1 := g.tricks_won1 + 1 } PLAYER_2).1, (give_penalty_card_fields { g with trick_card1 := some c1, trick_card2 := none, tricks_won1 := g.tricks_won1 + 1 } PLAYER_2).2.1, (give_penalty_card_fields { g with trick_card1 := some c1, trick_card2 := none, tricks_won1 := g.tricks_won1 + 1 } PLAYER_2).2.2, htc1, htc2])
      split
      · rw [cards_finalize]
        refine le_trans (le_of_eq hperm1.symm) ?_
        refine le_trans (le_of_eq (cards_clear_eq x (give_penalty_card { g with trick_card1 := some c1, trick_card2 := none, tricks_won1 := g.tricks_won1 + 1 } PLAYER_2)).symm) ?_
        exact Nat.add_le_add le_rfl (le_of_eq hftc)
      · split
        · rw [cards_finalize]
          refine le_trans (le_of_eq hperm1.symm) ?_
          refine le_trans (le_of_eq (cards_clear_eq x (give_penalty_card { g with trick_card1 := some c1, trick_card2 := none, tricks_won1 := g.tricks_won1 + 1 } PLAYER_2)).symm) ?_
          exact Nat.add_le_add le_rfl (le_of_eq hftc)
        · refine le_trans (le_of_eq hperm1.symm) ?_
          refine le_trans (le_of_eq (cards_clear_eq x (give_penalty_card { g with trick_card1 := some c1, trick_card2 := none, tricks_won1 := g.tricks_won1 + 1 } PLAYER_2)).symm) ?_
          refine Nat.add_le_add (le_of_eq ?_) (le_of_eq hftc)
          exact ((cards_flip_deadline_eqc _ _ _ x).trans (cards_flip_none_count _ (by simp) (by simp) (by simp) x)).symm
    | some c2 =>
      dsimp only
      by_cases hv : c2 % CARDS_PER_SUIT ≤ c1 % CARDS_PER_SUIT
      · rw [if_pos hv]
        have hperm1 : (cardsOf { g with trick_card1 := some c1, trick_card2 := some c2, tricks_won1 := g.tricks_won1 + 1 }).count x = (cardsOf g).count x := (by simp [cardsOf, htc1, htc2])
        have hftc : ((({ g with trick_card1 := some c1, trick_card2 := some c2, tricks_won1 := g.tricks_won1 + 1 }).flipped_card.toList ++ ({ g with trick_card1 := some c1, trick_card2 := some c2, tricks_won1 := g.tricks_won1 + 1 }).trick_card1.toList ++ ({ g with trick_card1 := some c1, trick_card2 := some c2, tricks_won1 := g.tricks_won1 + 1 }).trick_card2.toList).count x) = ((g.flipped_card.toList ++ (some c1 : Option ℕ).toList ++ (some c2 : Option ℕ).toList).count x) := (by simp [htc1, htc2])
        split
        · rw [cards_finalize]
          refine le_trans (le_of_eq hperm1.symm) ?_
          refine le_trans (le_of_eq (cards_clear_eq x { g with trick_card1 := some c1, trick_card2 := some c2, tricks_won1 := g.tricks_won1 + 1 }).symm) ?_
          exact Nat.add_le_add le_rfl (le_of_eq hftc)
        · split
          · rw [cards_finalize]
            refine le_trans (le_of_eq hperm1.symm) ?_
            refine le_trans (le_of_eq (cards_clear_eq x { g with trick_card1 := some c1, trick_card2 := some c2, tricks_won1 := g.tricks_won1 + 1 }).symm) ?_
            exact Nat.add_le_add le_rfl (le_of_eq hftc)
          · refine le_trans (le_of_eq hperm1.symm) ?_
            refine le_trans (le_of_eq (cards_clear_eq x { g with trick_card1 := some c1, trick_card2 := some c2, tricks_won1 := g.tricks_won1 + 1 }).symm) ?_
            refine Nat.add_le_add (le_of_eq ?_) (le_of_eq hftc)
            exact ((cards_flip_deadline_eqc _ _ _ x).trans (cards_flip_none_count _ (by simp) (by simp) (by simp) x)).symm
      · rw [if_neg hv]
        have hperm1 : (cardsOf { g with trick_card1 := some c1, trick_card2 := some c2, tricks_won2 := g.tricks_won2 + 1 }).count x = (cardsOf g).count x := (by simp [cardsOf, htc1, htc2])
        have hftc : ((({ g with trick_card1 := some c1, trick_card2 := some c2, tricks_won2 := g.tricks_won2 + 1 }).flipped_card.toList ++ ({ g with trick_card1 := some c1, trick_card2 := some c2, tricks_won2 := g.tricks_won2 + 1 }).trick_card1.toList ++ ({ g with trick_card1 := some c1, trick_card2 := some c2, tricks_won2 := g.tricks_won2 + 1 }).trick_card2.toList).count x) = ((g.flipped_card.toList ++ (some c1 : Option ℕ).toList ++ (some c2 : Option ℕ).toList).count x) := (by simp [htc1, htc2])
        split
        · rw [cards_finalize]
          refine le_trans (le_of_eq hperm1.symm) ?_
          refine le_trans (le_of_eq (cards_clear_eq x { g with trick_card1 := some c1, trick_card2 := some c2, tricks_won2 := g.tricks_won2 + 1 }).symm) ?_
          exact Nat.add_le_add le_rfl (le_of_eq hftc)
        · split
          · rw [cards_finalize]
            refine le_trans (le_of_eq hperm1.symm) ?_
            refine le_trans (le_of_eq (cards_clear_eq x { g with trick_card1 := some c1, trick_card2 := some c2, tricks_won2 := g.tricks_won2 + 1 }).symm) ?_
            exact Nat.add_le_add le_rfl (le_of_eq hftc)
          · refine le_trans (le_of_eq hperm1.symm) ?_
            refine le_trans (le_of_eq (cards_clear_eq x { g with trick_card1 := some c1, trick_card2 := some c2, tricks_won2 := g.tricks_won2 + 1 }).symm) ?_
            refine Nat.add_le_add (le_of_eq ?_) (le_of_eq hftc)
            exact ((cards_flip_deadline_eqc _ _ _ x).trans (cards_flip_none_count _ (by simp) (by simp) (by simp) x)).symm

theorem reveal_play_finish_count (E : HostEnv) (led sid : ℕ) (gx : CangkulanGame)
    (slot : ℕ) (s : Storage) (s2 : Storage) (g' : CangkulanGame)
    (hok : reveal_play_finish E led sid gx slot s = (none, s2))
    (hg' : s2.games sid = some g') (x : ℕ) :
    (cardsOf g').count x ≤ (cardsOf gx).count x ∧
      (cardsOf gx).count x ≤ (cardsOf g').count x
        + ((gx.flipped_card.toList ++ gx.trick_card1.toList ++ gx.trick_card2.toList).count x) := by
  have hcb : cardsOf (bump_nonce (advance_reveal_state gx slot)) = cardsOf gx := by
    simp [cardsOf, bump_nonce, advance_reveal_state]
  have hfl : (bump_nonce (advance_reveal_state gx slot)).flipped_card = gx.flipped_card := rfl
  have ht1 : (bump_nonce (advance_reveal_state gx slot)).trick_card1 = gx.trick_card1 := rfl
  have ht2 : (bump_nonce (advance_reveal_state gx slot)).trick_card2 = gx.trick_card2 := rfl
  revert hok hg'
  unfold reveal_play_finish
  dsimp only
  split
  · split
    · intro hok hg'
      exact Option.noConfusion (congrArg Prod.fst hok)
    · rename_i g3 s1 heq
      intro hok hg'
      have hs2 : write_game sid g3 s1 = s2 := congrArg Prod.snd hok
      rw [← hs2] at hg'
      simp only [write_game, if_pos rfl] at hg'
      injection hg' with e
      have hg3 : (resolve_trick E led sid (bump_nonce (advance_reveal_state gx slot)) s).2.1 = g3 :=
        congrArg (fun p => p.2.1) heq
      constructor
      · rw [← e, ← hg3]
        exact le_trans (resolve_trick_count E led sid _ s x) (le_of_eq (congrArg (List.count x) hcb))
      · have hlow := resolve_trick_count_lower E led sid (bump_nonce (advance_reveal_state gx slot)) s x
        rw [hg3, hcb, hfl, ht1, ht2, e] at hlow
        exact hlow
  · intro hok hg'
    have hs2 : write_game sid { bump_nonce (advance_reveal_state gx slot) with
        deadline_nonce := some (satAdd (bump_nonce (advance_reveal_state gx slot)).action_nonce TIMEOUT_ACTIONS),
        deadline_ledger := some (satAdd led TIMEOUT_LEDGERS) } s = s2 := congrArg Prod.snd hok
    rw [← hs2] at hg'
    simp only [write_game, if_pos rfl] at hg'
    injection hg' with e
    have hce : cardsOf g' = cardsOf gx := by
      rw [← e]; simp [cardsOf, bump_nonce, advance_reveal_state]
    rw [hce]
    exact ⟨le_rfl, Nat.le_add_right _ _⟩

theorem reveal_cangkul_leaf (E : HostEnv) (led sid : ℕ) (g0 : CangkulanGame)
    (slot cid : ℕ) (s s2 : Storage) (g' : CangkulanGame)
    (hok : reveal_play_finish E led sid g0 slot s = (none, s2))
    (hg' : s2.games sid = some g') (x : ℕ) :
    (cardsOf g').count x ≤ (cardsOf g0).count x ∧
      (cardsOf g0).count x ≤ (cardsOf g').count x
        + ((g0.flipped_card.toList ++ g0.trick_card1.toList ++ g0.trick_card2.toList ++ [cid]).count x) := by
  obtain ⟨h1, h2⟩ := reveal_play_finish_count E led sid g0 slot s s2 g' hok hg' x
  refine ⟨h1, le_trans h2 ?_⟩
  simp only [List.count_append]
  omega

theorem reveal_move_leaf_tc1 (E : HostEnv) (led sid : ℕ) (g0 : CangkulanGame)
    (slot cid pos : ℕ) (s s2 : Storage) (g' : CangkulanGame)
    (hsl : slot = PLAYER_1)
    (hpos : find_card_position (get_hand g0 slot) cid = some pos)
    (hok : reveal_play_finish E led sid
      { set_hand g0 slot ((get_hand g0 slot).eraseIdx pos) with trick_card1 := some cid }
      slot s = (none, s2))
    (hg' : s2.games sid = some g') (x : ℕ) :
    (cardsOf g').count x ≤ (cardsOf g0).count x ∧
      (cardsOf g0).count x ≤ (cardsOf g').count x
        + ((g0.flipped_card.toList ++ g0.trick_card1.toList ++ g0.trick_card2.toList ++ [cid]).count x) := by
  obtain ⟨h1, h2⟩ := reveal_play_finish_count E led sid _ slot s s2 g' hok hg' x
  have hfc := find_card_count (get_hand g0 slot) cid pos hpos x
  simp only [get_hand, set_hand, if_pos hsl] at hfc h1 h2
  simp only [cardsOf, List.count_append] at h1 h2 ⊢
  simp only [Option.toList_some, List.count_cons, List.count_nil, List.count_append, beq_iff_eq] at h1 h2 ⊢
  omega

theorem reveal_move_leaf_tc2 (E : HostEnv) (led sid : ℕ) (g0 : CangkulanGame)
    (slot cid pos : ℕ) (s s2 : Storage) (g' : CangkulanGame)
    (hsl : ¬(slot = PLAYER_1))
    (hpos : find_card_position (get_hand g0 slot) cid = some pos)
    (hok : reveal_play_finish E led sid
      { set_hand g0 slot ((get_hand g0 slot).eraseIdx pos) with trick_card2 := some cid }
      slot s = (none, s2))
    (hg' : s2.games sid = some g') (x : ℕ) :
    (cardsOf g').count x ≤ (cardsOf g0).count x ∧
      (cardsOf g0).count x ≤ (cardsOf g').count x
        + ((g0.flipped_card.toList ++ g0.trick_card1.toList ++ g0.trick_card2.toList ++ [cid]).count x) := by
  obtain ⟨h1, h2⟩ := reveal_play_finish_count E led sid _ slot s s2 g' hok hg' x
  have hfc := find_card_count (get_hand g0 slot) cid pos hpos x
  simp only [get_hand, set_hand, if_neg hsl] at hfc h1 h2
  simp only [cardsOf, List.count_append] at h1 h2 ⊢
  simp only [Option.toList_some, List.count_cons, List.count_nil, List.count_append, beq_iff_eq] at h1 h2 ⊢
  omega

theorem reveal_play_cards (E : HostEnv) (led sid player cid : ℕ) (salt : List ℕ)
    (s s2 : Storage) (g0 g' : CangkulanGame)
    (hg : s.games sid = some g0)
    (hok : reveal_play E led sid player cid salt s = (none, s2))
    (hg' : s2.games sid = some g') (x : ℕ) :
    (cardsOf g').count x ≤ (cardsOf g0).count x ∧
      (cardsOf g0).count x ≤ (cardsOf g').count x
        + ((g0.flipped_card.toList ++ g0.trick_card1.toList ++ g0.trick_card2.toList ++ [cid]).count x) := by
  revert hok hg'
  unfold reveal_play
  rw [hg]
  dsimp only
  repeat' split
  all_goals intro hok hg'
  all_goals first
    | exact Option.noConfusion (congrArg Prod.fst hok)
    | exact reveal_cangkul_leaf E led sid g0 _ cid s s2 g' hok hg' x
    | exact reveal_move_leaf_tc1 E led sid g0 _ cid _ s s2 g'
        (by assumption) (by assumption) hok hg' x
    | exact reveal_move_leaf_tc2 E led sid g0 _ cid _ s s2 g'
        (by assumption) (by assumption) hok hg' x

/-- C1: Corrected card conservation.  At every reachable storage state,
every stored session holds pairwise distinct card identifiers below
DECK_SIZE across hand1, hand2, the draw pile, the flipped card and the
two pending trick-card slots, together a sub-permutation of the full
36-card deck; and every entry point conserves the stored card multiset:
a successful start_game stores a session with no cards, commit_seed, the
three commit-play variants, tick_timeout, forfeit, resolve_timeout and a
non-dealing reveal_seed leave the stored card multiset unchanged, the
dealing reveal_seed stores a permutation of the full 36-card deck, and a
successful reveal_play never increases any card's count and decreases
counts only among the previous flipped card, the two pending trick cards
and the revealed card id.  The claimed count identity
|hand1| + |hand2| + |draw_pile| + flip + removed-by-resolved-tricks = 36
is wrong as stated: between a reveal and the trick resolution a played
card sits in a trick-card slot, outside every set the claim counts (see
the counterexample, where the claimed sum is 35). -/
theorem C1_card_conservation (E : HostEnv) :
    (∀ s led, ReachAt E s led → ∀ sid g, s.games sid = some g →
        (cardsOf g).Nodup ∧ (∀ c ∈ cardsOf g, c < DECK_SIZE) ∧
        (cardsOf g).Subperm (List.range DECK_SIZE)) ∧
    (∀ led sid p1 p2 pts1 pts2 s g',
        (start_game E led sid p1 p2 pts1 pts2 s).1 = none →
        (start_game E led sid p1 p2 pts1 pts2 s).2.games sid = some g' →
        cardsOf g' = []) ∧
    (∀ led sid player ch s g g', s.games sid = some g →
        (commit_seed E led sid player ch s).1 = none →
        (commit_seed E led sid player ch s).2.games sid = some g' →
        cardsOf g' = cardsOf g) ∧
    (∀ led sid player sh proof s g g', s.games sid = some g →
        (reveal_seed E led sid player sh proof s).1 = none →
        (reveal_seed E led sid player sh proof s).2.games sid = some g' →
        cardsOf g' = cardsOf g ∨ (cardsOf g').Perm (List.range DECK_SIZE)) ∧
    (∀ led sid player ch en s g g', s.games sid = some g →
        (commit_play E led sid player ch en s).1 = none →
        (commit_play E led sid player ch en s).2.games sid = some g' →
        cardsOf g' = cardsOf g) ∧
    (∀ led sid player ch en zp s g g', s.games sid = some g →
        (commit_play_zk E led sid player ch en zp s).1 = none →
        (commit_play_zk E led sid player ch en zp s).2.games sid = some g' →
        cardsOf g' = cardsOf g) ∧
    (∀ led sid player ch en zp s g g', s.games sid = some g →
        (commit_cangkul_zk E led sid player ch en zp s).1 = none →
        (commit_cangkul_zk E led sid player ch en zp s).2.games sid = some g' →
        cardsOf g' = cardsOf g) ∧
    (∀ led sid player cid salt s g g', s.games sid = some g →
        (reveal_play E led sid player cid salt s).1 = none →
        (reveal_play E led sid player cid salt s).2.games sid = some g' →
        ∀ x, (cardsOf g').count x ≤ (cardsOf g).count x ∧
          (cardsOf g).count x ≤ (cardsOf g').count x
            + ((g.flipped_card.toList ++ g.trick_card1.toList ++
                g.trick_card2.toList ++ [cid]).count x)) ∧
    (∀ led sid caller s g g', s.games sid = some g →
        (tick_timeout E led sid caller s).1 = none →
        (tick_timeout E led sid caller s).2.games sid = some g' →
        cardsOf g' = cardsOf g) ∧
    (∀ led sid caller s g g', s.games sid = some g →
        (forfeit E led sid caller s).1 = none →
        (forfeit E led sid caller s).2.games sid = some g' →
        cardsOf g' = cardsOf g) ∧
    (∀ led sid caller s g g', s.games sid = some g →
        (resolve_timeout E led sid caller s).1 = none →
        (resolve_timeout E led sid caller s).2.games sid = some g' →
        cardsOf g' = cardsOf g) :=
  ⟨fun s led h sid g hg => by
      have hsub : (cardsOf g).Subperm (List.range 36) := CardInv_reach E s led h sid g hg
      obtain ⟨l2, hperm, hsl⟩ := hsub
      have hd : DECK_SIZE = 36 := rfl
      refine ⟨hperm.nodup (hsl.nodup (List.nodup_range 36)), ?_, ?_⟩
      · intro c hc
        rw [hd]
        exact List.mem_range.mp (hsl.subset (hperm.mem_iff.mpr hc))
      · rw [hd]
        exact ⟨l2, hperm, hsl⟩,
   fun led sid p1 p2 pts1 pts2 s g' hok hg' =>
      start_game_cards E led sid p1 p2 pts1 pts2 s g' hok hg',
   fun led sid player ch s g g' hg hok hg' =>
      commit_seed_cards E led sid player ch s g g' hg hok hg',
   fun led sid player sh proof s g g' hg hok hg' =>
      reveal_seed_cards E led sid player sh proof s g g' hg hok hg',
   fun led sid player ch en s g g' hg hok hg' =>
      commit_play_cards E led sid player ch en s g g' hg hok hg',
   fun led sid player ch en zp s g g' hg hok hg' =>
      commit_play_zk_cards E led sid player ch en zp s g g' hg hok hg',
   fun led sid player ch en zp s g g' hg hok hg' =>
      commit_cangkul_zk_cards E led sid player ch en zp s g g' hg hok hg',
   fun led sid player cid salt s g g' hg hok hg' x =>
      reveal_play_cards E led sid player cid salt s
        (reveal_play E led sid player cid salt s).2 g g' hg (by rw [← hok]) hg' x,
   fun led sid caller s g g' hg hok hg' =>
      tick_timeout_cards E led sid caller s g g' hg hok hg',
   fun led sid caller s g g' hg hok hg' =>
      forfeit_cards E led sid caller s g g' hg hok hg',
   fun led sid caller s g g' hg hok hg' =>
      resolve_timeout_cards E led sid caller s g g' hg hok hg'⟩

/-- C1 counterexample: a reachable mid-trick state (player 2 has
revealed card 9, which sits in trick_card2) where no trick has been
resolved yet and the sum counted by the claim is 35, not 36. -/
theorem C1_counterexample :
    ReachAt hostEnv0 s_mid 100 ∧
    s_mid.games 7 = some g_mid ∧
    g_mid.lifecycle_state = STATE_PLAYING ∧
    g_mid.tricks_won1 = 0 ∧ g_mid.tricks_won2 = 0 ∧
    g_mid.hand1.length + g_mid.hand2.length + g_mid.draw_pile.length +
        (if g_mid.flipped_card.isSome then 1 else 0) ≠ DECK_SIZE ∧
    g_mid.trick_card2 = some 9 :=
  ⟨reach_s_mid, by decide, by decide, by decide, by decide, by decide, by decide⟩

/-- C1 witness: the conservation theorem applied to the concrete
reachable mid-trick state, and its reveal_play clause applied to the
concrete reveal of card 9 that produced it. -/
theorem C1_witness :
    ((cardsOf g_mid).Nodup ∧ (∀ c ∈ cardsOf g_mid, c < DECK_SIZE) ∧
      (cardsOf g_mid).Subperm (List.range DECK_SIZE)) ∧
    ((cardsOf g_mid).count 9 ≤ (cardsOf g_play2).count 9 ∧
      (cardsOf g_play2).count 9 ≤ (cardsOf g_mid).count 9
        + ((g_play2.flipped_card.toList ++ g_play2.trick_card1.toList ++
            g_play2.trick_card2.toList ++ [9]).count 9)) :=
  ⟨(C1_card_conservation hostEnv0).1 s_mid 100 reach_s_mid 7 g_mid (by decide),
   (C1_card_conservation hostEnv0).2.2.2.2.2.2.2.1 100 7 11 9 zeros32 s_play2 g_play2 g_mid
     (by decide) (by decide) (by decide) 9⟩

end Cangkulan
